import Mathlib

/-!
# SOFEM-CI `static/js/app.js`: derived-metrics recomputation and form validation

A shallow embedding of the four recomputation functions
(`updateExtrusionCalculations`, `updateImprimerieCalculations`,
`updateSoudureCalculations`, `updateRecyclageCalculations`), of
`validateExtrusionForm` with `showFieldError` and `clearFieldError`, of the
submit handlers of the extrusion and section forms with `submitSectionForm`,
and of `getCurrentPage`.

Number model.  A JavaScript number is an IEEE-754 binary64 value, embedded as
`JSNum`: `NaN`, the two infinities, the negative zero, or a finite double held
by its exact rational value.  Every arithmetic result and every parsed literal
is rounded to the nearest double, ties to the even significand
(`roundToDouble`): 53 significant bits, subnormals down to `2 ^ (-1074)`,
overflow to an infinity, underflow to the zero of the same sign.  Everything
follows ECMAScript: `parseFloat`, `parseInt`, `||`, `>`, `<`, `+`, `/`, `*`,
`Number.prototype.toFixed` and, for the values that `toFixed` hands over to it,
`Number::toString`.

Page model.  The page is the list of its elements in document order, each with
its `id`; an element carries its `value`, `textContent`, `classList`, the path
of its node in the tree, its border colour and its default value.  What happens
around the page (dialogs, banners, requests, native submissions) is recorded in
a `Browser`; the settling of a `fetch` is a step applied to the browser as it is
when the response arrives.
-/

namespace Sofemci

/-! ## JavaScript numbers: IEEE-754 binary64 -/

/-- A JavaScript number value: `NaN`, the two infinities, the negative zero, or
a finite double other than the negative zero, held by its exact value (`fin 0`
is the positive zero).  The operations below only build `fin q` for values `q`
that binary64 represents. -/
inductive JSNum where
  | nan : JSNum
  | posInf : JSNum
  | negInf : JSNum
  | negZero : JSNum
  | fin (q : ℚ) : JSNum
  deriving DecidableEq

/-- The power of two `2 ^ e` for an integer exponent. -/
def pow2 (e : ℤ) : ℚ :=
  if 0 ≤ e then (2 : ℚ) ^ e.toNat else 1 / (2 : ℚ) ^ (-e).toNat

/-- Binary logarithm of a natural number, rounded down, by repeated halving
(`fuel` bounds the number of halvings). -/
def log2Fuel : ℕ → ℕ → ℕ
  | 0, _ => 0
  | fuel + 1, n => if n < 2 then 0 else log2Fuel fuel (n / 2) + 1

/-- Binary logarithm of a natural number, rounded down (0 for 0). -/
def natLog2 (n : ℕ) : ℕ := log2Fuel n n

/-- The integer `e` with `2 ^ e ≤ a < 2 ^ (e + 1)`, for a rational `a > 0`. -/
def floorLog2 (a : ℚ) : ℤ :=
  let e0 : ℤ := (natLog2 a.num.natAbs : ℤ) - (natLog2 a.den : ℤ)
  if a < pow2 e0 then e0 - 1 else e0

/-- The integer nearest to `y`, the even one on a tie. -/
def roundHalfEven (y : ℚ) : ℤ :=
  let f := ⌊y⌋
  let r := y - f
  if r < 1 / 2 then f
  else if 1 / 2 < r then f + 1
  else if f % 2 = 0 then f else f + 1

/-- The binary64 exponent used for a magnitude `a > 0`: that of `a`, and `-1022`
in the subnormal range. -/
def doubleExponent (a : ℚ) : ℤ := max (floorLog2 a) (-1022)

/-- The multiple of the unit in the last place that is nearest to the magnitude
`a > 0`, ties to the even significand (53 significant bits, exponents from
`-1022`; the result may be `0`, or reach `2 ^ 1024`). -/
def roundMagnitude (a : ℚ) : ℚ :=
  let u := pow2 (doubleExponent a - 52)
  (roundHalfEven (a / u) : ℚ) * u

/-- The Number value for a real number (round to nearest, ties to even):
a magnitude that rounds to `2 ^ 1024` overflows to an infinity, one that rounds
to zero underflows to the zero of its sign. -/
def roundToDouble (q : ℚ) : JSNum :=
  if q = 0 then .fin 0
  else if pow2 1024 ≤ roundMagnitude |q| then (if 0 < q then .posInf else .negInf)
  else if roundMagnitude |q| = 0 then (if q < 0 then .negZero else .fin 0)
  else .fin (if q < 0 then -roundMagnitude |q| else roundMagnitude |q|)

/-- A rational number that binary64 represents: rounding leaves it as it is. -/
def IsDouble (q : ℚ) : Prop := roundToDouble q = .fin q

namespace JSNum

/-- Whether the sign bit is set (`NaN` counts as unsigned). -/
def isNegative : JSNum → Bool
  | negInf => true
  | negZero => true
  | fin q => decide (q < 0)
  | _ => false

/-- Whether the number is one of the zeros. -/
def isZero : JSNum → Bool
  | negZero => true
  | fin q => decide (q = 0)
  | _ => false

/-- Whether the number is one of the infinities. -/
def isInfinite : JSNum → Bool
  | posInf => true
  | negInf => true
  | _ => false

/-- The infinity that has the sign of `positive`. -/
def signedInf (positive : Bool) : JSNum :=
  if positive then posInf else negInf

/-- The zero with the given sign bit. -/
def signedZero (negative : Bool) : JSNum :=
  if negative then negZero else fin 0

/-- JavaScript `x + y`. -/
def add : JSNum → JSNum → JSNum
  | nan, _ => nan
  | _, nan => nan
  | posInf, negInf => nan
  | negInf, posInf => nan
  | posInf, _ => posInf
  | negInf, _ => negInf
  | _, posInf => posInf
  | _, negInf => negInf
  | negZero, y => y
  | x, negZero => x
  | fin a, fin b => roundToDouble (a + b)

/-- JavaScript `x * y`. -/
def mul : JSNum → JSNum → JSNum
  | nan, _ => nan
  | _, nan => nan
  | fin a, fin b =>
    if a = 0 ∨ b = 0 then signedZero (decide (a < 0) != decide (b < 0))
    else roundToDouble (a * b)
  | x, y =>
    if (x.isInfinite && y.isZero) || (x.isZero && y.isInfinite) then nan
    else if x.isInfinite || y.isInfinite then signedInf (x.isNegative == y.isNegative)
    else signedZero (x.isNegative != y.isNegative)

/-- JavaScript `x / y`. -/
def div : JSNum → JSNum → JSNum
  | nan, _ => nan
  | _, nan => nan
  | fin a, fin b =>
    if b = 0 then
      if a = 0 then nan else signedInf (decide (0 < a))
    else if a = 0 then signedZero (decide (b < 0))
    else roundToDouble (a / b)
  | x, y =>
    if (x.isInfinite && y.isInfinite) || (x.isZero && y.isZero) then nan
    else if x.isInfinite || y.isZero then signedInf (x.isNegative == y.isNegative)
    else signedZero (x.isNegative != y.isNegative)

/-- JavaScript `x > y` (false as soon as one side is `NaN`; the two zeros are
equal). -/
def gt : JSNum → JSNum → Bool
  | nan, _ => false
  | _, nan => false
  | posInf, posInf => false
  | posInf, _ => true
  | negInf, _ => false
  | _, posInf => false
  | _, negInf => true
  | negZero, negZero => false
  | negZero, fin b => decide (b < 0)
  | fin a, negZero => decide (0 < a)
  | fin a, fin b => decide (b < a)

/-- JavaScript `x < y` (false as soon as one side is `NaN`). -/
def lt (x y : JSNum) : Bool := gt y x

/-- JavaScript truthiness of a number: `NaN` and the zeros are falsy. -/
def truthy : JSNum → Bool
  | nan => false
  | negZero => false
  | fin q => decide (q ≠ 0)
  | _ => true

/-- JavaScript `x || d` on numbers. -/
def orElse (x d : JSNum) : JSNum :=
  if x.truthy then x else d

/-- JavaScript unary minus. -/
def neg : JSNum → JSNum
  | nan => nan
  | posInf => negInf
  | negInf => posInf
  | negZero => fin 0
  | fin q => if q = 0 then negZero else fin (-q)

/-- The real number that a finite JavaScript number denotes (both zeros denote
0); `none` for `NaN` and the infinities. -/
def toRat : JSNum → Option ℚ
  | fin q => some q
  | negZero => some 0
  | _ => none

/-- A number that the operations can produce: a finite one is a double. -/
def Valid : JSNum → Prop
  | fin q => IsDouble q
  | _ => True

end JSNum

/-! ## `Number.prototype.toFixed(1)` -/

/-- Decimal digits of a natural number, as a string. -/
def digitString (n : ℕ) : String := String.mk (Nat.toDigits 10 n)

/-- Drop the trailing `'0'` characters of a digit list. -/
def dropTrailingZeros (ds : List Char) : List Char :=
  (ds.reverse.dropWhile (fun c => c == '0')).reverse

/-- Exponential form of a natural number `c ≥ 1`: its significant digits, a
point after the first one when there are several, `e+` and the exponent. -/
def exponentString (c : ℕ) : String :=
  let ds := Nat.toDigits 10 c
  let e := ds.length - 1
  match dropTrailingZeros ds with
  | [] => "0"
  | [d] => String.mk [d] ++ "e+" ++ digitString e
  | d :: rest => String.mk (d :: '.' :: rest) ++ "e+" ++ digitString e

/-- The decimals `s × 10 ^ (n - k)` with `k` significant digits
(`10 ^ (k - 1) ≤ s < 10 ^ k`) whose Number value is the double `x`: only the two
multiples of `10 ^ (n - k)` around `x` can be nearest to it. -/
def roundTripCandidates (x n k : ℕ) : List ℕ :=
  let p := 10 ^ (n - k)
  ([x / p, x / p + 1].filter (fun s =>
    decide (10 ^ (k - 1) ≤ s) && decide (s < 10 ^ k) &&
      decide (roundToDouble ((s * p : ℕ) : ℚ) = .fin (x : ℚ)))).map (fun s => s * p)

/-- Of two decimals, the one nearer to `x`; on a tie the one with the even
digit string (`p` is the power of ten that both are multiples of). -/
def nearerDecimal (x p : ℕ) (c d : ℕ) : ℕ :=
  let dc := if c ≤ x then x - c else c - x
  let dd := if d ≤ x then x - d else d - x
  if dc < dd then c
  else if dd < dc then d
  else if (c / p) % 2 = 0 then c else d

/-- The decimal with `k` significant digits chosen by `Number::toString` for the
integer double `x` with `digits` decimal digits, if there is one (its decimal
exponent `n` is `digits` or `digits + 1`). -/
def shortestWithDigits (x digits k : ℕ) : Option ℕ :=
  match roundTripCandidates x digits k, roundTripCandidates x (digits + 1) k with
  | c :: cs, _ => some (cs.foldl (nearerDecimal x (10 ^ (digits - k))) c)
  | [], c :: cs => some (cs.foldl (nearerDecimal x (10 ^ (digits + 1 - k))) c)
  | [], [] => none

/-- The decimal that `Number::toString` prints for an integer double
`x ≥ 10 ^ 21`: the one with the fewest significant digits whose Number value is
`x` (nearest to `x` when there are several). -/
def shortestRoundTrip (x : ℕ) : ℕ :=
  let digits := (Nat.toDigits 10 x).length
  ((List.range digits).findSome? (fun i => shortestWithDigits x digits (i + 1))).getD x

/-- The integer `n` for which `n / 10 - x` is closest to zero, the larger one
on a tie (`x ≥ 0`). -/
def nearestTenth (x : ℚ) : ℕ := (⌊x * 10 + 1 / 2⌋).toNat

/-- The digits of `n` with a decimal point before the last one
(`n = 63` gives `"6.3"`, `n = 5` gives `"0.5"`). -/
def fixedDigits (n : ℕ) : String :=
  digitString (n / 10) ++ "." ++ digitString (n % 10)

/-- Body of `toFixed(1)` for a non-negative finite value: from `10 ^ 21` on,
where every double is an integer, the text is that of `Number::toString`. -/
def toFixedAbs (x : ℚ) : String :=
  if (10 : ℚ) ^ 21 ≤ x then exponentString (shortestRoundTrip (⌊x⌋).toNat)
  else fixedDigits (nearestTenth x)

/-- JavaScript `x.toFixed(1)`. -/
def toFixed1 : JSNum → String
  | .nan => "NaN"
  | .posInf => "Infinity"
  | .negInf => "-Infinity"
  | .negZero => "0.0"
  | .fin q => if q < 0 then "-" ++ toFixedAbs (-q) else toFixedAbs q

/-! ## `parseFloat` and `parseInt` -/

/-- The white space and line terminator code points that `parseFloat` and
`parseInt` skip at the start of their argument. -/
def isStrWhiteSpaceChar (c : Char) : Bool :=
  let n := c.toNat
  n == 9 || n == 10 || n == 11 || n == 12 || n == 13 || n == 32 || n == 160 ||
  n == 5760 || (8192 ≤ n && n ≤ 8202) || n == 8232 || n == 8233 || n == 8239 ||
  n == 8287 || n == 12288 || n == 65279

/-- JavaScript `TrimString(s, start)` on a character list. -/
def trimStart (cs : List Char) : List Char := cs.dropWhile isStrWhiteSpaceChar

/-- The leading decimal digits of a character list. -/
def leadingDigits (cs : List Char) : List Char := cs.takeWhile Char.isDigit

/-- Value of a list of decimal digits. -/
def digitsValue (ds : List Char) : ℕ :=
  ds.foldl (fun n c => 10 * n + (c.toNat - 48)) 0

/-- The power of ten `10 ^ e` for an integer exponent. -/
def pow10 (e : ℤ) : ℚ :=
  if 0 ≤ e then (10 : ℚ) ^ e.toNat else 1 / (10 : ℚ) ^ (-e).toNat

/-- Exponent denoted by the longest `ExponentPart` (`e` or `E`, an optional
sign, at least one digit) at the start of `cs`; 0 when there is none. -/
def exponentOf (cs : List Char) : ℤ :=
  match cs with
  | [] => 0
  | c :: rest =>
    if c == 'e' || c == 'E' then
      match rest with
      | [] => 0
      | s :: r =>
        if s == '-' then -((digitsValue (leadingDigits r) : ℕ) : ℤ)
        else if s == '+' then ((digitsValue (leadingDigits r) : ℕ) : ℤ)
        else ((digitsValue (leadingDigits rest) : ℕ) : ℤ)
    else 0

/-- Number value of the longest prefix of `cs` that is a
`StrUnsignedDecimalLiteral` (`Infinity`, `digits . digits? exponent?`,
`. digits exponent?` or `digits exponent?`): the double nearest to the decimal
it denotes, as the engines compute it (ECMAScript also allows the digits after
the twentieth significant one to be ignored); `NaN` when no prefix is one. -/
def strUnsignedDecimalLiteral (cs : List Char) : JSNum :=
  if "Infinity".toList.isPrefixOf cs then .posInf
  else
    let ip := leadingDigits cs
    match cs.drop ip.length with
    | '.' :: r2 =>
      let fp := leadingDigits r2
      if ip.isEmpty && fp.isEmpty then .nan
      else roundToDouble (((digitsValue ip : ℚ) + (digitsValue fp : ℚ) / (10 : ℚ) ^ fp.length)
                  * pow10 (exponentOf (r2.drop fp.length)))
    | r1 =>
      if ip.isEmpty then .nan else roundToDouble ((digitsValue ip : ℚ) * pow10 (exponentOf r1))

/-- JavaScript `parseFloat(s)` for a string `s`. -/
def parseFloatString (s : String) : JSNum :=
  match trimStart s.toList with
  | '-' :: cs => (strUnsignedDecimalLiteral cs).neg
  | '+' :: cs => strUnsignedDecimalLiteral cs
  | cs => strUnsignedDecimalLiteral cs

/-- Value of a digit in the given radix (10 or 16), if it is one. -/
def radixDigit? (radix : ℕ) (c : Char) : Option ℕ :=
  if c.isDigit then some (c.toNat - 48)
  else if radix = 16 && 'a'.toNat ≤ c.toNat && c.toNat ≤ 'f'.toNat then some (c.toNat - 87)
  else if radix = 16 && 'A'.toNat ≤ c.toNat && c.toNat ≤ 'F'.toNat then some (c.toNat - 55)
  else none

/-- Value of the longest prefix of `cs` made of digits of the radix, with the
number of digits read. -/
def radixValue (radix : ℕ) : List Char → ℕ → ℕ → ℕ × ℕ
  | [], acc, k => (acc, k)
  | c :: cs, acc, k =>
    match radixDigit? radix c with
    | some d => radixValue radix cs (radix * acc + d) (k + 1)
    | none => (acc, k)

/-- The Number value of the integer that `parseInt` reads after the sign: radix
16 after a `0x` or `0X`, radix 10 otherwise, rounded to the nearest double as
the engines do; `NaN` when no digit follows. -/
def parseIntUnsigned (cs : List Char) : JSNum :=
  match cs with
  | '0' :: x :: rest =>
    if x == 'x' || x == 'X' then
      match radixValue 16 rest 0 0 with
      | (_, 0) => .nan
      | (v, _) => roundToDouble v
    else
      match radixValue 10 cs 0 0 with
      | (_, 0) => .nan
      | (v, _) => roundToDouble v
  | _ =>
    match radixValue 10 cs 0 0 with
    | (_, 0) => .nan
    | (v, _) => roundToDouble v

/-- JavaScript `parseInt(s)` (no radix argument) for a string `s`. -/
def parseIntString (s : String) : JSNum :=
  match trimStart s.toList with
  | '-' :: cs => (parseIntUnsigned cs).neg
  | '+' :: cs => parseIntUnsigned cs
  | cs => parseIntUnsigned cs

/-- JavaScript `ToString` of the argument of `parseFloat` / `parseInt`:
`undefined` (here `none`) becomes the string `"undefined"`. -/
def argToString : Option String → String
  | none => "undefined"
  | some s => s

/-- JavaScript `parseFloat(v)` where `v` is a string or `undefined`. -/
def parseFloat (v : Option String) : JSNum := parseFloatString (argToString v)

/-- JavaScript `parseInt(v)` where `v` is a string or `undefined`. -/
def parseInt (v : Option String) : JSNum := parseIntString (argToString v)

/-! ## The page -/

/-- An element of the page: its `value` property (`none` is `undefined`, for an
element that has none), its `textContent`, its `classList`, the path of its node
in the tree (the labels of the child taken at each level, from the document
down; only the validation functions read it), its `style.borderColor` and its
`defaultValue` (what `form.reset()` puts back in a control). -/
structure Element where
  value : Option String := none
  textContent : String := ""
  classList : List String := []
  path : List ℕ := []
  borderColor : String := ""
  defaultValue : String := ""
  deriving DecidableEq

/-- The page: its elements in document order, each with its `id`. -/
abbrev Document := List (String × Element)

/-- JavaScript `document.getElementById(id)`: the first element with that id. -/
def getElementById : Document → String → Option Element
  | [], _ => none
  | (i, e) :: rest, id => if i = id then some e else getElementById rest id

/-- JavaScript `document.getElementById(id)?.value`. -/
def fieldValue (doc : Document) (id : String) : Option String :=
  (getElementById doc id).bind Element.value

/-- JavaScript `const el = document.getElementById(id); if (el) el.textContent = s;`. -/
def setTextContent : Document → String → String → Document
  | [], _, _ => []
  | (i, e) :: rest, id, s =>
    if i = id then (i, { e with textContent := s }) :: rest
    else (i, e) :: setTextContent rest id s

/-- The text displayed by the element `id`, if the page has one. -/
def textOf (doc : Document) (id : String) : Option String :=
  (getElementById doc id).map Element.textContent

/-- JavaScript `parseFloat(v) || 0`: the value read from a measured field. -/
def floatOrZero (v : Option String) : JSNum := (parseFloat v).orElse (.fin 0)

/-- JavaScript `parseInt(v) || 1`: the value read from a count field. -/
def intOrOne (v : Option String) : JSNum := (parseInt v).orElse (.fin 1)

/-- JavaScript `parseFloat(document.getElementById(id)?.value) || 0`. -/
def readFloat (doc : Document) (id : String) : JSNum := floatOrZero (fieldValue doc id)

/-- JavaScript `parseInt(document.getElementById(id)?.value) || 1`. -/
def readCount (doc : Document) (id : String) : JSNum := intOrOne (fieldValue doc id)

/-! ## The four recomputation functions -/

/-- The function `updateExtrusionCalculations` of `app.js`. -/
def updateExtrusionCalculations (doc : Document) : Document :=
  let prodFinis := readFloat doc "prod_finis"
  let prodSemiFinis := readFloat doc "prod_semi_finis"
  let dechets := readFloat doc "dechets"
  let matierePremiereValue := readFloat doc "matiere_premiere"
  let nbMachines := readCount doc "nb_machines"
  let totalProduction := prodFinis.add prodSemiFinis
  let rendement :=
    if matierePremiereValue.gt (.fin 0) then (totalProduction.div matierePremiereValue).mul (.fin 100)
    else .fin 0
  let tauxDechet :=
    if totalProduction.gt (.fin 0) then (dechets.div (totalProduction.add dechets)).mul (.fin 100)
    else .fin 0
  let prodParMachine :=
    if nbMachines.gt (.fin 0) then totalProduction.div nbMachines else .fin 0
  let doc1 := setTextContent doc "total_production" (toFixed1 totalProduction)
  let doc2 := setTextContent doc1 "rendement" (toFixed1 rendement)
  let doc3 := setTextContent doc2 "taux_dechet" (toFixed1 tauxDechet)
  setTextContent doc3 "prod_par_machine" (toFixed1 prodParMachine)

/-- The function `updateImprimerieCalculations` of `app.js`. -/
def updateImprimerieCalculations (doc : Document) : Document :=
  let bobinesFinies := readFloat doc "imp_bobines_finies"
  let bobinesSemiFinies := readFloat doc "imp_bobines_semi_finies"
  let dechets := readFloat doc "imp_dechets"
  let totalProduction := bobinesFinies.add bobinesSemiFinies
  let tauxDechet :=
    if (totalProduction.add dechets).gt (.fin 0) then
      (dechets.div (totalProduction.add dechets)).mul (.fin 100)
    else .fin 0
  let doc1 := setTextContent doc "imp_total_production" (toFixed1 totalProduction)
  setTextContent doc1 "imp_taux_dechet" (toFixed1 tauxDechet)

/-- The function `updateSoudureCalculations` of `app.js`. -/
def updateSoudureCalculations (doc : Document) : Document :=
  let bobinesFinies := readFloat doc "sou_bobines_finies"
  let bretelles := readFloat doc "sou_bretelles"
  let rema := readFloat doc "sou_rema"
  let batta := readFloat doc "sou_batta"
  let dechets := readFloat doc "sou_dechets"
  let totalSpecifique := (bretelles.add rema).add batta
  let totalProduction := bobinesFinies.add totalSpecifique
  let tauxDechet :=
    if (totalProduction.add dechets).gt (.fin 0) then
      (dechets.div (totalProduction.add dechets)).mul (.fin 100)
    else .fin 0
  let doc1 := setTextContent doc "sou_total_production" (toFixed1 totalProduction)
  let doc2 := setTextContent doc1 "sou_total_specifique" (toFixed1 totalSpecifique)
  setTextContent doc2 "sou_taux_dechet" (toFixed1 tauxDechet)

/-- The function `updateRecyclageCalculations` of `app.js`. -/
def updateRecyclageCalculations (doc : Document) : Document :=
  let broyage := readFloat doc "rec_broyage"
  let bacheNoir := readFloat doc "rec_bache_noir"
  let nbMoulinex := readCount doc "rec_nb_moulinex"
  let totalProduction := broyage.add bacheNoir
  let prodParMoulinex :=
    if nbMoulinex.gt (.fin 0) then totalProduction.div nbMoulinex else .fin 0
  let tauxTransformation :=
    if broyage.gt (.fin 0) then (bacheNoir.div broyage).mul (.fin 100) else .fin 0
  let doc1 := setTextContent doc "rec_total_production" (toFixed1 totalProduction)
  let doc2 := setTextContent doc1 "rec_prod_par_moulinex" (toFixed1 prodParMoulinex)
  setTextContent doc2 "rec_taux_transformation" (toFixed1 tauxTransformation)

/-- An input element holding the given text. -/
def inputElement (v : String) : Element := { value := some v }

/-- An output element (a `span`): no `value`, empty text. -/
def outputElement : Element := {}

/-- The extrusion page with the five fields filled as given and the four
outputs. -/
def extrusionPage (prodFinis prodSemiFinis dechets matierePremiere nbMachines : String) :
    Document :=
  [("prod_finis", inputElement prodFinis), ("prod_semi_finis", inputElement prodSemiFinis),
   ("dechets", inputElement dechets), ("matiere_premiere", inputElement matierePremiere),
   ("nb_machines", inputElement nbMachines),
   ("total_production", outputElement), ("rendement", outputElement),
   ("taux_dechet", outputElement), ("prod_par_machine", outputElement)]

/-- The printing panel with its three fields filled as given and its two
outputs. -/
def imprimeriePage (bobinesFinies bobinesSemiFinies dechets : String) : Document :=
  [("imp_bobines_finies", inputElement bobinesFinies),
   ("imp_bobines_semi_finies", inputElement bobinesSemiFinies),
   ("imp_dechets", inputElement dechets),
   ("imp_total_production", outputElement), ("imp_taux_dechet", outputElement)]

/-- The welding panel with its five fields filled as given and its three
outputs. -/
def soudurePage (bobinesFinies bretelles rema batta dechets : String) : Document :=
  [("sou_bobines_finies", inputElement bobinesFinies), ("sou_bretelles", inputElement bretelles),
   ("sou_rema", inputElement rema), ("sou_batta", inputElement batta),
   ("sou_dechets", inputElement dechets),
   ("sou_total_production", outputElement), ("sou_total_specifique", outputElement),
   ("sou_taux_dechet", outputElement)]

/-- The recycling panel with its three fields filled as given and its three
outputs. -/
def recyclagePage (broyage bacheNoir nbMoulinex : String) : Document :=
  [("rec_broyage", inputElement broyage), ("rec_bache_noir", inputElement bacheNoir),
   ("rec_nb_moulinex", inputElement nbMoulinex),
   ("rec_total_production", outputElement), ("rec_prod_par_moulinex", outputElement),
   ("rec_taux_transformation", outputElement)]

/-! ## Validation of the extrusion form

The tree of the page is carried by the paths of the elements: the document is
the node `[]`, the root element has a path of length 1, the parent of the node
at `p ++ [k]` is the node at `p`, and the node at `p` contains the node at `q`
when `p` is a proper prefix of `q`.  An element with an empty path is not in the
tree.  The page lists its elements in document order. -/

/-- The errors that the functions of `app.js` modelled here can raise: the
`TypeError` of reading a property of `null` or `undefined`, and the
`HierarchyRequestError` of appending a second element to the document. -/
inductive JSError where
  | typeError : JSError
  | hierarchyRequestError : JSError
  deriving DecidableEq

deriving instance DecidableEq for Except

/-- Whether the element is a descendant of the node at `p`. -/
def isDescendantOf (p : List ℕ) (e : Element) : Bool :=
  p.isPrefixOf e.path && decide (e.path ≠ p)

/-- Whether the element matches `.field-error` below the node at `p`. -/
def matchesFieldError (p : List ℕ) (x : String × Element) : Bool :=
  isDescendantOf p x.2 && x.2.classList.contains "field-error"

/-- JavaScript `parent.querySelector('.field-error')` for the node at `p`: the
first descendant, in document order, that carries the class. -/
def querySelectorFieldError (doc : Document) (p : List ℕ) : Option Element :=
  (doc.find? (matchesFieldError p)).map Prod.snd

/-- JavaScript `node.remove()` for the node at `p`: the node leaves the page
with everything it contains. -/
def removeNode (doc : Document) (p : List ℕ) : Document :=
  doc.filter (fun x => !p.isPrefixOf x.2.path)

/-- Whether the element is in the tree of the page. -/
def isConnected (doc : Document) (e : Element) : Bool :=
  decide (e.path ≠ []) && doc.any (fun x => decide (x.2.path = e.path))

/-- JavaScript `element.parentNode`: the path of the parent, `none` (`null`)
for an element that is not in the tree. -/
def parentNode (doc : Document) (e : Element) : Option (List ℕ) :=
  if isConnected doc e then some e.path.dropLast else none

/-- The entry `x` of the page after `element.style.borderColor = c` for the
element `e`: only the entry of that element changes. -/
def withBorderColor (e : Element) (c : String) (x : String × Element) : String × Element :=
  if e.path ≠ [] ∧ x.2.path = e.path then (x.1, { x.2 with borderColor := c }) else x

/-- A change of the entries of the page that keeps the id, the value, the classes
and the place of each. -/
def KeepsCore (g : String × Element → String × Element) : Prop :=
  ∀ x, (g x).1 = x.1 ∧ (g x).2.value = x.2.value ∧ (g x).2.classList = x.2.classList ∧
    (g x).2.path = x.2.path

/-- JavaScript `element.style.borderColor = c` (an element that has left the
page keeps its style to itself). -/
def setBorderColor (doc : Document) (e : Element) (c : String) : Document :=
  doc.map (withBorderColor e c)

/-- The label of the child of the node at `p` through which the element is
reached, if the element is below that node. -/
def childLabel (p : List ℕ) (x : String × Element) : Option ℕ :=
  if p.isPrefixOf x.2.path then (x.2.path.drop p.length).head? else none

/-- A label that no child of the node at `p` carries. -/
def freshChildLabel (doc : Document) (p : List ℕ) : ℕ :=
  (doc.filterMap (childLabel p)).foldr max 0 + 1

/-- Insert an element right after the last element of the page that is the node
at `p` or is contained in it. -/
def insertAfterSubtree (p : List ℕ) (new : String × Element) : Document → Document
  | [] => [new]
  | x :: rest =>
    if p.isPrefixOf x.2.path || rest.any (fun y => p.isPrefixOf y.2.path) then
      x :: insertAfterSubtree p new rest
    else new :: x :: rest

/-- JavaScript `parent.appendChild(child)` for the node at `p` and a new
element: the child becomes the last child of the node.  The document (`p = []`)
already has its root element and refuses another one. -/
def appendChild (doc : Document) (p : List ℕ) (id : String) (child : Element) :
    Except JSError Document :=
  if p = [] then .error .hierarchyRequestError
  else .ok (insertAfterSubtree p (id, { child with path := p ++ [freshChildLabel doc p] }) doc)

/-- The function `clearFieldError(element)` of `app.js`; `none` is `null`. -/
def clearFieldError (doc : Document) (element : Option Element) : Except JSError Document :=
  match element with
  | none => .error .typeError
  | some e =>
    let doc1 := setBorderColor doc e ""
    match parentNode doc1 e with
    | none => .error .typeError
    | some p =>
      match querySelectorFieldError doc1 p with
      | none => .ok doc1
      | some existingError => .ok (removeNode doc1 existingError.path)

/-- The `div` that `showFieldError` creates: class `field-error`, the message as
text, not yet in the tree.  (Its `style.cssText` is not part of the page
model.) -/
def errorMarker (message : String) : Element :=
  { textContent := message, classList := ["field-error"] }

/-- The function `showFieldError(element, message)` of `app.js`; `none` is
`null`. -/
def showFieldError (doc : Document) (element : Option Element) (message : String) :
    Except JSError Document :=
  match clearFieldError doc element with
  | .error err => .error err
  | .ok doc1 =>
    match element with
    | none => .error .typeError
    | some e =>
      let doc2 := setBorderColor doc1 e "#e74c3c"
      match parentNode doc2 e with
      | none => .error .typeError
      | some p => appendChild doc2 p "" (errorMarker message)

/-- JavaScript `!v` for a string or `undefined`: true for `undefined` and for
the empty string. -/
def isFalsyString : Option String → Bool
  | none => true
  | some s => decide (s = "")

/-- The test `!element.value || parseFloat(element.value) < 0` of
`validateExtrusionForm`. -/
def isRejectedValue (v : Option String) : Bool :=
  isFalsyString v || (parseFloat v).lt (.fin 0)

/-- One turn of the `forEach` of `validateExtrusionForm`, on the state
`(isValid, page)`. -/
def validateField (st : Bool × Document) (fieldId : String) :
    Except JSError (Bool × Document) :=
  let element := getElementById st.2 fieldId
  let rejected :=
    match element with
    | none => false
    | some e => isRejectedValue e.value
  if rejected then
    match showFieldError st.2 element "Ce champ est requis et doit être positif" with
    | .error err => .error err
    | .ok doc1 => .ok (false, doc1)
  else
    match clearFieldError st.2 element with
    | .error err => .error err
    | .ok doc1 => .ok (st.1, doc1)

/-- The required fields of `validateExtrusionForm`. -/
def requiredFields : List String := ["prod_finis", "prod_semi_finis", "matiere_premiere"]

/-- The `forEach` of `validateExtrusionForm` over a list of fields. -/
def validateFields : List String → Bool × Document → Except JSError (Bool × Document)
  | [], st => .ok st
  | fieldId :: rest, st =>
    match validateField st fieldId with
    | .error err => .error err
    | .ok st1 => validateFields rest st1

/-- The function `validateExtrusionForm` of `app.js`: its result `isValid` and
the page it leaves, or the error it raises. -/
def validateExtrusionForm (doc : Document) : Except JSError (Bool × Document) :=
  validateFields requiredFields (true, doc)

/-- The page has an element with this id (the one that `getElementById` finds),
with the given `value`, at the given place in the tree; that element has a
parent element; and no element of class `field-error` is that element or
contains it. -/
def FieldReady (doc : Document) (id : String) (value : Option String) (path : List ℕ) : Prop :=
  ∃ e, getElementById doc id = some e ∧ e.value = value ∧ e.path = path ∧ 2 ≤ path.length ∧
    ∀ x ∈ doc, x.2.classList.contains "field-error" = true → ¬ x.2.path <+: path

/-- A container element (`form`, `div`) at the given path. -/
def containerElement (path : List ℕ) : Element := { path := path }

/-- An input element at the given path holding the given text. -/
def inputAt (path : List ℕ) (v : String) : Element := { value := some v, path := path }

/-- The extrusion form with its three required fields filled as given, each in
a `div` of its own inside the form. -/
def extrusionForm (prodFinis prodSemiFinis matierePremiere : String) : Document :=
  [("productionForm", containerElement [0, 0]),
   ("", containerElement [0, 0, 0]), ("prod_finis", inputAt [0, 0, 0, 0] prodFinis),
   ("", containerElement [0, 0, 1]), ("prod_semi_finis", inputAt [0, 0, 1, 0] prodSemiFinis),
   ("", containerElement [0, 0, 2]), ("matiere_premiere", inputAt [0, 0, 2, 0] matierePremiere)]

/-- The extrusion form with its three required fields, filled as given, directly
in one and the same container. -/
def extrusionFormSharedParent (prodFinis prodSemiFinis matierePremiere : String) : Document :=
  [("productionForm", containerElement [0, 0]),
   ("prod_finis", inputAt [0, 0, 0] prodFinis),
   ("prod_semi_finis", inputAt [0, 0, 1] prodSemiFinis),
   ("matiere_premiere", inputAt [0, 0, 2] matierePremiere)]

/-- The extrusion form with `prod_finis` and `prod_semi_finis` each in a `div`
of its own and `matiere_premiere` directly in the form, which contains the two
`div`s. -/
def extrusionFormNested (prodFinis prodSemiFinis matierePremiere : String) : Document :=
  [("productionForm", containerElement [0, 0]),
   ("", containerElement [0, 0, 0]), ("prod_finis", inputAt [0, 0, 0, 0] prodFinis),
   ("", containerElement [0, 0, 1]), ("prod_semi_finis", inputAt [0, 0, 1, 0] prodSemiFinis),
   ("matiere_premiere", inputAt [0, 0, 2] matierePremiere)]

/-! ## The formulas as the specification words them -/

/-- Waste rate in the words of the specification: `100 × waste / (total + waste)`,
`0` if the denominator is zero. -/
def specWasteRate (total waste : ℚ) : ℚ :=
  if total + waste = 0 then 0 else 100 * waste / (total + waste)

/-- Yield in the words of the specification: `100 × total / rawMaterial`,
`0` if `rawMaterial = 0`. -/
def specYield (total rawMaterial : ℚ) : ℚ :=
  if rawMaterial = 0 then 0 else 100 * total / rawMaterial

/-- Per-unit output in the words of the specification: `total / count` under the
guarded-division rule (`0` if the count is zero). -/
def specPerUnit (total count : ℚ) : ℚ :=
  if count = 0 then 0 else total / count

/-- Whether a text is "printed with exactly one fractional digit", in the words
of the specification: an optional minus sign, at least one digit, a point and
one digit. -/
def hasOneFractionalDigit (s : String) : Bool :=
  let cs := s.toList
  let body := if cs.head? = some '-' then cs.tail else cs
  match body.reverse with
  | d :: p :: ip => d.isDigit && p == '.' && !ip.isEmpty && ip.all Char.isDigit
  | _ => false

/-- Whether a displayed text is `NaN` or an infinite value. -/
def isNaNOrInfinite (s : String) : Bool :=
  s == "NaN" || s == "Infinity" || s == "-Infinity"

/-- The text is the number rounded to one decimal place, in the words of the
specification: the digits of the tenths `m` nearest to the magnitude of `x` (the
larger ones on a tie, as for 6.25), with a point before the last digit and a
minus sign for a negative `x`. -/
def IsRoundedToOneDecimal (s : String) (x : ℚ) : Prop :=
  ∃ m : ℕ, (m : ℚ) - 1 / 2 ≤ |x| * 10 ∧ |x| * 10 < (m : ℚ) + 1 / 2 ∧
    s = (if x < 0 then "-" else "") ++ digitString (m / 10) ++ "." ++
      String.singleton (Nat.digitChar (m % 10))

/-- The displayed text is `toFixed(1)` of the number, which is the number
rounded to one decimal place when it is finite and of magnitude below
`10 ^ 21`. -/
def ShowsRounded (text : Option String) (v : JSNum) : Prop :=
  text = some (toFixed1 v) ∧
    ∀ y : ℚ, v.toRat = some y → |y| < 10 ^ 21 → IsRoundedToOneDecimal (toFixed1 v) y

/-! ## The browser around the page, and the submit handler of the extrusion form -/

/-- A POST request issued with `fetch`: its URL, the form data sent (each control
with its value) and the `X-CSRFToken` header. -/
structure Request where
  url : String
  body : List (String × Option String)
  csrfToken : String
  deriving DecidableEq

/-- What the scripts can observe and change besides the page: the CSRF token of
`window.SOFEMCI` (`none` when that object is not defined), the `confirm`
dialogs shown, the `alert` dialogs shown, the banners shown by `showAlert`
(severity and message), the requests issued and the number of calls of
`form.submit()`. -/
structure Browser where
  doc : Document
  csrf : Option String := some ""
  confirms : List String := []
  dialogs : List String := []
  alerts : List (String × String) := []
  requests : List Request := []
  nativeSubmits : ℕ := 0
  deriving DecidableEq

/-- The `submit` listener that `setupExtrusionValidation` installs on
`productionForm`; `operatorConfirms` is what `confirm` returns when asked. -/
def extrusionSubmitHandler (b : Browser) (operatorConfirms : Bool) : Except JSError Browser :=
  match validateExtrusionForm b.doc with
  | .error err => .error err
  | .ok (isValid, doc1) =>
    if isValid then
      let b1 := { b with
        doc := doc1
        confirms := b.confirms ++ ["Confirmer la validation de cette saisie de production ?"] }
      if operatorConfirms then .ok { b1 with nativeSubmits := b1.nativeSubmits + 1 }
      else .ok b1
    else .ok { b with doc := doc1 }

/-- Number of elements of the page that match `.field-error` below the node at
`p`. -/
def countFieldErrors (doc : Document) (p : List ℕ) : ℕ :=
  doc.countP (matchesFieldError p)

/-! ## Submission of the section forms -/

/-- A form of the page: its `classList` and the ids of its controls. -/
structure Form where
  classList : List String
  controls : List String
  deriving DecidableEq

/-- JavaScript `s.replace(pat, "")` on character lists, for a non-empty string
pattern: the first occurrence of `pat` is removed. -/
def removeFirst (pat : List Char) : List Char → List Char
  | [] => []
  | c :: cs => if pat.isPrefixOf (c :: cs) then (c :: cs).drop pat.length
    else c :: removeFirst pat cs

/-- The function `getAjaxUrl` of `app.js` (`none` is `undefined`; the properties
that the object literal inherits are not modelled). -/
def getAjaxUrl (sectionName : String) : Option String :=
  if sectionName = "imprimerie" then some "/ajax/saisie/imprimerie/"
  else if sectionName = "soudure" then some "/ajax/saisie/soudure/"
  else if sectionName = "recyclage" then some "/ajax/saisie/recyclage/"
  else none

/-- JavaScript `new FormData(form)`: each control of the form with its value. -/
def formData (doc : Document) (form : Form) : List (String × Option String) :=
  form.controls.map (fun id => (id, fieldValue doc id))

/-- The function `showAlert(type, message)` of `app.js`: one more banner. -/
def showAlert (b : Browser) (type message : String) : Browser :=
  { b with alerts := b.alerts ++ [(type, message)] }

/-- The function `submitSectionForm(form, section)` of `app.js` up to the call
of `fetch`: an `alert` when the section has no URL, a `TypeError` when
`window.SOFEMCI` is not defined, the POST request otherwise. -/
def submitSectionForm (b : Browser) (form : Form) (sectionName : String) : Except JSError Browser :=
  match getAjaxUrl sectionName with
  | none => .ok { b with dialogs := b.dialogs ++ ["Erreur: URL de soumission non trouvée"] }
  | some url =>
    match b.csrf with
    | none => .error .typeError
    | some token =>
      .ok { b with
        requests := b.requests ++ [{ url := url, body := formData b.doc form, csrfToken := token }] }

/-- The `submit` listener that `setupSectionValidation` installs on each section
form; `operatorConfirms` is what `confirm` returns.  A form without any class
has an `undefined` first class, and calling `replace` on it raises. -/
def sectionSubmitHandler (b : Browser) (form : Form) (operatorConfirms : Bool) :
    Except JSError Browser :=
  match form.classList with
  | [] => .error .typeError
  | cls :: _ =>
    let name := String.mk (removeFirst "-form".toList cls.toList)
    let b1 := { b with
      confirms := b.confirms ++ ["Confirmer la validation de la production " ++ name ++ " ?"] }
    if operatorConfirms then submitSectionForm b1 form name else .ok b1

/-- What `response.json()` gives: a rejection when the body is not JSON, `null`,
or a value with the truthiness of its `success` property and its `message`
(a JSON value that is not an object has no `success`: it is falsy). -/
inductive ResponseBody where
  | invalidJson : ResponseBody
  | null : ResponseBody
  | value (success : Bool) (message : String) : ResponseBody
  deriving DecidableEq

/-- How the `fetch` of `submitSectionForm` settles: a transport error, or a
response with its HTTP status and its body. -/
inductive FetchOutcome where
  | networkError : FetchOutcome
  | response (status : ℕ) (body : ResponseBody) : FetchOutcome
  deriving DecidableEq

/-- JavaScript `form.reset()`: every control of the form gets its default value
back. -/
def resetControl : Document → String → Document
  | [], _ => []
  | (i, e) :: rest, id =>
    if i = id then
      (i, match e.value with
        | none => e
        | some _ => { e with value := some e.defaultValue }) :: rest
    else (i, e) :: resetControl rest id

/-- JavaScript `form.reset()` for a form of the page. -/
def formReset (doc : Document) (form : Form) : Document :=
  form.controls.foldl resetControl doc

/-- The promise chain of `submitSectionForm`
(`.then(response => response.json()).then(data => ...).catch(...)`) once the
`fetch` has settled, on the browser as it is at that time. -/
def submitSectionFormSettled (b : Browser) (form : Form) (sectionName : String)
    (outcome : FetchOutcome) : Browser :=
  match outcome with
  | .networkError => showAlert b "error" "Erreur de connexion"
  | .response _ .invalidJson => showAlert b "error" "Erreur de connexion"
  | .response _ .null => showAlert b "error" "Erreur de connexion"
  | .response _ (.value success message) =>
    if success then
      let b1 := showAlert b "success" message
      let doc1 := formReset b1.doc form
      let doc2 := if sectionName = "imprimerie" then updateImprimerieCalculations doc1 else doc1
      let doc3 := if sectionName = "soudure" then updateSoudureCalculations doc2 else doc2
      let doc4 := if sectionName = "recyclage" then updateRecyclageCalculations doc3 else doc3
      { b1 with doc := doc4 }
    else showAlert b "error" "Erreur dans le formulaire"

/-- The printing form: its class and its three controls. -/
def imprimerieForm : Form :=
  { classList := ["imprimerie-form"],
    controls := ["imp_bobines_finies", "imp_bobines_semi_finies", "imp_dechets"] }

/-- The welding form: its class and its five controls. -/
def soudureForm : Form :=
  { classList := ["soudure-form"],
    controls := ["sou_bobines_finies", "sou_bretelles", "sou_rema", "sou_batta", "sou_dechets"] }

/-- The recycling form: its class and its three controls. -/
def recyclageForm : Form :=
  { classList := ["recyclage-form"],
    controls := ["rec_broyage", "rec_bache_noir", "rec_nb_moulinex"] }

/-- The page without its texts: every element with an empty `textContent`. -/
def eraseTexts (doc : Document) : Document :=
  doc.map (fun p => (p.1, { p.2 with textContent := "" }))

/-! ## The values computed before rounding -/

/-- The value `tauxDechet` of `updateExtrusionCalculations`, from its
`totalProduction` and `dechets`. -/
def extrusionTauxDechet (totalProduction dechets : JSNum) : JSNum :=
  if totalProduction.gt (.fin 0) then (dechets.div (totalProduction.add dechets)).mul (.fin 100)
  else .fin 0

/-- The value `tauxDechet` of `updateImprimerieCalculations` and of
`updateSoudureCalculations`, from their `totalProduction` and `dechets`. -/
def sectionTauxDechet (totalProduction dechets : JSNum) : JSNum :=
  if (totalProduction.add dechets).gt (.fin 0) then
    (dechets.div (totalProduction.add dechets)).mul (.fin 100)
  else .fin 0

/-- The value `rendement` of `updateExtrusionCalculations`, from its
`totalProduction` and `matierePremiereValue`. -/
def extrusionRendement (totalProduction matierePremiereValue : JSNum) : JSNum :=
  if matierePremiereValue.gt (.fin 0) then (totalProduction.div matierePremiereValue).mul (.fin 100)
  else .fin 0

/-- The value `prodParMachine` of `updateExtrusionCalculations` and the value
`prodParMoulinex` of `updateRecyclageCalculations`, from their `totalProduction`
and their count. -/
def prodParUnite (totalProduction nb : JSNum) : JSNum :=
  if nb.gt (.fin 0) then totalProduction.div nb else .fin 0

/-- The value `tauxTransformation` of `updateRecyclageCalculations`, from its
`bacheNoir` and `broyage`. -/
def recyclageTauxTransformation (bacheNoir broyage : JSNum) : JSNum :=
  if broyage.gt (.fin 0) then (bacheNoir.div broyage).mul (.fin 100) else .fin 0

/-- The number `T` is a sum, computed in double arithmetic, of non-negative
doubles whose exact sum is `x`: the zero when `x` is zero, `Infinity` or a
positive double otherwise. -/
def IsNonnegSum (T : JSNum) (x : ℚ) : Prop :=
  0 ≤ x ∧ (x = 0 → T = .fin 0) ∧
    (0 < x → T = .posInf ∨ ∃ t, T = .fin t ∧ 0 < t ∧ IsDouble t)

/-! ## The current page -/

/-- Whether `sub` occurs in a character list, as a run of consecutive
characters. -/
def includesList (sub : List Char) : List Char → Bool
  | [] => sub.isEmpty
  | c :: cs => sub.isPrefixOf (c :: cs) || includesList sub cs

/-- JavaScript `s.includes(sub)`. -/
def includes (s sub : String) : Bool := includesList sub.toList s.toList

/-- The function `getCurrentPage` of `app.js`, on `window.location.pathname`. -/
def getCurrentPage (path : String) : String :=
  if includes path "dashboard/direction" then "dashboard-direction"
  else if includes path "dashboard" then "dashboard"
  else if includes path "saisie/extrusion" then "saisie-extrusion"
  else if includes path "saisie/sections" then "saisie-sections"
  else if includes path "historique" then "historique"
  else if includes path "login" then "login"
  else "default"

/-- The substrings looked for, in order, each with its page. -/
def pageTable : List (String × String) :=
  [("dashboard/direction", "dashboard-direction"), ("dashboard", "dashboard"),
   ("saisie/extrusion", "saisie-extrusion"), ("saisie/sections", "saisie-sections"),
   ("historique", "historique"), ("login", "login")]

/-- The page of the first substring of the table that the path contains, and
`default` when it contains none: `getCurrentPage` in the words of its
description. -/
def firstMatchingPage (path : String) : String :=
  match pageTable.find? (fun entry => includes path entry.1) with
  | some entry => entry.2
  | none => "default"

/-! # Theorems -/

/-! ## Reading and writing the page -/

theorem getElementById_setTextContent_ne (doc : Document) (id id2 s : String) (h : id ≠ id2) :
    getElementById (setTextContent doc id s) id2 = getElementById doc id2 := by
  induction doc with
  | nil => rfl
  | cons p rest ih =>
    obtain ⟨i, e⟩ := p
    by_cases hi : i = id
    · subst hi
      simp [setTextContent, getElementById, h]
    · by_cases hi2 : i = id2
      · subst hi2
        simp [setTextContent, getElementById, hi]
      · simp [setTextContent, getElementById, hi, hi2, ih]

theorem getElementById_setTextContent_self (doc : Document) (id s : String) :
    getElementById (setTextContent doc id s) id =
      (getElementById doc id).map (fun e => { e with textContent := s }) := by
  induction doc with
  | nil => rfl
  | cons p rest ih =>
    obtain ⟨i, e⟩ := p
    by_cases hi : i = id
    · simp [setTextContent, getElementById, hi]
    · simp [setTextContent, getElementById, hi, ih]

theorem textOf_setTextContent_ne (doc : Document) (id id2 s : String) (h : id ≠ id2) :
    textOf (setTextContent doc id s) id2 = textOf doc id2 := by
  simp [textOf, getElementById_setTextContent_ne doc id id2 s h]

theorem textOf_setTextContent_self (doc : Document) (id s : String)
    (h : getElementById doc id ≠ none) :
    textOf (setTextContent doc id s) id = some s := by
  rw [textOf, getElementById_setTextContent_self]
  cases hg : getElementById doc id with
  | none => exact absurd hg h
  | some e => rfl

theorem fieldValue_setTextContent (doc : Document) (id id2 s : String) :
    fieldValue (setTextContent doc id s) id2 = fieldValue doc id2 := by
  by_cases h : id = id2
  · subst h
    rw [fieldValue, getElementById_setTextContent_self, fieldValue]
    cases getElementById doc id <;> rfl
  · rw [fieldValue, getElementById_setTextContent_ne doc id id2 s h, fieldValue]

theorem toFixed1_zero : toFixed1 (.fin 0) = "0.0" := by decide!

theorem textOf_setTextContent (doc : Document) (id id2 s : String) :
    textOf (setTextContent doc id s) id2 =
      if id = id2 then (textOf doc id2).map (fun _ => s) else textOf doc id2 := by
  by_cases h : id = id2
  · subst h
    rw [if_pos rfl, textOf, getElementById_setTextContent_self, textOf]
    cases getElementById doc id <;> rfl
  · rw [if_neg h, textOf_setTextContent_ne doc id id2 s h]

theorem textOf_map_const (doc : Document) (id s : String) (h : getElementById doc id ≠ none) :
    (textOf doc id).map (fun _ => s) = some s := by
  rw [textOf]
  cases hg : getElementById doc id with
  | none => exact absurd hg h
  | some e => rfl

/-- The value that `updateExtrusionCalculations` computes for `tauxDechet`. -/
theorem textOf_updateExtrusion_taux_dechet (doc : Document)
    (h : getElementById doc "taux_dechet" ≠ none) :
    textOf (updateExtrusionCalculations doc) "taux_dechet" =
      some (toFixed1
        (if ((readFloat doc "prod_finis").add (readFloat doc "prod_semi_finis")).gt (.fin 0) then
          ((readFloat doc "dechets").div
            (((readFloat doc "prod_finis").add (readFloat doc "prod_semi_finis")).add
              (readFloat doc "dechets"))).mul (.fin 100)
         else .fin 0)) := by
  simp [updateExtrusionCalculations, textOf_setTextContent, textOf_map_const doc _ _ h]

/-- The value that `updateExtrusionCalculations` computes for `prodParMachine`. -/
theorem textOf_updateExtrusion_prod_par_machine (doc : Document)
    (h : getElementById doc "prod_par_machine" ≠ none) :
    textOf (updateExtrusionCalculations doc) "prod_par_machine" =
      some (toFixed1
        (if (readCount doc "nb_machines").gt (.fin 0) then
          ((readFloat doc "prod_finis").add (readFloat doc "prod_semi_finis")).div
            (readCount doc "nb_machines")
         else .fin 0)) := by
  simp [updateExtrusionCalculations, textOf_setTextContent, textOf_map_const doc _ _ h]

/-- The value that `updateExtrusionCalculations` computes for `totalProduction`. -/
theorem textOf_updateExtrusion_total_production (doc : Document)
    (h : getElementById doc "total_production" ≠ none) :
    textOf (updateExtrusionCalculations doc) "total_production" =
      some (toFixed1 ((readFloat doc "prod_finis").add (readFloat doc "prod_semi_finis"))) := by
  simp [updateExtrusionCalculations, textOf_setTextContent, textOf_map_const doc _ _ h]

/-- The value that `updateExtrusionCalculations` computes for `rendement`. -/
theorem textOf_updateExtrusion_rendement (doc : Document)
    (h : getElementById doc "rendement" ≠ none) :
    textOf (updateExtrusionCalculations doc) "rendement" =
      some (toFixed1
        (if (readFloat doc "matiere_premiere").gt (.fin 0) then
          (((readFloat doc "prod_finis").add (readFloat doc "prod_semi_finis")).div
            (readFloat doc "matiere_premiere")).mul (.fin 100)
         else .fin 0)) := by
  have h1 : getElementById (setTextContent doc "total_production"
      (toFixed1 ((readFloat doc "prod_finis").add (readFloat doc "prod_semi_finis"))))
      "rendement" ≠ none := by
    rw [getElementById_setTextContent_ne _ _ _ _ (by decide)]; exact h
  simp only [updateExtrusionCalculations]
  rw [textOf_setTextContent_ne _ _ _ _ (by decide), textOf_setTextContent_ne _ _ _ _ (by decide),
    textOf_setTextContent_self _ _ _ h1]

/-- The text written by `setTextContent` is the new text or the text that was
there. -/
theorem textOf_setTextContent_cases (doc : Document) (id id2 s t : String)
    (h : textOf (setTextContent doc id s) id2 = some t) :
    t = s ∨ textOf doc id2 = some t := by
  rw [textOf_setTextContent] at h
  split at h
  · left
    cases hd : textOf doc id2 with
    | none => rw [hd] at h; exact absurd h (by simp)
    | some u => rw [hd] at h; simpa using h.symm
  · exact Or.inr h

/-! ## Rounding to binary64 -/

theorem pow2_eq (e : ℤ) : pow2 e = (2 : ℚ) ^ e := by
  unfold pow2
  split
  · next h =>
    conv_rhs => rw [← Int.toNat_of_nonneg h]
    rw [zpow_natCast]
  · next h =>
    have h0 : 0 ≤ -e := by omega
    have he : e = -((-e).toNat : ℤ) := by rw [Int.toNat_of_nonneg h0]; ring
    conv_rhs => rw [he]
    rw [zpow_neg, zpow_natCast, one_div]

theorem pow2_pos (e : ℤ) : 0 < pow2 e := by
  rw [pow2_eq]; positivity

theorem pow2_lt_pow2 {d e : ℤ} (h : d < e) : pow2 d < pow2 e := by
  rw [pow2_eq, pow2_eq]
  exact zpow_lt_zpow_right₀ (by norm_num) h

theorem pow2_le_pow2 {d e : ℤ} (h : d ≤ e) : pow2 d ≤ pow2 e := by
  rw [pow2_eq, pow2_eq]
  exact zpow_le_zpow_right₀ (by norm_num) h

theorem pow2_add (d e : ℤ) : pow2 (d + e) = pow2 d * pow2 e := by
  rw [pow2_eq, pow2_eq, pow2_eq, zpow_add₀ (by norm_num)]

theorem pow2_sub (d e : ℤ) : pow2 (d - e) = pow2 d / pow2 e := by
  rw [pow2_eq, pow2_eq, pow2_eq, zpow_sub₀ (by norm_num)]

theorem pow2_natCast (n : ℕ) : pow2 (n : ℤ) = (2 : ℚ) ^ n := by
  rw [pow2_eq, zpow_natCast]

theorem log2Fuel_eq (fuel : ℕ) : ∀ n, n ≤ fuel → log2Fuel fuel n = Nat.log2 n := by
  induction fuel with
  | zero =>
    intro n hn
    have h0 : n = 0 := by omega
    subst h0
    simp [log2Fuel, Nat.log2_zero]
  | succ k ih =>
    intro n hn
    rw [log2Fuel, Nat.log2]
    by_cases h : n < 2
    · simp [h, Nat.not_le.mpr h]
    · have h2 : n ≥ 2 := by omega
      simp only [h, if_false, h2, if_true]
      rw [ih (n / 2) (by omega)]

theorem natLog2_eq (n : ℕ) : natLog2 n = Nat.log2 n := log2Fuel_eq n n le_rfl

theorem natLog2_spec (n : ℕ) (h : n ≠ 0) :
    (2 : ℚ) ^ natLog2 n ≤ (n : ℚ) ∧ (n : ℚ) < (2 : ℚ) ^ (natLog2 n + 1) := by
  rw [natLog2_eq]
  have h1 := Nat.log2_self_le h
  have h2 := @Nat.lt_log2_self n
  exact ⟨by exact_mod_cast h1, by exact_mod_cast h2⟩

/-- The exponent computed by `floorLog2` brackets its argument. -/
theorem floorLog2_spec (a : ℚ) (ha : 0 < a) :
    pow2 (floorLog2 a) ≤ a ∧ a < pow2 (floorLog2 a + 1) := by
  have hnum : 0 < a.num := Rat.num_pos.mpr ha
  have hN : a.num.natAbs ≠ 0 := by omega
  have hD : a.den ≠ 0 := a.den_nz
  obtain ⟨n1, n2⟩ := natLog2_spec _ hN
  obtain ⟨d1, d2⟩ := natLog2_spec _ hD
  have hcast : ((a.num.natAbs : ℕ) : ℚ) = (a.num : ℚ) := by
    rw [Nat.cast_natAbs, abs_of_pos hnum]
  rw [hcast] at n1 n2
  have hdpos : (0 : ℚ) < a.den := by exact_mod_cast Nat.pos_of_ne_zero hD
  have ha_eq : a = (a.num : ℚ) / (a.den : ℚ) := (Rat.num_div_den a).symm
  set p := natLog2 a.num.natAbs with hp
  set r := natLog2 a.den with hr
  have e0 : pow2 ((p : ℤ) - (r : ℤ)) = (2 : ℚ) ^ p / (2 : ℚ) ^ r := by
    rw [pow2_sub, pow2_natCast, pow2_natCast]
  have hp2 : (0 : ℚ) < 2 ^ p := by positivity
  have hr2 : (0 : ℚ) < 2 ^ r := by positivity
  -- a < 2 ^ (e0 + 1)
  have hup : a < pow2 ((p : ℤ) - (r : ℤ) + 1) := by
    rw [pow2_add, e0, ha_eq]
    have h21 : pow2 1 = 2 := by rw [pow2_eq]; norm_num
    rw [h21, div_mul_eq_mul_div, div_lt_div_iff₀ hdpos hr2]
    have : (2 : ℚ) ^ (p + 1) = 2 ^ p * 2 := pow_succ 2 p
    nlinarith
  -- 2 ^ (e0 - 1) ≤ a
  have hlo : pow2 ((p : ℤ) - (r : ℤ) - 1) ≤ a := by
    rw [pow2_sub, e0]
    have h21 : pow2 1 = 2 := by rw [pow2_eq]; norm_num
    rw [h21, div_div]
    conv_rhs => rw [ha_eq]
    rw [div_le_div_iff₀ (by positivity) hdpos]
    have : (2 : ℚ) ^ (r + 1) = 2 ^ r * 2 := pow_succ 2 r
    nlinarith
  unfold floorLog2
  simp only
  split
  · next hlt =>
    refine ⟨hlo, ?_⟩
    have : (p : ℤ) - (r : ℤ) - 1 + 1 = (p : ℤ) - (r : ℤ) := by ring
    rw [this]
    exact hlt
  · next hge => exact ⟨not_lt.mp hge, hup⟩

/-- The exponent computed by `floorLog2` is the only one that brackets its
argument. -/
theorem floorLog2_unique (a : ℚ) (e : ℤ) (h1 : pow2 e ≤ a) (h2 : a < pow2 (e + 1)) :
    floorLog2 a = e := by
  have ha : 0 < a := lt_of_lt_of_le (pow2_pos e) h1
  obtain ⟨s1, s2⟩ := floorLog2_spec a ha
  by_contra hne
  rcases lt_or_gt_of_ne hne with h | h
  · have : pow2 (floorLog2 a + 1) ≤ pow2 e := pow2_le_pow2 (by omega)
    linarith
  · have : pow2 (e + 1) ≤ pow2 (floorLog2 a) := pow2_le_pow2 (by omega)
    linarith

theorem floorLog2_mono (a b : ℚ) (ha : 0 < a) (hab : a ≤ b) : floorLog2 a ≤ floorLog2 b := by
  obtain ⟨s1, _⟩ := floorLog2_spec a ha
  obtain ⟨_, t2⟩ := floorLog2_spec b (lt_of_lt_of_le ha hab)
  by_contra hlt
  have : pow2 (floorLog2 b + 1) ≤ pow2 (floorLog2 a) := pow2_le_pow2 (by omega)
  linarith

/-! ### Rounding to the nearest integer -/

theorem roundHalfEven_intCast (n : ℤ) : roundHalfEven (n : ℚ) = n := by
  unfold roundHalfEven
  simp

theorem roundHalfEven_bounds (y : ℚ) :
    ⌊y⌋ ≤ roundHalfEven y ∧ roundHalfEven y ≤ ⌊y⌋ + 1 := by
  unfold roundHalfEven
  simp only
  split
  · omega
  · split
    · omega
    · split <;> omega

theorem roundHalfEven_mono (y z : ℚ) (h : y ≤ z) : roundHalfEven y ≤ roundHalfEven z := by
  have hfl : ⌊y⌋ ≤ ⌊z⌋ := Int.floor_mono h
  rcases lt_or_eq_of_le hfl with hlt | heq
  · have := (roundHalfEven_bounds y).2
    have := (roundHalfEven_bounds z).1
    omega
  · unfold roundHalfEven
    simp only
    rw [heq]
    have hr : y - (⌊z⌋ : ℚ) ≤ z - (⌊z⌋ : ℚ) := by linarith
    split
    · split
      · exact le_rfl
      · split
        · omega
        · split <;> omega
    · next h1 =>
      have h1z : ¬ z - (⌊z⌋ : ℚ) < 1 / 2 := by
        intro hc
        exact h1 (lt_of_le_of_lt hr hc)
      rw [if_neg h1z]
      split
      · next h2 =>
        have : 1 / 2 < z - (⌊z⌋ : ℚ) := lt_of_lt_of_le h2 hr
        rw [if_pos this]
      · split
        · split <;> omega
        · split <;> omega

theorem roundHalfEven_le_of_le (y : ℚ) (n : ℤ) (h : y ≤ n) : roundHalfEven y ≤ n := by
  have := roundHalfEven_mono y n h
  rwa [roundHalfEven_intCast] at this

theorem le_roundHalfEven_of_le (y : ℚ) (n : ℤ) (h : (n : ℚ) ≤ y) : n ≤ roundHalfEven y := by
  have := roundHalfEven_mono n y h
  rwa [roundHalfEven_intCast] at this

/-! ### Rounding a magnitude -/

theorem doubleExponent_ge (a : ℚ) : -1022 ≤ doubleExponent a := le_max_right _ _

theorem floorLog2_le_doubleExponent (a : ℚ) : floorLog2 a ≤ doubleExponent a := le_max_left _ _

theorem doubleExponent_mono (a b : ℚ) (ha : 0 < a) (hab : a ≤ b) :
    doubleExponent a ≤ doubleExponent b :=
  max_le_max (floorLog2_mono a b ha hab) le_rfl

theorem pow2_split (e : ℤ) (n : ℕ) : pow2 e = pow2 (e - n) * (2 : ℚ) ^ n := by
  rw [← pow2_natCast, ← pow2_add]
  congr 1
  ring

/-- The magnitude counted in units in the last place is below `2 ^ 53`. -/
theorem quotient_lt (a : ℚ) (ha : 0 < a) : a / pow2 (doubleExponent a - 52) < 2 ^ 53 := by
  have h1 := (floorLog2_spec a ha).2
  have h2 : pow2 (floorLog2 a + 1) ≤ pow2 (doubleExponent a + 1) :=
    pow2_le_pow2 (by have := floorLog2_le_doubleExponent a; omega)
  have h3 : pow2 (doubleExponent a + 1) = pow2 (doubleExponent a - 52) * 2 ^ 53 := by
    rw [pow2_split (doubleExponent a + 1) 53]
    congr 2
    push_cast
    ring
  rw [div_lt_iff₀' (pow2_pos _)]
  linarith

/-- In the normal range the magnitude counts at least `2 ^ 52` units in the last
place. -/
theorem quotient_ge (a : ℚ) (ha : 0 < a) (hE : doubleExponent a = floorLog2 a) :
    2 ^ 52 ≤ a / pow2 (doubleExponent a - 52) := by
  have h1 := (floorLog2_spec a ha).1
  rw [← hE, pow2_split (doubleExponent a) 52] at h1
  rw [le_div_iff₀' (pow2_pos _)]
  push_cast at h1
  linarith

theorem roundMagnitude_nonneg (a : ℚ) (ha : 0 < a) : 0 ≤ roundMagnitude a := by
  unfold roundMagnitude
  simp only
  have h0 : (0 : ℤ) ≤ roundHalfEven (a / pow2 (doubleExponent a - 52)) :=
    le_roundHalfEven_of_le _ 0 (by
      have := pow2_pos (doubleExponent a - 52)
      push_cast
      positivity)
  have h1 : (0 : ℚ) ≤ (roundHalfEven (a / pow2 (doubleExponent a - 52)) : ℚ) := by
    exact_mod_cast h0
  exact mul_nonneg h1 (pow2_pos _).le

theorem roundMagnitude_le_pow2 (a : ℚ) (ha : 0 < a) :
    roundMagnitude a ≤ pow2 (doubleExponent a + 1) := by
  have h3 : pow2 (doubleExponent a + 1) = 2 ^ 53 * pow2 (doubleExponent a - 52) := by
    rw [pow2_split (doubleExponent a + 1) 53, mul_comm]
    congr 2
    push_cast
    ring
  rw [h3]
  unfold roundMagnitude
  simp only
  have h0 : roundHalfEven (a / pow2 (doubleExponent a - 52)) ≤ ((2 ^ 53 : ℕ) : ℤ) :=
    roundHalfEven_le_of_le _ _ (by
      have := quotient_lt a ha
      push_cast
      linarith)
  have h1 : (roundHalfEven (a / pow2 (doubleExponent a - 52)) : ℚ) ≤ 2 ^ 53 := by
    exact_mod_cast h0
  exact mul_le_mul_of_nonneg_right h1 (pow2_pos _).le

theorem pow2_le_roundMagnitude (a : ℚ) (ha : 0 < a) (hE : doubleExponent a = floorLog2 a) :
    pow2 (doubleExponent a) ≤ roundMagnitude a := by
  have h3 : pow2 (doubleExponent a) = 2 ^ 52 * pow2 (doubleExponent a - 52) := by
    rw [pow2_split (doubleExponent a) 52, mul_comm]
    push_cast
    ring
  rw [h3]
  unfold roundMagnitude
  simp only
  have h0 : ((2 ^ 52 : ℕ) : ℤ) ≤ roundHalfEven (a / pow2 (doubleExponent a - 52)) :=
    le_roundHalfEven_of_le _ _ (by
      have := quotient_ge a ha hE
      push_cast
      linarith)
  have h1 : (2 : ℚ) ^ 52 ≤ (roundHalfEven (a / pow2 (doubleExponent a - 52)) : ℚ) := by
    exact_mod_cast h0
  exact mul_le_mul_of_nonneg_right h1 (pow2_pos _).le

/-- Rounding a magnitude is monotone. -/
theorem roundMagnitude_mono (a b : ℚ) (ha : 0 < a) (hab : a ≤ b) :
    roundMagnitude a ≤ roundMagnitude b := by
  have hb : 0 < b := lt_of_lt_of_le ha hab
  rcases lt_or_eq_of_le (doubleExponent_mono a b ha hab) with hlt | heq
  · have hEb : doubleExponent b = floorLog2 b := by
      have h1 := doubleExponent_ge a
      unfold doubleExponent at hlt ⊢
      rcases max_cases (floorLog2 b) (-1022) with ⟨h, _⟩ | ⟨h, _⟩
      · exact h
      · rw [h] at hlt
        have := le_max_right (floorLog2 a) (-1022)
        omega
    calc roundMagnitude a ≤ pow2 (doubleExponent a + 1) := roundMagnitude_le_pow2 a ha
      _ ≤ pow2 (doubleExponent b) := pow2_le_pow2 (by omega)
      _ ≤ roundMagnitude b := pow2_le_roundMagnitude b hb hEb
  · unfold roundMagnitude
    simp only
    rw [heq]
    have hq : a / pow2 (doubleExponent b - 52) ≤ b / pow2 (doubleExponent b - 52) :=
      div_le_div_of_nonneg_right hab (pow2_pos _).le
    have h0 := roundHalfEven_mono _ _ hq
    have h1 : (roundHalfEven (a / pow2 (doubleExponent b - 52)) : ℚ) ≤
        (roundHalfEven (b / pow2 (doubleExponent b - 52)) : ℚ) := by exact_mod_cast h0
    exact mul_le_mul_of_nonneg_right h1 (pow2_pos _).le

/-- A magnitude `m × 2 ^ k` with `m < 2 ^ 53` and `k ≥ -1074` is left as it is. -/
theorem roundMagnitude_of_form (m : ℕ) (k : ℤ) (hm0 : 0 < m) (hm : m < 2 ^ 53)
    (hk : -1074 ≤ k) : roundMagnitude ((m : ℚ) * pow2 k) = (m : ℚ) * pow2 k := by
  obtain ⟨a, ha_def⟩ : ∃ a : ℚ, a = (m : ℚ) * pow2 k := ⟨_, rfl⟩
  rw [← ha_def]
  have hmq : (0 : ℚ) < m := by exact_mod_cast hm0
  have ha : 0 < a := by rw [ha_def]; exact mul_pos hmq (pow2_pos k)
  have hkE : doubleExponent a - 52 ≤ k := by
    rcases max_cases (floorLog2 a) (-1022) with ⟨h, _⟩ | ⟨h, _⟩
    · have h1 := (floorLog2_spec a ha).1
      have h2 : a < pow2 (k + 53) := by
        have e : pow2 (k + 53) = 2 ^ 53 * pow2 k := by
          rw [pow2_split (k + 53) 53, mul_comm]
          congr 2
          push_cast
          ring
        rw [e, ha_def]
        have : (m : ℚ) < 2 ^ 53 := by exact_mod_cast hm
        exact mul_lt_mul_of_pos_right this (pow2_pos k)
      have h3 : floorLog2 a < k + 53 := by
        by_contra hc
        have := pow2_le_pow2 (not_lt.mp hc)
        linarith
      unfold doubleExponent
      rw [h]
      omega
    · unfold doubleExponent
      rw [h]
      omega
  obtain ⟨d, hd⟩ : ∃ d : ℕ, k = doubleExponent a - 52 + d :=
    ⟨(k - (doubleExponent a - 52)).toNat, by
      rw [Int.toNat_of_nonneg (by omega)]; ring⟩
  have hk2 : pow2 k = pow2 (doubleExponent a - 52) * 2 ^ d := by
    rw [hd, pow2_add, pow2_natCast]
  have hquot : a / pow2 (doubleExponent a - 52) = (((m * 2 ^ d : ℕ) : ℤ) : ℚ) := by
    have hne : pow2 (doubleExponent a - 52) ≠ 0 := (pow2_pos _).ne'
    rw [div_eq_iff hne]
    calc a = (m : ℚ) * pow2 k := ha_def
      _ = (((m * 2 ^ d : ℕ) : ℤ) : ℚ) * pow2 (doubleExponent a - 52) := by
        rw [hk2]
        push_cast
        ring
  unfold roundMagnitude
  simp only
  rw [hquot, roundHalfEven_intCast, ← hquot]
  exact div_mul_cancel₀ _ (pow2_pos _).ne'

/-- What rounding a magnitude gives is left as it is by a second rounding. -/
theorem roundMagnitude_idem (a : ℚ) (ha : 0 < a) :
    roundMagnitude (roundMagnitude a) = roundMagnitude a ∨ roundMagnitude a = 0 := by
  by_cases h0 : roundMagnitude a = 0
  · exact Or.inr h0
  left
  have hE := doubleExponent_ge a
  have hn0 : (0 : ℤ) ≤ roundHalfEven (a / pow2 (doubleExponent a - 52)) :=
    le_roundHalfEven_of_le _ 0 (by
      have := pow2_pos (doubleExponent a - 52)
      push_cast
      positivity)
  have hn1 : roundHalfEven (a / pow2 (doubleExponent a - 52)) ≤ ((2 ^ 53 : ℕ) : ℤ) :=
    roundHalfEven_le_of_le _ _ (by
      have := quotient_lt a ha
      push_cast
      linarith)
  obtain ⟨n, hn⟩ : ∃ n : ℕ, roundHalfEven (a / pow2 (doubleExponent a - 52)) = (n : ℤ) :=
    ⟨_, (Int.toNat_of_nonneg hn0).symm⟩
  have hval : roundMagnitude a = (n : ℚ) * pow2 (doubleExponent a - 52) := by
    unfold roundMagnitude
    simp only
    rw [hn]
    push_cast
    rfl
  have hnpos : 0 < n := by
    rcases Nat.eq_zero_or_pos n with h | h
    · exfalso
      apply h0
      rw [hval, h]
      simp
    · exact h
  have hnle : n ≤ 2 ^ 53 := by
    rw [hn] at hn1
    exact_mod_cast hn1
  rcases lt_or_eq_of_le hnle with hlt | heq
  · rw [hval]
    exact roundMagnitude_of_form n _ hnpos hlt (by omega)
  · have e : roundMagnitude a = ((2 ^ 52 : ℕ) : ℚ) * pow2 (doubleExponent a - 52 + 1) := by
      rw [hval, heq, pow2_add]
      have h21 : pow2 1 = 2 := by rw [pow2_eq]; norm_num
      rw [h21]
      push_cast
      ring
    rw [e]
    exact roundMagnitude_of_form _ _ (by positivity) (by norm_num) (by omega)

/-! ### The Number value of a real number -/

theorem roundToDouble_ne_nan (q : ℚ) : roundToDouble q ≠ .nan := by
  unfold roundToDouble
  split
  · simp
  · split
    · split <;> simp
    · split
      · split <;> simp
      · simp

/-- For a positive real number the Number value is the rounded magnitude, or
`Infinity` when that reaches `2 ^ 1024`. -/
theorem roundToDouble_of_pos (q : ℚ) (hq : 0 < q) :
    roundToDouble q =
      if pow2 1024 ≤ roundMagnitude q then .posInf else .fin (roundMagnitude q) := by
  unfold roundToDouble
  rw [if_neg hq.ne', abs_of_pos hq]
  split
  · simp [hq]
  · split
    · next h => simp [not_lt.mpr hq.le, h]
    · simp [not_lt.mpr hq.le]

/-- For a negative real number the Number value is the opposite of the rounded
magnitude, `-Infinity` when that reaches `2 ^ 1024`, the negative zero when it
is zero. -/
theorem roundToDouble_of_neg (q : ℚ) (hq : q < 0) :
    roundToDouble q =
      if pow2 1024 ≤ roundMagnitude (-q) then .negInf
      else if roundMagnitude (-q) = 0 then .negZero
      else .fin (-roundMagnitude (-q)) := by
  unfold roundToDouble
  rw [if_neg hq.ne, abs_of_neg hq]
  simp [hq, not_lt.mpr hq.le]

/-- A finite Number value is a double: rounding it again changes nothing. -/
theorem roundToDouble_idem (q v : ℚ) (h : roundToDouble q = .fin v) :
    roundToDouble v = .fin v := by
  rcases lt_trichotomy q 0 with hq | hq | hq
  · rw [roundToDouble_of_neg q hq] at h
    split at h
    · exact absurd h (by simp)
    · split at h
      · exact absurd h (by simp)
      · next hov h0 =>
        have hv : v = -roundMagnitude (-q) := by injection h with h; exact h.symm
        have hpos : 0 < roundMagnitude (-q) :=
          lt_of_le_of_ne (roundMagnitude_nonneg _ (by linarith)) (Ne.symm h0)
        have hvneg : v < 0 := by rw [hv]; linarith
        rw [roundToDouble_of_neg v hvneg]
        have hvv : -v = roundMagnitude (-q) := by rw [hv]; ring
        rcases roundMagnitude_idem (-q) (by linarith) with hid | hz
        · rw [hvv, hid, if_neg hov, if_neg h0, ← hvv]
          simp
        · exact absurd hz h0
  · subst hq
    have : roundToDouble 0 = .fin 0 := by simp [roundToDouble]
    rw [this] at h
    injection h with h
    rw [← h]
    exact this
  · rw [roundToDouble_of_pos q hq] at h
    split at h
    · exact absurd h (by simp)
    · next hov =>
      have hv : v = roundMagnitude q := by injection h with h; exact h.symm
      rcases roundMagnitude_idem q hq with hid | hz
      · by_cases h0 : roundMagnitude q = 0
        · rw [hv, h0]; simp [roundToDouble]
        · have hpos : 0 < v := by
            rw [hv]
            exact lt_of_le_of_ne (roundMagnitude_nonneg _ hq) (Ne.symm h0)
          rw [roundToDouble_of_pos v hpos, hv, hid, if_neg hov]
      · rw [hv, hz]; simp [roundToDouble]

theorem isDouble_zero : IsDouble 0 := by simp [IsDouble, roundToDouble]

theorem isDouble_of_roundToDouble (q v : ℚ) (h : roundToDouble q = .fin v) : IsDouble v :=
  roundToDouble_idem q v h

theorem roundMagnitude_of_isDouble (c : ℚ) (hc : 0 < c) (h : IsDouble c) :
    roundMagnitude c = c ∧ ¬ pow2 1024 ≤ c := by
  unfold IsDouble at h
  rw [roundToDouble_of_pos c hc] at h
  split at h
  · exact absurd h (by simp)
  · next hov =>
    have : roundMagnitude c = c := by injection h
    exact ⟨this, by rw [this] at hov; exact hov⟩

/-- Rounding a non-negative real number below a double gives a finite value
below that double. -/
theorem roundToDouble_le (q c : ℚ) (hq : 0 ≤ q) (hqc : q ≤ c) (hc : IsDouble c) :
    ∃ v, roundToDouble q = .fin v ∧ 0 ≤ v ∧ v ≤ c := by
  rcases eq_or_lt_of_le hq with h0 | hpos
  · subst h0
    exact ⟨0, by simp [roundToDouble], le_rfl, hqc⟩
  · have hcpos : 0 < c := lt_of_lt_of_le hpos hqc
    obtain ⟨hcm, hcov⟩ := roundMagnitude_of_isDouble c hcpos hc
    have hle : roundMagnitude q ≤ c := by
      have := roundMagnitude_mono q c hpos hqc
      rwa [hcm] at this
    refine ⟨roundMagnitude q, ?_, roundMagnitude_nonneg q hpos, hle⟩
    rw [roundToDouble_of_pos q hpos, if_neg]
    intro hov
    exact hcov (le_trans hov hle)

/-- Rounding a real number above a positive double gives a value above that
double, or `Infinity`. -/
theorem roundToDouble_ge (q c : ℚ) (hc0 : 0 < c) (hcq : c ≤ q) (hc : IsDouble c) :
    roundToDouble q = .posInf ∨ ∃ v, roundToDouble q = .fin v ∧ c ≤ v := by
  have hq : 0 < q := lt_of_lt_of_le hc0 hcq
  obtain ⟨hcm, _⟩ := roundMagnitude_of_isDouble c hc0 hc
  have hle : c ≤ roundMagnitude q := by
    have := roundMagnitude_mono c q hc0 hcq
    rwa [hcm] at this
  rw [roundToDouble_of_pos q hq]
  split
  · exact Or.inl rfl
  · exact Or.inr ⟨_, rfl, hle⟩

/-- A natural number below `2 ^ 53` is a double. -/
theorem isDouble_natCast (n : ℕ) (h : n < 2 ^ 53) : IsDouble (n : ℚ) := by
  rcases Nat.eq_zero_or_pos n with h0 | hpos
  · subst h0
    simpa using isDouble_zero
  · have hq : (0 : ℚ) < n := by exact_mod_cast hpos
    have hform := roundMagnitude_of_form n 0 hpos h (by norm_num)
    have h20 : pow2 0 = 1 := by rw [pow2_eq]; norm_num
    rw [h20, mul_one] at hform
    unfold IsDouble
    rw [roundToDouble_of_pos _ hq, hform, if_neg]
    intro hov
    have h1 : pow2 53 ≤ pow2 1024 := pow2_le_pow2 (by norm_num)
    have h2 : (n : ℚ) < pow2 53 := by
      rw [pow2_eq]
      exact_mod_cast h
    linarith

/-! ### The numbers that the operations produce -/

theorem isDouble_neg (q : ℚ) (h : IsDouble q) : IsDouble (-q) := by
  rcases lt_trichotomy q 0 with hq | hq | hq
  · have hn : 0 < -q := by linarith
    unfold IsDouble at h ⊢
    rw [roundToDouble_of_neg q hq] at h
    rw [roundToDouble_of_pos _ hn]
    split at h
    · exact absurd h (by simp)
    · split at h
      · exact absurd h (by simp)
      · next hov _ =>
        have : -roundMagnitude (-q) = q := by injection h
        rw [if_neg hov]
        congr 1
        linarith
  · subst hq
    simpa using h
  · have hn : -q < 0 := by linarith
    obtain ⟨hm, hov⟩ := roundMagnitude_of_isDouble q hq h
    unfold IsDouble
    rw [roundToDouble_of_neg _ hn, neg_neg, hm, if_neg hov, if_neg hq.ne']

theorem valid_roundToDouble (q : ℚ) : (roundToDouble q).Valid := by
  cases h : roundToDouble q with
  | fin v => exact roundToDouble_idem q v h
  | _ => trivial

theorem valid_signedZero (b : Bool) : (JSNum.signedZero b).Valid := by
  cases b
  · exact isDouble_zero
  · trivial

theorem valid_signedInf (b : Bool) : (JSNum.signedInf b).Valid := by
  cases b <;> trivial

theorem valid_neg (x : JSNum) (h : x.Valid) : x.neg.Valid := by
  cases x with
  | fin q =>
    simp only [JSNum.neg]
    split
    · trivial
    · exact isDouble_neg q h
  | negZero => exact isDouble_zero
  | _ => trivial

theorem valid_orElse (x d : JSNum) (hx : x.Valid) (hd : d.Valid) : (x.orElse d).Valid := by
  unfold JSNum.orElse
  split
  · exact hx
  · exact hd

theorem valid_add (x y : JSNum) (hx : x.Valid) (hy : y.Valid) : (x.add y).Valid := by
  cases x <;> cases y <;> first
    | trivial
    | exact hx
    | exact hy
    | exact valid_roundToDouble _

theorem valid_mul (x y : JSNum) : (x.mul y).Valid := by
  cases x <;> cases y <;> first
    | trivial
    | (simp only [JSNum.mul]
       split
       · trivial
       · split
         · exact valid_signedInf _
         · exact valid_signedZero _)
    | (simp only [JSNum.mul]
       split
       · exact valid_signedZero _
       · exact valid_roundToDouble _)

theorem valid_div (x y : JSNum) : (x.div y).Valid := by
  cases x <;> cases y <;> first
    | trivial
    | (simp only [JSNum.div]
       split
       · trivial
       · split
         · exact valid_signedInf _
         · exact valid_signedZero _)
    | (simp only [JSNum.div]
       split
       · split
         · trivial
         · exact valid_signedInf _
       · split
         · exact valid_signedZero _
         · exact valid_roundToDouble _)

theorem valid_strUnsignedDecimalLiteral (cs : List Char) :
    (strUnsignedDecimalLiteral cs).Valid := by
  unfold strUnsignedDecimalLiteral
  split
  · trivial
  · simp only
    split
    · split
      · trivial
      · exact valid_roundToDouble _
    · split
      · trivial
      · exact valid_roundToDouble _

theorem valid_parseFloat (v : Option String) : (parseFloat v).Valid := by
  unfold parseFloat parseFloatString
  split
  · exact valid_neg _ (valid_strUnsignedDecimalLiteral _)
  · exact valid_strUnsignedDecimalLiteral _
  · exact valid_strUnsignedDecimalLiteral _

theorem valid_parseIntUnsigned (cs : List Char) : (parseIntUnsigned cs).Valid := by
  unfold parseIntUnsigned
  split
  · split
    · split
      · trivial
      · exact valid_roundToDouble _
    · split
      · trivial
      · exact valid_roundToDouble _
  · split
    · trivial
    · exact valid_roundToDouble _

theorem valid_parseInt (v : Option String) : (parseInt v).Valid := by
  unfold parseInt parseIntString
  split
  · exact valid_neg _ (valid_parseIntUnsigned _)
  · exact valid_parseIntUnsigned _
  · exact valid_parseIntUnsigned _

theorem isDouble_one : IsDouble 1 := by
  have := isDouble_natCast 1 (by norm_num)
  simpa using this

theorem isDouble_hundred : IsDouble 100 := by
  have := isDouble_natCast 100 (by norm_num)
  simpa using this

/-! ## The digits that `toFixed(1)` prints -/

theorem digitChar_isDigit : ∀ k, k < 10 → (Nat.digitChar k).isDigit = true := by decide

theorem toDigits_of_lt_ten : ∀ k, k < 10 → Nat.toDigits 10 k = [Nat.digitChar k] := by decide

theorem toDigitsCore_all_isDigit (fuel : ℕ) : ∀ (n : ℕ) (ds : List Char),
    (∀ c ∈ ds, c.isDigit = true) → ∀ c ∈ Nat.toDigitsCore 10 fuel n ds, c.isDigit = true := by
  induction fuel with
  | zero => intro n ds h; simpa [Nat.toDigitsCore] using h
  | succ fuel ih =>
    intro n ds h
    have hd : (Nat.digitChar (n % 10)).isDigit = true :=
      digitChar_isDigit _ (Nat.mod_lt _ (by decide))
    have hds : ∀ c ∈ Nat.digitChar (n % 10) :: ds, c.isDigit = true := by
      intro c hc
      rcases List.mem_cons.mp hc with rfl | hc
      · exact hd
      · exact h c hc
    simp only [Nat.toDigitsCore]
    split
    · exact hds
    · exact ih _ _ hds

theorem toDigitsCore_ne_nil (fuel : ℕ) : ∀ (n : ℕ) (ds : List Char),
    (0 < fuel ∨ ds ≠ []) → Nat.toDigitsCore 10 fuel n ds ≠ [] := by
  induction fuel with
  | zero =>
    intro n ds h
    rcases h with h | h
    · exact absurd h (lt_irrefl 0)
    · simpa [Nat.toDigitsCore] using h
  | succ fuel ih =>
    intro n ds _
    simp only [Nat.toDigitsCore]
    split
    · exact List.cons_ne_nil _ _
    · exact ih _ _ (Or.inr (List.cons_ne_nil _ _))

theorem toDigits_all_isDigit (n : ℕ) : ∀ c ∈ Nat.toDigits 10 n, c.isDigit = true :=
  toDigitsCore_all_isDigit _ _ _ (by simp)

theorem toDigits_ne_nil (n : ℕ) : Nat.toDigits 10 n ≠ [] :=
  toDigitsCore_ne_nil _ _ _ (Or.inl (Nat.succ_pos n))

/-- The first character of the decimal digits of a number is a digit. -/
theorem toDigits_head (n : ℕ) :
    ∃ c rest, Nat.toDigits 10 n = c :: rest ∧ c.isDigit = true := by
  cases h : Nat.toDigits 10 n with
  | nil => exact absurd h (toDigits_ne_nil n)
  | cons c rest =>
    exact ⟨c, rest, rfl, toDigits_all_isDigit n c (by rw [h]; exact List.mem_cons_self _ _)⟩

/-- For `0 ≤ x < 10^21`, `toFixed(1)` prints the tenths `m` nearest to `x`
(the larger ones on a tie). -/
theorem toFixedAbs_of_lt (x : ℚ) (h0 : 0 ≤ x) (h : x < 10 ^ 21) :
    toFixedAbs x = fixedDigits (nearestTenth x) ∧
      (nearestTenth x : ℚ) - 1 / 2 ≤ x * 10 ∧ x * 10 < (nearestTenth x : ℚ) + 1 / 2 := by
  have hfl : (0 : ℤ) ≤ ⌊x * 10 + 1 / 2⌋ := Int.floor_nonneg.mpr (by positivity)
  have hcast : ((nearestTenth x : ℕ) : ℚ) = ((⌊x * 10 + 1 / 2⌋ : ℤ) : ℚ) := by
    unfold nearestTenth
    have := Int.toNat_of_nonneg hfl
    exact_mod_cast this
  refine ⟨?_, ?_, ?_⟩
  · simp [toFixedAbs, not_le.mpr h]
  · rw [hcast]
    have := Int.floor_le (x * 10 + 1 / 2)
    linarith
  · rw [hcast]
    have := Int.lt_floor_add_one (x * 10 + 1 / 2)
    linarith

theorem fixedDigits_eq (n : ℕ) :
    fixedDigits n =
      digitString (n / 10) ++ "." ++ String.singleton (Nat.digitChar (n % 10)) := by
  have h : digitString (n % 10) = String.singleton (Nat.digitChar (n % 10)) := by
    rw [digitString, toDigits_of_lt_ten _ (Nat.mod_lt _ (by decide))]
    rfl
  rw [fixedDigits, h]

theorem fixedDigits_data (n : ℕ) :
    (fixedDigits n).data = Nat.toDigits 10 (n / 10) ++ ['.', Nat.digitChar (n % 10)] := by
  rw [fixedDigits_eq]
  simp [digitString, String.singleton]

/-- A text made of an optional minus sign, digits, a point and one digit has
exactly one fractional digit. -/
theorem hasOneFractionalDigit_of_data (s : String) (neg : Bool) (ip : List Char) (d : Char)
    (hs : s.data = (if neg then ['-'] else []) ++ (ip ++ ['.', d]))
    (hip : ip ≠ []) (hall : ∀ c ∈ ip, c.isDigit = true) (hd : d.isDigit = true) :
    hasOneFractionalDigit s = true := by
  have hrev : (ip ++ ['.', d]).reverse = d :: '.' :: ip.reverse := by simp
  have hbody : (if s.toList.head? = some '-' then s.toList.tail else s.toList) =
      ip ++ ['.', d] := by
    cases neg with
    | true =>
      have : s.toList = '-' :: (ip ++ ['.', d]) := by simpa [String.toList] using hs
      rw [this]
      simp
    | false =>
      have hl : s.toList = ip ++ ['.', d] := by simpa [String.toList] using hs
      rw [hl]
      cases ip with
      | nil => exact absurd rfl hip
      | cons c rest =>
        have hc : c.isDigit = true := hall c (List.mem_cons_self _ _)
        have hne : c ≠ '-' := by
          intro h
          rw [h] at hc
          exact absurd hc (by decide)
        simp [hne]
  simp only [hasOneFractionalDigit, hbody, hrev]
  simp only [Bool.and_eq_true, hd, beq_self_eq_true, true_and]
  refine ⟨?_, ?_⟩
  · simpa using hip
  · simpa using hall

theorem hasOneFractionalDigit_toFixed1 (q : ℚ) (h : |q| < 10 ^ 21) :
    hasOneFractionalDigit (toFixed1 (.fin q)) = true := by
  by_cases hq : q < 0
  · have habs : |q| = -q := abs_of_neg hq
    have hlt : -q < 10 ^ 21 := habs ▸ h
    have h0 : 0 ≤ -q := by linarith
    refine hasOneFractionalDigit_of_data _ true (Nat.toDigits 10 (nearestTenth (-q) / 10))
      (Nat.digitChar (nearestTenth (-q) % 10)) ?_ (toDigits_ne_nil _) (toDigits_all_isDigit _)
      (digitChar_isDigit _ (Nat.mod_lt _ (by decide)))
    simp only [toFixed1, hq, if_true, (toFixedAbs_of_lt _ h0 hlt).1]
    rw [String.data_append, fixedDigits_data]
  · have habs : |q| = q := abs_of_nonneg (not_lt.mp hq)
    have hlt : q < 10 ^ 21 := habs ▸ h
    refine hasOneFractionalDigit_of_data _ false (Nat.toDigits 10 (nearestTenth q / 10))
      (Nat.digitChar (nearestTenth q % 10)) ?_ (toDigits_ne_nil _) (toDigits_all_isDigit _)
      (digitChar_isDigit _ (Nat.mod_lt _ (by decide)))
    simp only [toFixed1, hq, if_false, (toFixedAbs_of_lt _ (not_lt.mp hq) hlt).1]
    rw [fixedDigits_data]
    rfl

/-! ## The first character of what `toFixed(1)` prints -/

theorem mem_of_mem_dropTrailingZeros (ds : List Char) (c : Char)
    (h : c ∈ dropTrailingZeros ds) : c ∈ ds := by
  unfold dropTrailingZeros at h
  have h1 : c ∈ ds.reverse.dropWhile (fun c => c == '0') := List.mem_reverse.mp h
  exact List.mem_reverse.mp ((List.dropWhile_sublist _).subset h1)

/-- The exponent notation starts with a digit. -/
theorem exponentString_head (n : ℕ) :
    ∃ c rest, (exponentString n).data = c :: rest ∧ c.isDigit = true := by
  unfold exponentString
  simp only
  split
  · exact ⟨'0', [], rfl, by decide⟩
  · next d hd =>
    refine ⟨d, _, rfl, toDigits_all_isDigit n d (mem_of_mem_dropTrailingZeros _ _ ?_)⟩
    rw [hd]
    exact List.mem_cons_self _ _
  · next d rest _ hd =>
    refine ⟨d, _, rfl, toDigits_all_isDigit n d (mem_of_mem_dropTrailingZeros _ _ ?_)⟩
    rw [hd]
    exact List.mem_cons_self _ _

/-- What `toFixed(1)` prints for a non-negative finite value starts with a
digit. -/
theorem toFixedAbs_head (x : ℚ) :
    ∃ c rest, (toFixedAbs x).data = c :: rest ∧ c.isDigit = true := by
  unfold toFixedAbs
  split
  · exact exponentString_head _
  · obtain ⟨c, rest, hc, hdig⟩ := toDigits_head (nearestTenth x / 10)
    exact ⟨c, rest ++ ['.', Nat.digitChar (nearestTenth x % 10)], by
      rw [fixedDigits_data, hc]; rfl, hdig⟩

/-- A finite value is never displayed as `NaN` or as an infinite value. -/
theorem isNaNOrInfinite_toFixed1_fin (q : ℚ) : isNaNOrInfinite (toFixed1 (.fin q)) = false := by
  have key : ∀ s : String, (∃ c rest, s.data = c :: rest ∧ c.isDigit = true) ∨
      (∃ c rest, s.data = '-' :: c :: rest ∧ c.isDigit = true) → isNaNOrInfinite s = false := by
    intro s hs
    have h1 : s ≠ "NaN" := by
      rintro rfl
      rcases hs with ⟨c, rest, h, hc⟩ | ⟨c, rest, h, hc⟩
      · have : c = 'N' := by injection h with h _; exact h.symm
        rw [this] at hc; exact absurd hc (by decide)
      · have : ('N' : Char) = '-' := by injection h
        exact absurd this (by decide)
    have h2 : s ≠ "Infinity" := by
      rintro rfl
      rcases hs with ⟨c, rest, h, hc⟩ | ⟨c, rest, h, hc⟩
      · have : c = 'I' := by injection h with h _; exact h.symm
        rw [this] at hc; exact absurd hc (by decide)
      · have : ('I' : Char) = '-' := by injection h
        exact absurd this (by decide)
    have h3 : s ≠ "-Infinity" := by
      rintro rfl
      rcases hs with ⟨c, rest, h, hc⟩ | ⟨c, rest, h, hc⟩
      · have : c = '-' := by injection h with h _; exact h.symm
        rw [this] at hc; exact absurd hc (by decide)
      · have : c = 'I' := by
          injection h with _ h
          injection h with h _
          exact h.symm
        rw [this] at hc; exact absurd hc (by decide)
    simp [isNaNOrInfinite, h1, h2, h3]
  apply key
  by_cases hq : q < 0
  · right
    obtain ⟨c, rest, hc, hdig⟩ := toFixedAbs_head (-q)
    refine ⟨c, rest, ?_, hdig⟩
    simp only [toFixed1, hq, if_true]
    rw [String.data_append, hc]
    rfl
  · left
    obtain ⟨c, rest, hc, hdig⟩ := toFixedAbs_head q
    exact ⟨c, rest, by simp only [toFixed1, hq, if_false]; exact hc, hdig⟩

/-! ## Rounding to one decimal place -/

/-- For a finite number of magnitude below `10 ^ 21`, `toFixed(1)` prints the
number rounded to one decimal place. -/
theorem toFixed1_isRounded (v : JSNum) (y : ℚ) (hv : v.toRat = some y) (h : |y| < 10 ^ 21) :
    IsRoundedToOneDecimal (toFixed1 v) y := by
  cases v with
  | nan => exact absurd hv (by simp [JSNum.toRat])
  | posInf => exact absurd hv (by simp [JSNum.toRat])
  | negInf => exact absurd hv (by simp [JSNum.toRat])
  | negZero =>
    have hy : y = 0 := by simpa [JSNum.toRat] using hv.symm
    subst hy
    exact ⟨0, by norm_num, by norm_num, by decide⟩
  | fin q =>
    have hy : q = y := by simpa [JSNum.toRat] using hv
    subst hy
    by_cases hq : q < 0
    · have habs : |q| = -q := abs_of_neg hq
      have hlt : -q < 10 ^ 21 := habs ▸ h
      have h0 : 0 ≤ -q := by linarith
      obtain ⟨e, hlo, hhi⟩ := toFixedAbs_of_lt _ h0 hlt
      refine ⟨nearestTenth (-q), by rw [habs]; exact hlo, by rw [habs]; exact hhi, ?_⟩
      simp only [toFixed1, hq, if_true, e, fixedDigits_eq, String.append_assoc]
    · have habs : |q| = q := abs_of_nonneg (not_lt.mp hq)
      have hlt : q < 10 ^ 21 := by rw [habs] at h; exact h
      obtain ⟨e, hlo, hhi⟩ := toFixedAbs_of_lt _ (not_lt.mp hq) hlt
      refine ⟨nearestTenth q, by rw [habs]; exact hlo, by rw [habs]; exact hhi, ?_⟩
      simp only [toFixed1, hq, if_false, e, fixedDigits_eq, String.append_assoc]
      rfl

/-- Only one text is a given number rounded to one decimal place. -/
theorem isRoundedToOneDecimal_unique (s : String) (x : ℚ) (h : IsRoundedToOneDecimal s x) :
    s = (if x < 0 then "-" else "") ++ fixedDigits (nearestTenth |x|) := by
  obtain ⟨m, h1, h2, hs⟩ := h
  have hm : nearestTenth |x| = m := by
    unfold nearestTenth
    have hfl : ⌊|x| * 10 + 1 / 2⌋ = (m : ℤ) := by
      rw [Int.floor_eq_iff]
      push_cast
      constructor <;> linarith
    rw [hfl]
    simp
  rw [hs, hm, fixedDigits_eq, String.append_assoc, String.append_assoc, String.append_assoc]

/-- A text written as `toFixed(1)` of a number shows that number rounded. -/
theorem showsRounded_of_eq (text : Option String) (v : JSNum) (h : text = some (toFixed1 v)) :
    ShowsRounded text v :=
  ⟨h, fun y hv hy => toFixed1_isRounded v y hv hy⟩

/-! ## Arithmetic on the values read from the page -/

theorem valid_floatOrZero (v : Option String) : (floatOrZero v).Valid :=
  valid_orElse _ _ (valid_parseFloat v) isDouble_zero

theorem valid_intOrOne (v : Option String) : (intOrOne v).Valid :=
  valid_orElse _ _ (valid_parseInt v) isDouble_one

/-- A finite value read from a measured field is a double. -/
theorem isDouble_of_readFloat (doc : Document) (id : String) (q : ℚ)
    (h : readFloat doc id = .fin q) : IsDouble q := by
  have := valid_floatOrZero (fieldValue doc id)
  unfold readFloat at h
  rw [h] at this
  exact this

/-- A finite value read from a count field is a double. -/
theorem isDouble_of_readCount (doc : Document) (id : String) (q : ℚ)
    (h : readCount doc id = .fin q) : IsDouble q := by
  have := valid_intOrOne (fieldValue doc id)
  unfold readCount at h
  rw [h] at this
  exact this

theorem add_fin_fin (a b : ℚ) : (JSNum.fin a).add (.fin b) = roundToDouble (a + b) := rfl

/-- The sum of two non-negative doubles is `Infinity` or a double that is at
least each of them; it is zero only when both are. -/
theorem add_nonneg_cases (a b : ℚ) (ha : 0 ≤ a) (hb : 0 ≤ b) (hda : IsDouble a)
    (hdb : IsDouble b) :
    (JSNum.fin a).add (.fin b) = .posInf ∨
      ∃ c, (JSNum.fin a).add (.fin b) = .fin c ∧ a ≤ c ∧ b ≤ c ∧ IsDouble c ∧
        (c = 0 → a + b = 0) := by
  rw [add_fin_fin]
  rcases eq_or_lt_of_le ha with ha0 | hapos
  · rw [← ha0, zero_add]
    right
    exact ⟨b, hdb, hb, le_rfl, hdb, fun h => by rw [h]⟩
  · rcases roundToDouble_ge (a + b) a hapos (by linarith) hda with h | ⟨c, hc, hac⟩
    · exact Or.inl h
    · right
      refine ⟨c, hc, hac, ?_, roundToDouble_idem _ _ hc, fun h0 => by linarith⟩
      rcases eq_or_lt_of_le hb with hb0 | hbpos
      · linarith
      · rcases roundToDouble_ge (a + b) b hbpos (by linarith) hdb with h | ⟨c2, hc2, hbc⟩
        · rw [hc] at h
          exact absurd h (by simp)
        · rw [hc] at hc2
          have : c = c2 := by injection hc2
          rw [this]
          exact hbc

/-- Dividing by one changes nothing. -/
theorem div_one_of_valid (x : JSNum) (hx : x.Valid) : x.div (.fin 1) = x := by
  cases x with
  | fin q =>
    simp only [JSNum.div, one_ne_zero, if_false, div_one]
    split
    · next h => simp [JSNum.signedZero, h]
    · exact hx
  | _ => simp [JSNum.div, JSNum.isInfinite, JSNum.isZero, JSNum.isNegative, JSNum.signedInf,
      JSNum.signedZero]

/-! ## The texts written by the four functions -/

/-- The four texts that `updateExtrusionCalculations` writes. -/
theorem textOf_updateExtrusionCalculations (doc : Document) :
    textOf (updateExtrusionCalculations doc) "total_production" =
        (textOf doc "total_production").map (fun _ => toFixed1
          ((readFloat doc "prod_finis").add (readFloat doc "prod_semi_finis"))) ∧
      textOf (updateExtrusionCalculations doc) "rendement" =
        (textOf doc "rendement").map (fun _ => toFixed1 (extrusionRendement
          ((readFloat doc "prod_finis").add (readFloat doc "prod_semi_finis"))
          (readFloat doc "matiere_premiere"))) ∧
      textOf (updateExtrusionCalculations doc) "taux_dechet" =
        (textOf doc "taux_dechet").map (fun _ => toFixed1 (extrusionTauxDechet
          ((readFloat doc "prod_finis").add (readFloat doc "prod_semi_finis"))
          (readFloat doc "dechets"))) ∧
      textOf (updateExtrusionCalculations doc) "prod_par_machine" =
        (textOf doc "prod_par_machine").map (fun _ => toFixed1 (prodParUnite
          ((readFloat doc "prod_finis").add (readFloat doc "prod_semi_finis"))
          (readCount doc "nb_machines"))) := by
  refine ⟨?_, ?_, ?_, ?_⟩ <;>
    simp [updateExtrusionCalculations, textOf_setTextContent, extrusionRendement,
      extrusionTauxDechet, prodParUnite]

/-- The two texts that `updateImprimerieCalculations` writes. -/
theorem textOf_updateImprimerieCalculations (doc : Document) :
    textOf (updateImprimerieCalculations doc) "imp_total_production" =
        (textOf doc "imp_total_production").map (fun _ => toFixed1
          ((readFloat doc "imp_bobines_finies").add (readFloat doc "imp_bobines_semi_finies"))) ∧
      textOf (updateImprimerieCalculations doc) "imp_taux_dechet" =
        (textOf doc "imp_taux_dechet").map (fun _ => toFixed1 (sectionTauxDechet
          ((readFloat doc "imp_bobines_finies").add (readFloat doc "imp_bobines_semi_finies"))
          (readFloat doc "imp_dechets"))) := by
  refine ⟨?_, ?_⟩ <;>
    simp [updateImprimerieCalculations, textOf_setTextContent, sectionTauxDechet]

/-- The three texts that `updateSoudureCalculations` writes. -/
theorem textOf_updateSoudureCalculations (doc : Document) :
    textOf (updateSoudureCalculations doc) "sou_total_production" =
        (textOf doc "sou_total_production").map (fun _ => toFixed1
          ((readFloat doc "sou_bobines_finies").add
            (((readFloat doc "sou_bretelles").add (readFloat doc "sou_rema")).add
              (readFloat doc "sou_batta")))) ∧
      textOf (updateSoudureCalculations doc) "sou_total_specifique" =
        (textOf doc "sou_total_specifique").map (fun _ => toFixed1
          (((readFloat doc "sou_bretelles").add (readFloat doc "sou_rema")).add
            (readFloat doc "sou_batta"))) ∧
      textOf (updateSoudureCalculations doc) "sou_taux_dechet" =
        (textOf doc "sou_taux_dechet").map (fun _ => toFixed1 (sectionTauxDechet
          ((readFloat doc "sou_bobines_finies").add
            (((readFloat doc "sou_bretelles").add (readFloat doc "sou_rema")).add
              (readFloat doc "sou_batta")))
          (readFloat doc "sou_dechets"))) := by
  refine ⟨?_, ?_, ?_⟩ <;>
    simp [updateSoudureCalculations, textOf_setTextContent, sectionTauxDechet]

/-- The three texts that `updateRecyclageCalculations` writes. -/
theorem textOf_updateRecyclageCalculations (doc : Document) :
    textOf (updateRecyclageCalculations doc) "rec_total_production" =
        (textOf doc "rec_total_production").map (fun _ => toFixed1
          ((readFloat doc "rec_broyage").add (readFloat doc "rec_bache_noir"))) ∧
      textOf (updateRecyclageCalculations doc) "rec_prod_par_moulinex" =
        (textOf doc "rec_prod_par_moulinex").map (fun _ => toFixed1 (prodParUnite
          ((readFloat doc "rec_broyage").add (readFloat doc "rec_bache_noir"))
          (readCount doc "rec_nb_moulinex"))) ∧
      textOf (updateRecyclageCalculations doc) "rec_taux_transformation" =
        (textOf doc "rec_taux_transformation").map (fun _ => toFixed1
          (recyclageTauxTransformation (readFloat doc "rec_bache_noir")
            (readFloat doc "rec_broyage"))) := by
  refine ⟨?_, ?_, ?_⟩ <;>
    simp [updateRecyclageCalculations, textOf_setTextContent, prodParUnite,
      recyclageTauxTransformation]

/-- An output that the page has shows the value written to it. -/
theorem showsRounded_of_map (doc : Document) (id : String) (t : Option String) (v : JSNum)
    (hout : getElementById doc id ≠ none)
    (h : t = (textOf doc id).map (fun _ => toFixed1 v)) : ShowsRounded t v :=
  showsRounded_of_eq t v (by rw [h, textOf_map_const doc id _ hout])

theorem gt_zero_fin (r : ℚ) : (JSNum.fin r).gt (.fin 0) = decide (0 < r) := rfl

/-! ## What `parseFloat` and `parseInt` read -/

theorem leadingDigits_append (ds rest : List Char) (hds : ∀ c ∈ ds, c.isDigit = true)
    (hrest : ∀ c ∈ rest.head?, c.isDigit = false) : leadingDigits (ds ++ rest) = ds := by
  induction ds with
  | nil =>
    cases rest with
    | nil => rfl
    | cons c r =>
      have := hrest c (by simp)
      simp [leadingDigits, List.takeWhile, this]
  | cons d ds ih =>
    have hd := hds d (List.mem_cons_self _ _)
    have := ih (fun c hc => hds c (List.mem_cons_of_mem _ hc))
    simp only [leadingDigits] at this ⊢
    simp [List.takeWhile, hd, this]

theorem exponentOf_of_head (rest : List Char)
    (h : ∀ c ∈ rest.head?, c ≠ 'e' ∧ c ≠ 'E') : exponentOf rest = 0 := by
  cases rest with
  | nil => rfl
  | cons c r =>
    obtain ⟨h1, h2⟩ := h c (by simp)
    simp [exponentOf, h1, h2]

theorem pow10_zero : pow10 0 = 1 := by simp [pow10]

/-- Digits followed by a character that is neither a digit, a point nor an
exponent mark denote the double nearest to the integer they write. -/
theorem strUnsignedDecimalLiteral_digits (ds rest : List Char) (hne : ds ≠ [])
    (hds : ∀ c ∈ ds, c.isDigit = true)
    (hrest : ∀ c ∈ rest.head?, c.isDigit = false ∧ c ≠ '.' ∧ c ≠ 'e' ∧ c ≠ 'E') :
    strUnsignedDecimalLiteral (ds ++ rest) = roundToDouble (digitsValue ds) := by
  obtain ⟨d, ds', rfl⟩ := List.exists_cons_of_ne_nil hne
  have hd : d.isDigit = true := hds d (List.mem_cons_self _ _)
  have hdI : d ≠ 'I' := by
    intro h
    rw [h] at hd
    exact absurd hd (by decide)
  have hp : "Infinity".toList.isPrefixOf (d :: ds' ++ rest) = false := by
    have : "Infinity".toList = 'I' :: "nfinity".toList := rfl
    rw [this]
    simp [List.isPrefixOf, Ne.symm hdI]
  have hl : leadingDigits (d :: ds' ++ rest) = d :: ds' :=
    leadingDigits_append (d :: ds') rest hds (fun c hc => (hrest c hc).1)
  have hdrop : (d :: ds' ++ rest).drop (d :: ds').length = rest := List.drop_left _ _
  unfold strUnsignedDecimalLiteral
  simp only [hp, hl, hdrop, Bool.false_eq_true, if_false]
  have he : exponentOf rest = 0 :=
    exponentOf_of_head rest (fun c hc => ⟨(hrest c hc).2.2.1, (hrest c hc).2.2.2⟩)
  split
  · next r2 => exact absurd rfl (hrest '.' (by simp)).2.1
  · simp [he, pow10_zero]

/-- A text that, after its leading white space, starts with digits followed by
a character that is neither a digit, a point nor an exponent mark is read by
`parseFloat` as the integer that the digits write. -/
theorem parseFloat_digits (s : String) (ds rest : List Char)
    (h : trimStart s.toList = ds ++ rest) (hne : ds ≠ [])
    (hds : ∀ c ∈ ds, c.isDigit = true)
    (hrest : ∀ c ∈ rest.head?, c.isDigit = false ∧ c ≠ '.' ∧ c ≠ 'e' ∧ c ≠ 'E') :
    parseFloat (some s) = roundToDouble (digitsValue ds) := by
  have hlit := strUnsignedDecimalLiteral_digits ds rest hne hds hrest
  obtain ⟨d, ds', rfl⟩ := List.exists_cons_of_ne_nil hne
  have hd : d.isDigit = true := hds d (List.mem_cons_self _ _)
  simp only [parseFloat, argToString, parseFloatString, h]
  split
  · next cs heq =>
    have : d = '-' := by injection heq
    rw [this] at hd
    exact absurd hd (by decide)
  · next cs heq =>
    have : d = '+' := by injection heq
    rw [this] at hd
    exact absurd hd (by decide)
  · exact hlit

theorem radixDigit_ten (c : Char) :
    radixDigit? 10 c = if c.isDigit then some (c.toNat - 48) else none := by
  unfold radixDigit?
  split
  · rfl
  · simp

theorem radixValue_digits (ds rest : List Char) (hds : ∀ c ∈ ds, c.isDigit = true)
    (hrest : ∀ c ∈ rest.head?, c.isDigit = false) (acc k : ℕ) :
    radixValue 10 (ds ++ rest) acc k =
      (ds.foldl (fun n c => 10 * n + (c.toNat - 48)) acc, k + ds.length) := by
  induction ds generalizing acc k with
  | nil =>
    cases rest with
    | nil => simp [radixValue]
    | cons c r =>
      have := hrest c (by simp)
      simp [radixValue, radixDigit_ten, this]
  | cons d ds ih =>
    have hd := hds d (List.mem_cons_self _ _)
    have := ih (fun c hc => hds c (List.mem_cons_of_mem _ hc)) (10 * acc + (d.toNat - 48)) (k + 1)
    simp only [List.cons_append, radixValue, radixDigit_ten, hd, if_true, List.foldl_cons,
      List.length_cons, List.append_eq]
    rw [this]
    congr 1
    omega

/-- A text that, after its leading white space, starts with decimal digits
followed by a character that is not a digit (and not by the `x` of a
hexadecimal prefix) is read by `parseInt` as the integer that the digits
write. -/
theorem parseInt_digits (s : String) (ds rest : List Char)
    (h : trimStart s.toList = ds ++ rest) (hne : ds ≠ [])
    (hds : ∀ c ∈ ds, c.isDigit = true)
    (hrest : ∀ c ∈ rest.head?, c.isDigit = false ∧ c ≠ 'x' ∧ c ≠ 'X') :
    parseInt (some s) = roundToDouble (digitsValue ds) := by
  have hrv := radixValue_digits ds rest hds (fun c hc => (hrest c hc).1) 0 0
  obtain ⟨d, ds', rfl⟩ := List.exists_cons_of_ne_nil hne
  have hd : d.isDigit = true := hds d (List.mem_cons_self _ _)
  have hten : ∀ cs : List Char, cs = d :: ds' ++ rest →
      (match radixValue 10 cs 0 0 with
        | (_, 0) => JSNum.nan
        | (v, _) => roundToDouble v) = roundToDouble (digitsValue (d :: ds')) := by
    intro cs hcs
    rw [hcs, hrv]
    simp [digitsValue]
  have hunsigned : parseIntUnsigned (d :: ds' ++ rest) =
      roundToDouble (digitsValue (d :: ds')) := by
    unfold parseIntUnsigned
    split
    · next x r heq =>
      have hx : (x == 'x' || x == 'X') = false := by
        cases ds' with
        | nil =>
          have hr : rest = x :: r := by
            simp only [List.cons_append, List.nil_append] at heq
            injection heq with _ heq
          obtain ⟨_, h1, h2⟩ := hrest x (by rw [hr]; simp)
          simp [h1, h2]
        | cons d2 ds2 =>
          have hd2 : d2.isDigit = true := hds d2 (by simp)
          have hx2 : x = d2 := by
            simp only [List.cons_append] at heq
            injection heq with _ heq
            injection heq with heq _
            exact heq.symm
          rw [hx2]
          have h1 : d2 ≠ 'x' := by
            intro hc; rw [hc] at hd2; exact absurd hd2 (by decide)
          have h2 : d2 ≠ 'X' := by
            intro hc; rw [hc] at hd2; exact absurd hd2 (by decide)
          simp [h1, h2]
      rw [hx]
      simp only [Bool.false_eq_true, if_false]
      exact hten _ rfl
    · exact hten _ rfl
  simp only [parseInt, argToString, parseIntString, h]
  split
  · next cs heq =>
    have : d = '-' := by injection heq
    rw [this] at hd
    exact absurd hd (by decide)
  · next cs heq =>
    have : d = '+' := by injection heq
    rw [this] at hd
    exact absurd hd (by decide)
  · exact hunsigned

/-! ## Sums and waste rates of non-negative readings -/

theorem isNonnegSum_fin (w : ℚ) (hw : 0 ≤ w) (hd : IsDouble w) : IsNonnegSum (.fin w) w :=
  ⟨hw, fun h => by rw [h], fun h => Or.inr ⟨w, rfl, h, hd⟩⟩

theorem roundToDouble_zero : roundToDouble 0 = .fin 0 := by simp [roundToDouble]

/-- The sum of two sums of non-negative doubles is one. -/
theorem isNonnegSum_add (A B : JSNum) (x y : ℚ) (hA : IsNonnegSum A x) (hB : IsNonnegSum B y) :
    IsNonnegSum (A.add B) (x + y) := by
  obtain ⟨hx, hA0, hApos⟩ := hA
  obtain ⟨hy, hB0, hBpos⟩ := hB
  refine ⟨add_nonneg hx hy, ?_, ?_⟩
  · intro h
    have hx0 : x = 0 := by linarith
    have hy0 : y = 0 := by linarith
    rw [hA0 hx0, hB0 hy0, add_fin_fin, add_zero, roundToDouble_zero]
  · intro hpos
    rcases eq_or_lt_of_le hx with hx0 | hxpos
    · have hypos : 0 < y := by linarith
      rw [hA0 hx0.symm]
      rcases hBpos hypos with hB | ⟨b, hB, hb, hdb⟩
      · left; rw [hB]; rfl
      · right
        refine ⟨b, ?_, hb, hdb⟩
        rw [hB, add_fin_fin, zero_add]
        exact hdb
    · rcases hApos hxpos with hA | ⟨a, hA, ha, hda⟩
      · left
        rw [hA]
        rcases eq_or_lt_of_le hy with hy0 | hypos
        · rw [hB0 hy0.symm]; rfl
        · rcases hBpos hypos with hB | ⟨b, hB, _, _⟩
          · rw [hB]; rfl
          · rw [hB]; rfl
      · rw [hA]
        rcases eq_or_lt_of_le hy with hy0 | hypos
        · right
          refine ⟨a, ?_, ha, hda⟩
          rw [hB0 hy0.symm, add_fin_fin, add_zero]
          exact hda
        · rcases hBpos hypos with hB | ⟨b, hB, hb, hdb⟩
          · left; rw [hB]; rfl
          · rw [hB]
            rcases add_nonneg_cases a b ha.le hb.le hda hdb with h | ⟨c, hc, hac, _, hdc, _⟩
            · exact Or.inl h
            · exact Or.inr ⟨c, hc, lt_of_lt_of_le ha hac, hdc⟩

/-- A finite non-negative value read from a measured field is a sum of one
term. -/
theorem isNonnegSum_readFloat (doc : Document) (id : String) (w : ℚ)
    (h : readFloat doc id = .fin w) (hw : 0 ≤ w) : IsNonnegSum (readFloat doc id) w := by
  rw [h]
  exact isNonnegSum_fin w hw (isDouble_of_readFloat doc id w h)

theorem gt_zero_of_isNonnegSum (T : JSNum) (x : ℚ) (h : IsNonnegSum T x) :
    T.gt (.fin 0) = decide (0 < x) := by
  obtain ⟨hx, h0, hpos⟩ := h
  rcases eq_or_lt_of_le hx with hx0 | hxpos
  · rw [h0 hx0.symm, ← hx0]
    simp [JSNum.gt]
  · rcases hpos hxpos with hT | ⟨t, hT, ht, _⟩
    · rw [hT]; simp [JSNum.gt, hxpos]
    · rw [hT]; simp [JSNum.gt, hxpos, ht]

/-- The waste rate of the printing and welding panels for a non-negative
production and waste: 0 when both are zero, the formula otherwise. -/
theorem sectionTauxDechet_of_sum (T : JSNum) (x w : ℚ) (hT : IsNonnegSum T x)
    (hw : IsNonnegSum (.fin w) w) :
    sectionTauxDechet T (.fin w) =
      if x + w = 0 then .fin 0 else ((JSNum.fin w).div (T.add (.fin w))).mul (.fin 100) := by
  have hD := isNonnegSum_add T (.fin w) x w hT hw
  have hg := gt_zero_of_isNonnegSum _ _ hD
  unfold sectionTauxDechet
  rw [hg]
  by_cases h0 : x + w = 0
  · simp [h0]
  · have hpos : 0 < x + w := lt_of_le_of_ne hD.1 (Ne.symm h0)
    simp [h0, hpos]

/-- A quotient `w / c` with `0 ≤ w ≤ c`, taken in percent, lies between 0 and
100, and is 0 when `w` is. -/
theorem percent_bounds (w c : ℚ) (hw : 0 ≤ w) (hwc : w ≤ c) (hc : 0 < c) :
    ∃ q, ((JSNum.fin w).div (.fin c)).mul (.fin 100) = .fin q ∧ 0 ≤ q ∧ q ≤ 100 ∧
      (w = 0 → q = 0) := by
  rcases eq_or_lt_of_le hw with hw0 | hwpos
  · refine ⟨0, ?_, le_rfl, by norm_num, fun _ => rfl⟩
    rw [← hw0]
    simp [JSNum.div, JSNum.mul, hc.ne', JSNum.signedZero, not_lt.mpr hc.le]
  · have hq1 : w / c ≤ 1 := (div_le_one hc).mpr hwc
    have hq0 : 0 ≤ w / c := div_nonneg hw hc.le
    obtain ⟨v, hv, hv0, hv1⟩ := roundToDouble_le (w / c) 1 hq0 hq1 isDouble_one
    have hdiv : (JSNum.fin w).div (.fin c) = .fin v := by
      simp [JSNum.div, hc.ne', hwpos.ne', hv]
    rw [hdiv]
    by_cases hvz : v = 0
    · refine ⟨0, ?_, le_rfl, by norm_num, fun _ => rfl⟩
      rw [hvz]
      simp [JSNum.mul, JSNum.signedZero]
    · obtain ⟨y, hy, hy0, hy1⟩ := roundToDouble_le (v * 100) 100 (by positivity) (by linarith)
        isDouble_hundred
      refine ⟨y, ?_, hy0, hy1, fun h => absurd h hwpos.ne'⟩
      simp [JSNum.mul, hvz, hy]

/-- A finite non-negative number divided by `Infinity`, in percent, is 0. -/
theorem percent_of_posInf (w : ℚ) (hw : 0 ≤ w) :
    ((JSNum.fin w).div .posInf).mul (.fin 100) = .fin 0 := by
  simp [JSNum.div, JSNum.mul, JSNum.isInfinite, JSNum.isZero, JSNum.isNegative,
    JSNum.signedZero, not_lt.mpr hw]

/-- For a non-negative production and waste, the waste rate of the printing and
welding panels lies between 0 and 100 and is 0 when the waste is 0. -/
theorem sectionTauxDechet_bounds (T : JSNum) (x w : ℚ) (hT : IsNonnegSum T x)
    (hw0 : 0 ≤ w) (hdw : IsDouble w) :
    ∃ q, sectionTauxDechet T (.fin w) = .fin q ∧ 0 ≤ q ∧ q ≤ 100 ∧ (w = 0 → q = 0) := by
  rw [sectionTauxDechet_of_sum T x w hT (isNonnegSum_fin w hw0 hdw)]
  by_cases h0 : x + w = 0
  · exact ⟨0, by simp [h0], le_rfl, by norm_num, fun _ => rfl⟩
  · rw [if_neg h0]
    obtain ⟨hx, hT0, hTpos⟩ := hT
    rcases eq_or_lt_of_le hx with hx0 | hxpos
    · have hwpos : 0 < w := by
        rcases eq_or_lt_of_le hw0 with h | h
        · exfalso; apply h0; rw [← hx0, ← h]; norm_num
        · exact h
      rw [hT0 hx0.symm, add_fin_fin, zero_add, hdw]
      exact percent_bounds w w hw0 le_rfl hwpos
    · rcases hTpos hxpos with hTi | ⟨t, hTt, ht, hdt⟩
      · rw [hTi]
        exact ⟨0, percent_of_posInf w hw0, le_rfl, by norm_num, fun _ => rfl⟩
      · rw [hTt]
        rcases add_nonneg_cases t w ht.le hw0 hdt hdw with h | ⟨c, hc, htc, hwc, _, _⟩
        · rw [h]
          exact ⟨0, percent_of_posInf w hw0, le_rfl, by norm_num, fun _ => rfl⟩
        · rw [hc]
          exact percent_bounds w c hw0 hwc (lt_of_lt_of_le ht htc)

/-- For a non-negative production and waste, the waste rate of the extrusion
page lies between 0 and 100 and is 0 when the waste is 0. -/
theorem extrusionTauxDechet_bounds (T : JSNum) (x w : ℚ) (hT : IsNonnegSum T x)
    (hw0 : 0 ≤ w) (hdw : IsDouble w) :
    ∃ q, extrusionTauxDechet T (.fin w) = .fin q ∧ 0 ≤ q ∧ q ≤ 100 ∧ (w = 0 → q = 0) := by
  unfold extrusionTauxDechet
  rw [gt_zero_of_isNonnegSum T x hT]
  by_cases hx : 0 < x
  · simp only [hx, decide_True, if_true]
    rcases hT.2.2 hx with hTi | ⟨t, hTt, ht, hdt⟩
    · rw [hTi]
      exact ⟨0, percent_of_posInf w hw0, le_rfl, by norm_num, fun _ => rfl⟩
    · rw [hTt]
      rcases add_nonneg_cases t w ht.le hw0 hdt hdw with h | ⟨c, hc, htc, hwc, _, _⟩
      · rw [h]
        exact ⟨0, percent_of_posInf w hw0, le_rfl, by norm_num, fun _ => rfl⟩
      · rw [hc]
        exact percent_bounds w c hw0 hwc (lt_of_lt_of_le ht htc)
  · exact ⟨0, by simp [hx], le_rfl, by norm_num, fun _ => rfl⟩

/-! ## C1: waste rate of the extrusion page -/

/-- C1 (the code at the failing input): with finished = semiFinished = 0 and
waste = 10 the extrusion page shows a waste rate of `"0.0"`, where the formula
`100 × waste / (total + waste)` gives `"100.0"`, which is what the printing
panel shows for the same reading. -/
theorem C1_extrusion_waste_rate_without_production :
    textOf (updateExtrusionCalculations (extrusionPage "0" "0" "10" "0" "1")) "taux_dechet" =
        some "0.0" ∧
      toFixed1 (.fin (specWasteRate (0 + 0) 10)) = "100.0" ∧
      textOf (updateImprimerieCalculations (imprimeriePage "0" "0" "10")) "imp_taux_dechet" =
        some "100.0" := by
  decide!

/-! ## C2: yield of the extrusion page -/

/-- C2 (as amended): for every extrusion reading, negative values included, the
text written to `rendement` is `toFixed(1)` of `(finished + semiFinished) /
rawMaterial × 100` computed in double arithmetic (rounded to one decimal place
when finite and below `10 ^ 21`) when the raw material read is `> 0`, and
`"0.0"` otherwise: a raw material `≤ 0` gives a yield of 0.  When no
intermediate result is zero or infinite the value is obtained by three
roundings to the nearest double: of the sum, of the quotient and of the
product. -/
theorem C2_yield_guard_is_positive_raw_material (doc : Document)
    (hout : getElementById doc "rendement" ≠ none) :
    ((readFloat doc "matiere_premiere").gt (.fin 0) = true →
      ShowsRounded (textOf (updateExtrusionCalculations doc) "rendement")
        ((((readFloat doc "prod_finis").add (readFloat doc "prod_semi_finis")).div
          (readFloat doc "matiere_premiere")).mul (.fin 100))) ∧
    ((readFloat doc "matiere_premiere").gt (.fin 0) = false →
      textOf (updateExtrusionCalculations doc) "rendement" = some "0.0") ∧
    (∀ r : ℚ, readFloat doc "matiere_premiere" = .fin r →
      ((readFloat doc "matiere_premiere").gt (.fin 0) = true ↔ 0 < r)) ∧
    (∀ f s r t q : ℚ, readFloat doc "prod_finis" = .fin f →
      readFloat doc "prod_semi_finis" = .fin s → readFloat doc "matiere_premiere" = .fin r →
      0 < r → roundToDouble (f + s) = .fin t → t ≠ 0 → roundToDouble (t / r) = .fin q → q ≠ 0 →
      (((readFloat doc "prod_finis").add (readFloat doc "prod_semi_finis")).div
          (readFloat doc "matiere_premiere")).mul (.fin 100) = roundToDouble (q * 100)) := by
  have hlink := (textOf_updateExtrusionCalculations doc).2.1
  refine ⟨?_, ?_, ?_, ?_⟩
  · intro hg
    refine showsRounded_of_map doc "rendement" _ _ hout ?_
    rw [hlink, extrusionRendement, if_pos hg]
  · intro hg
    rw [hlink, extrusionRendement, if_neg (by rw [hg]; simp), textOf_map_const doc _ _ hout,
      toFixed1_zero]
  · intro r hr
    rw [hr, gt_zero_fin]
    simp
  · intro f s r t q hf hs hr hpos ht ht0 hq hq0
    rw [hf, hs, hr, add_fin_fin, ht]
    simp only [JSNum.div, JSNum.mul, hpos.ne', ht0, if_false, hq, hq0, false_or]
    norm_num

/-- C2 (witness): the reading finished = 120, semiFinished = 30, rawMaterial = 200
shows a yield of `"75.0"`. -/
theorem C2_yield_guard_is_positive_raw_material_witness :
    textOf (updateExtrusionCalculations (extrusionPage "120.0" "30.0" "10.0" "200.0" "5"))
        "rendement" = some "75.0" := by
  have h := (C2_yield_guard_is_positive_raw_material
    (extrusionPage "120.0" "30.0" "10.0" "200.0" "5") (by decide)).1 (by decide!)
  have e : toFixed1 ((((readFloat (extrusionPage "120.0" "30.0" "10.0" "200.0" "5")
      "prod_finis").add (readFloat (extrusionPage "120.0" "30.0" "10.0" "200.0" "5")
      "prod_semi_finis")).div (readFloat (extrusionPage "120.0" "30.0" "10.0" "200.0" "5")
      "matiere_premiere")).mul (.fin 100)) = "75.0" := by decide!
  exact h.1.trans (congrArg some e)

/-- C2 (counterexample): with finished = 10 and rawMaterial = -5 the page shows
`"0.0"`, which is not `100 × total / rawMaterial = -200` rounded to one decimal
place; and with finished = 3 and rawMaterial = 2000 it shows `"0.1"`, which is
not `100 × 3 / 2000 = 0.15` rounded to one decimal place (`"0.2"`): the product
of the double nearest to `0.0015` by 100 is a double below `0.15`. -/
theorem C2_negative_raw_material_counterexample :
    textOf (updateExtrusionCalculations (extrusionPage "10" "0" "0" "-5" "1")) "rendement" =
        some "0.0" ∧
      ¬ IsRoundedToOneDecimal "0.0" (specYield (10 + 0) (-5)) ∧
      textOf (updateExtrusionCalculations (extrusionPage "3" "0" "0" "2000" "1")) "rendement" =
        some "0.1" ∧
      ¬ IsRoundedToOneDecimal "0.1" (specYield (3 + 0) 2000) := by
  refine ⟨by decide!, ?_, by decide!, ?_⟩
  · intro h
    have := isRoundedToOneDecimal_unique _ _ h
    revert this
    decide!
  · intro h
    have := isRoundedToOneDecimal_unique _ _ h
    revert this
    decide!

/-! ## C3: guarded division -/

/-- C3 (the code at the failing input): with finished = 10, semiFinished = 0 and
waste = -10 the denominator `total + waste` is zero and the extrusion page shows
`"-Infinity"` as waste rate, where the printing panel shows `"0.0"` for the same
reading. -/
theorem C3_extrusion_zero_denominator_shows_infinity :
    ((readFloat (extrusionPage "10" "0" "-10" "100" "1") "prod_finis").add
        (readFloat (extrusionPage "10" "0" "-10" "100" "1") "prod_semi_finis")).add
        (readFloat (extrusionPage "10" "0" "-10" "100" "1") "dechets") = .fin 0 ∧
      textOf (updateExtrusionCalculations (extrusionPage "10" "0" "-10" "100" "1"))
        "taux_dechet" = some "-Infinity" ∧
      textOf (updateImprimerieCalculations (imprimeriePage "10" "0" "-10")) "imp_taux_dechet" =
        some "0.0" := by
  decide!

/-- Every other guarded ratio is displayed as `"0.0"` when its denominator is
zero: the extrusion yield, the printing and welding waste rates and the
recycling transformation rate (the counts read with `parseInt(v) || 1` are
never zero). -/
theorem guarded_division_elsewhere (doc : Document) :
    (getElementById doc "rendement" ≠ none → readFloat doc "matiere_premiere" = .fin 0 →
      textOf (updateExtrusionCalculations doc) "rendement" = some "0.0") ∧
    (getElementById doc "imp_taux_dechet" ≠ none →
      ((readFloat doc "imp_bobines_finies").add (readFloat doc "imp_bobines_semi_finies")).add
        (readFloat doc "imp_dechets") = .fin 0 →
      textOf (updateImprimerieCalculations doc) "imp_taux_dechet" = some "0.0") ∧
    (getElementById doc "sou_taux_dechet" ≠ none →
      ((readFloat doc "sou_bobines_finies").add
        (((readFloat doc "sou_bretelles").add (readFloat doc "sou_rema")).add
          (readFloat doc "sou_batta"))).add (readFloat doc "sou_dechets") = .fin 0 →
      textOf (updateSoudureCalculations doc) "sou_taux_dechet" = some "0.0") ∧
    (getElementById doc "rec_taux_transformation" ≠ none →
      readFloat doc "rec_broyage" = .fin 0 →
      textOf (updateRecyclageCalculations doc) "rec_taux_transformation" = some "0.0") := by
  refine ⟨?_, ?_, ?_, ?_⟩
  · intro h h0
    simp [updateExtrusionCalculations, textOf_setTextContent, textOf_map_const doc _ _ h, h0,
      JSNum.gt, toFixed1_zero]
  · intro h h0
    simp [updateImprimerieCalculations, textOf_setTextContent, textOf_map_const doc _ _ h, h0,
      JSNum.gt, toFixed1_zero]
  · intro h h0
    simp [updateSoudureCalculations, textOf_setTextContent, textOf_map_const doc _ _ h, h0,
      JSNum.gt, toFixed1_zero]
  · intro h h0
    simp [updateRecyclageCalculations, textOf_setTextContent, textOf_map_const doc _ _ h, h0,
      JSNum.gt, toFixed1_zero]

/-! ## C4: output per machine -/

/-- C4 (as amended): the machine count is the number that `parseInt` reads from
`nb_machines` (the integer written by its leading digits, as a double), taken
to be 1 when `parseInt` gives `NaN` (field absent, empty or not starting with an
integer) or a zero; the text written to `prod_par_machine` is `toFixed(1)` of
`(finished + semiFinished) / machineCount` computed in double arithmetic
(rounded to one decimal place when finite and below `10 ^ 21`) when the count is
`> 0`, and `"0.0"` when it is negative. -/
theorem C4_per_machine_output (doc : Document)
    (hout : getElementById doc "prod_par_machine" ≠ none) :
    (parseInt none = .nan ∧ parseInt (some "") = .nan ∧ parseInt (some "abc") = .nan) ∧
    (∀ (s : String) (ds rest : List Char), trimStart s.toList = ds ++ rest → ds ≠ [] →
      (∀ c ∈ ds, c.isDigit = true) →
      (∀ c ∈ rest.head?, c.isDigit = false ∧ c ≠ 'x' ∧ c ≠ 'X') →
      parseInt (some s) = roundToDouble (digitsValue ds)) ∧
    (∀ n : ℕ, n < 2 ^ 53 → roundToDouble (n : ℚ) = .fin (n : ℚ)) ∧
    (parseInt (fieldValue doc "nb_machines") = .nan ∨
        parseInt (fieldValue doc "nb_machines") = .fin 0 ∨
        parseInt (fieldValue doc "nb_machines") = .negZero →
      readCount doc "nb_machines" = .fin 1 ∧
        ShowsRounded (textOf (updateExtrusionCalculations doc) "prod_par_machine")
          ((readFloat doc "prod_finis").add (readFloat doc "prod_semi_finis"))) ∧
    (parseInt (fieldValue doc "nb_machines") ≠ .nan →
      parseInt (fieldValue doc "nb_machines") ≠ .fin 0 →
      parseInt (fieldValue doc "nb_machines") ≠ .negZero →
      readCount doc "nb_machines" = parseInt (fieldValue doc "nb_machines")) ∧
    ((readCount doc "nb_machines").gt (.fin 0) = true →
      ShowsRounded (textOf (updateExtrusionCalculations doc) "prod_par_machine")
        (((readFloat doc "prod_finis").add (readFloat doc "prod_semi_finis")).div
          (readCount doc "nb_machines"))) ∧
    ((readCount doc "nb_machines").gt (.fin 0) = false →
      textOf (updateExtrusionCalculations doc) "prod_par_machine" = some "0.0") ∧
    (∀ n : ℚ, readCount doc "nb_machines" = .fin n →
      ((readCount doc "nb_machines").gt (.fin 0) = true ↔ 0 < n)) := by
  have hlink := (textOf_updateExtrusionCalculations doc).2.2.2
  have hpos : (readCount doc "nb_machines").gt (.fin 0) = true →
      ShowsRounded (textOf (updateExtrusionCalculations doc) "prod_par_machine")
        (((readFloat doc "prod_finis").add (readFloat doc "prod_semi_finis")).div
          (readCount doc "nb_machines")) := by
    intro hg
    refine showsRounded_of_map doc "prod_par_machine" _ _ hout ?_
    rw [hlink, prodParUnite, if_pos hg]
  refine ⟨by decide!, parseInt_digits, fun n hn => isDouble_natCast n hn, ?_, ?_, hpos, ?_, ?_⟩
  · intro h
    have hc : readCount doc "nb_machines" = .fin 1 := by
      rcases h with h | h | h <;> simp [readCount, intOrOne, h, JSNum.orElse, JSNum.truthy]
    refine ⟨hc, ?_⟩
    have := hpos (by rw [hc]; decide!)
    rw [hc, div_one_of_valid ((readFloat doc "prod_finis").add (readFloat doc "prod_semi_finis"))
      (valid_add _ _ (valid_floatOrZero _) (valid_floatOrZero _))] at this
    exact this
  · intro h1 h2 h3
    unfold readCount intOrOne JSNum.orElse
    cases hp : parseInt (fieldValue doc "nb_machines") with
    | nan => exact absurd hp h1
    | negZero => exact absurd hp h3
    | fin q =>
      have hq : q ≠ 0 := by
        intro hq
        rw [hq] at hp
        exact h2 hp
      simp [JSNum.truthy, hq]
    | posInf => simp [JSNum.truthy]
    | negInf => simp [JSNum.truthy]
  · intro hg
    rw [hlink, prodParUnite, if_neg (by rw [hg]; simp), textOf_map_const doc _ _ hout,
      toFixed1_zero]
  · intro n hn
    rw [hn, gt_zero_fin]
    simp

/-- C4 (witness): finished = 120, semiFinished = 30 and 5 machines show `"30.0"`
per machine. -/
theorem C4_per_machine_output_witness :
    textOf (updateExtrusionCalculations (extrusionPage "120.0" "30.0" "10.0" "200.0" "5"))
        "prod_par_machine" = some "30.0" := by
  have h := (C4_per_machine_output (extrusionPage "120.0" "30.0" "10.0" "200.0" "5")
    (by decide)).2.2.2.2.2.1 (by decide!)
  have e : toFixed1 (((readFloat (extrusionPage "120.0" "30.0" "10.0" "200.0" "5")
      "prod_finis").add (readFloat (extrusionPage "120.0" "30.0" "10.0" "200.0" "5")
      "prod_semi_finis")).div (readCount (extrusionPage "120.0" "30.0" "10.0" "200.0" "5")
      "nb_machines")) = "30.0" := by decide!
  exact h.1.trans (congrArg some e)

/-- C4 (counterexample): with a total of 10, a count entered as 0 shows `"10.0"`
(not the 0 of the guarded division by the count as entered) and a count entered
as -2 shows `"0.0"` (not `10 / -2 = -5`); with a total of 7 and 20 machines the
page shows `"0.3"`, which is not `7 / 20 = 0.35` rounded to one decimal place
(`"0.4"`): the double nearest to `0.35` is below it. -/
theorem C4_zero_or_negative_count_counterexample :
    parseInt (fieldValue (extrusionPage "10" "0" "0" "0" "0") "nb_machines") = .fin 0 ∧
      textOf (updateExtrusionCalculations (extrusionPage "10" "0" "0" "0" "0"))
        "prod_par_machine" = some "10.0" ∧
      ¬ IsRoundedToOneDecimal "10.0" (specPerUnit (10 + 0) 0) ∧
      parseInt (fieldValue (extrusionPage "10" "0" "0" "0" "-2") "nb_machines") = .fin (-2) ∧
      textOf (updateExtrusionCalculations (extrusionPage "10" "0" "0" "0" "-2"))
        "prod_par_machine" = some "0.0" ∧
      ¬ IsRoundedToOneDecimal "0.0" (specPerUnit (10 + 0) (-2)) ∧
      textOf (updateExtrusionCalculations (extrusionPage "7" "0" "0" "0" "20"))
        "prod_par_machine" = some "0.3" ∧
      ¬ IsRoundedToOneDecimal "0.3" (specPerUnit (7 + 0) 20) := by
  refine ⟨by decide!, by decide!, ?_, by decide!, by decide!, ?_, by decide!, ?_⟩
  · intro h
    have := isRoundedToOneDecimal_unique _ _ h
    revert this
    decide!
  · intro h
    have := isRoundedToOneDecimal_unique _ _ h
    revert this
    decide!
  · intro h
    have := isRoundedToOneDecimal_unique _ _ h
    revert this
    decide!

/-! ## C5: the recycling panel -/

/-- C5 (as amended): for every recycling reading with finite non-negative
grinding and black tarp and a finite unit count of at least 1,
`updateRecyclageCalculations` shows `grinding + blackTarp` in
`rec_total_production`, `blackTarp / grinding × 100` (0 when grinding is 0) in
`rec_taux_transformation` and `total / unitCount` in `rec_prod_par_moulinex`,
each computed in double arithmetic and written with `toFixed(1)`: rounded to
one decimal place when finite and below `10 ^ 21`. -/
theorem C5_recyclage_outputs (doc : Document) (g b n : ℚ)
    (htotal : getElementById doc "rec_total_production" ≠ none)
    (hunit : getElementById doc "rec_prod_par_moulinex" ≠ none)
    (hrate : getElementById doc "rec_taux_transformation" ≠ none)
    (hg : readFloat doc "rec_broyage" = .fin g)
    (hb : readFloat doc "rec_bache_noir" = .fin b)
    (hn : readCount doc "rec_nb_moulinex" = .fin n)
    (hg0 : 0 ≤ g) (_hb0 : 0 ≤ b) (hn1 : 1 ≤ n) :
    ShowsRounded (textOf (updateRecyclageCalculations doc) "rec_total_production")
        ((JSNum.fin g).add (.fin b)) ∧
      ShowsRounded (textOf (updateRecyclageCalculations doc) "rec_taux_transformation")
        (if g = 0 then .fin 0 else ((JSNum.fin b).div (.fin g)).mul (.fin 100)) ∧
      ShowsRounded (textOf (updateRecyclageCalculations doc) "rec_prod_par_moulinex")
        (((JSNum.fin g).add (.fin b)).div (.fin n)) := by
  obtain ⟨h1, h2, h3⟩ := textOf_updateRecyclageCalculations doc
  have hnpos : (0 : ℚ) < n := lt_of_lt_of_le one_pos hn1
  refine ⟨?_, ?_, ?_⟩
  · refine showsRounded_of_map doc _ _ _ htotal ?_
    rw [h1, hg, hb]
  · refine showsRounded_of_map doc _ _ _ hrate ?_
    rw [h3, hg, hb, recyclageTauxTransformation, gt_zero_fin]
    by_cases h0 : g = 0
    · simp [h0]
    · have hpos : 0 < g := lt_of_le_of_ne hg0 (Ne.symm h0)
      simp [h0, hpos]
  · refine showsRounded_of_map doc _ _ _ hunit ?_
    rw [h2, hg, hb, hn, prodParUnite, gt_zero_fin]
    simp [hnpos]

/-- C5 (witness): the reading grinding = 0, blackTarp = 50, units = 4 shows a
total of `"50.0"`, a transformation rate of `"0.0"` and `"12.5"` per unit. -/
theorem C5_recyclage_outputs_witness :
    textOf (updateRecyclageCalculations (recyclagePage "0" "50" "4")) "rec_total_production" =
        some "50.0" ∧
      textOf (updateRecyclageCalculations (recyclagePage "0" "50" "4"))
        "rec_taux_transformation" = some "0.0" ∧
      textOf (updateRecyclageCalculations (recyclagePage "0" "50" "4"))
        "rec_prod_par_moulinex" = some "12.5" := by
  have h := C5_recyclage_outputs (recyclagePage "0" "50" "4") 0 50 4 (by decide) (by decide)
    (by decide) (by decide!) (by decide!) (by decide!) (by norm_num) (by norm_num) (by norm_num)
  have e1 : toFixed1 ((JSNum.fin 0).add (.fin 50)) = "50.0" := by decide!
  have e2 : toFixed1 (if (0 : ℚ) = 0 then .fin 0
      else ((JSNum.fin 50).div (.fin 0)).mul (.fin 100)) = "0.0" := by decide!
  have e3 : toFixed1 (((JSNum.fin 0).add (.fin 50)).div (.fin 4)) = "12.5" := by decide!
  exact ⟨h.1.1.trans (congrArg some e1), h.2.1.1.trans (congrArg some e2),
    h.2.2.1.trans (congrArg some e3)⟩

/-- C5 (counterexample): with grinding = 2000 and blackTarp = 3 the rate shown
is `"0.1"`, which is not `100 × 3 / 2000 = 0.15` rounded to one decimal place;
with a total of 7 and 20 units the output per unit shown is `"0.3"`, which is
not `7 / 20 = 0.35` rounded to one decimal place; and a grinding of `1e21` is
shown as `"1e+21"`, without a fractional digit. -/
theorem C5_double_rounding_counterexample :
    textOf (updateRecyclageCalculations (recyclagePage "2000" "3" "1"))
        "rec_taux_transformation" = some "0.1" ∧
      ¬ IsRoundedToOneDecimal "0.1" (100 * 3 / 2000) ∧
      textOf (updateRecyclageCalculations (recyclagePage "7" "0" "20"))
        "rec_prod_par_moulinex" = some "0.3" ∧
      ¬ IsRoundedToOneDecimal "0.3" ((7 + 0) / 20) ∧
      textOf (updateRecyclageCalculations (recyclagePage "1e21" "0" "1"))
        "rec_total_production" = some "1e+21" ∧
      hasOneFractionalDigit "1e+21" = false := by
  refine ⟨by decide!, ?_, by decide!, ?_, by decide!, by decide⟩
  · intro h
    have := isRoundedToOneDecimal_unique _ _ h
    revert this
    decide!
  · intro h
    have := isRoundedToOneDecimal_unique _ _ h
    revert this
    decide!

/-! ## C6 and C7: the welding and printing panels -/

/-- C6 (as amended): for every welding reading with finite non-negative fields,
`updateSoudureCalculations` shows `straps + rema + batta` in
`sou_total_specifique`, `finishedReels + (straps + rema + batta)` in
`sou_total_production` and `waste / (total + waste) × 100` (0 when
`total + waste = 0`) in `sou_taux_dechet`, each computed in double arithmetic
and written with `toFixed(1)`: rounded to one decimal place when finite and
below `10 ^ 21`. -/
theorem C6_soudure_outputs (doc : Document) (r st re ba w : ℚ)
    (htotal : getElementById doc "sou_total_production" ≠ none)
    (hspec : getElementById doc "sou_total_specifique" ≠ none)
    (hrate : getElementById doc "sou_taux_dechet" ≠ none)
    (hr : readFloat doc "sou_bobines_finies" = .fin r)
    (hst : readFloat doc "sou_bretelles" = .fin st)
    (hre : readFloat doc "sou_rema" = .fin re)
    (hba : readFloat doc "sou_batta" = .fin ba)
    (hw : readFloat doc "sou_dechets" = .fin w)
    (hr0 : 0 ≤ r) (hst0 : 0 ≤ st) (hre0 : 0 ≤ re) (hba0 : 0 ≤ ba) (hw0 : 0 ≤ w) :
    ShowsRounded (textOf (updateSoudureCalculations doc) "sou_total_specifique")
        (((JSNum.fin st).add (.fin re)).add (.fin ba)) ∧
      ShowsRounded (textOf (updateSoudureCalculations doc) "sou_total_production")
        ((JSNum.fin r).add (((JSNum.fin st).add (.fin re)).add (.fin ba))) ∧
      ShowsRounded (textOf (updateSoudureCalculations doc) "sou_taux_dechet")
        (if r + (st + re + ba) + w = 0 then .fin 0
          else ((JSNum.fin w).div
            (((JSNum.fin r).add (((JSNum.fin st).add (.fin re)).add (.fin ba))).add
              (.fin w))).mul (.fin 100)) := by
  obtain ⟨h1, h2, h3⟩ := textOf_updateSoudureCalculations doc
  have sr := isNonnegSum_readFloat doc _ r hr hr0
  have sst := isNonnegSum_readFloat doc _ st hst hst0
  have sre := isNonnegSum_readFloat doc _ re hre hre0
  have sba := isNonnegSum_readFloat doc _ ba hba hba0
  have sw := isNonnegSum_readFloat doc _ w hw hw0
  have stotal := isNonnegSum_add _ _ _ _ sr (isNonnegSum_add _ _ _ _
    (isNonnegSum_add _ _ _ _ sst sre) sba)
  rw [hw] at sw
  refine ⟨?_, ?_, ?_⟩
  · refine showsRounded_of_map doc _ _ _ hspec ?_
    rw [h2, hst, hre, hba]
  · refine showsRounded_of_map doc _ _ _ htotal ?_
    rw [h1, hr, hst, hre, hba]
  · refine showsRounded_of_map doc _ _ _ hrate ?_
    rw [h3, hw, sectionTauxDechet_of_sum _ _ w stotal sw, hr, hst, hre, hba]

/-- C6 (witness): finished reels 100, straps 20, rema 10, batta 5, waste 15. -/
theorem C6_soudure_outputs_witness :
    textOf (updateSoudureCalculations (soudurePage "100" "20" "10" "5" "15"))
        "sou_total_specifique" = some "35.0" ∧
      textOf (updateSoudureCalculations (soudurePage "100" "20" "10" "5" "15"))
        "sou_total_production" = some "135.0" ∧
      textOf (updateSoudureCalculations (soudurePage "100" "20" "10" "5" "15"))
        "sou_taux_dechet" = some "10.0" := by
  have h := C6_soudure_outputs (soudurePage "100" "20" "10" "5" "15") 100 20 10 5 15
    (by decide) (by decide) (by decide) (by decide!) (by decide!) (by decide!) (by decide!)
    (by decide!) (by norm_num) (by norm_num) (by norm_num) (by norm_num) (by norm_num)
  have e1 : toFixed1 (((JSNum.fin 20).add (.fin 10)).add (.fin 5)) = "35.0" := by decide!
  have e2 : toFixed1 ((JSNum.fin 100).add (((JSNum.fin 20).add (.fin 10)).add (.fin 5))) =
      "135.0" := by decide!
  have e3 : toFixed1 (if (100 : ℚ) + (20 + 10 + 5) + 15 = 0 then .fin 0
      else ((JSNum.fin 15).div
        (((JSNum.fin 100).add (((JSNum.fin 20).add (.fin 10)).add (.fin 5))).add
          (.fin 15))).mul (.fin 100)) = "10.0" := by decide!
  exact ⟨h.1.1.trans (congrArg some e1), h.2.1.1.trans (congrArg some e2),
    h.2.2.1.trans (congrArg some e3)⟩

/-- C6 (counterexample): with straps `1.45` alone the specific total shown is
`"1.4"`, which is not 1.45 rounded to one decimal place (the double nearest to
1.45 is below it); with finished reels 57 and waste 23 the waste rate shown is
`"28.7"`, which is not `100 × 23 / 80 = 28.75` rounded to one decimal place; and
finished reels of `1e308` with straps of `1e308` show a total of
`"Infinity"`. -/
theorem C6_double_rounding_counterexample :
    textOf (updateSoudureCalculations (soudurePage "0" "1.45" "0" "0" "0"))
        "sou_total_specifique" = some "1.4" ∧
      ¬ IsRoundedToOneDecimal "1.4" (145 / 100 + 0 + 0) ∧
      textOf (updateSoudureCalculations (soudurePage "57" "0" "0" "0" "23"))
        "sou_taux_dechet" = some "28.7" ∧
      ¬ IsRoundedToOneDecimal "28.7" (specWasteRate (57 + (0 + 0 + 0)) 23) ∧
      textOf (updateSoudureCalculations (soudurePage "1e308" "1e308" "0" "0" "0"))
        "sou_total_production" = some "Infinity" := by
  refine ⟨by decide!, ?_, by decide!, ?_, by decide!⟩
  · intro h
    have := isRoundedToOneDecimal_unique _ _ h
    revert this
    decide!
  · intro h
    have := isRoundedToOneDecimal_unique _ _ h
    revert this
    decide!

/-- C7 (as amended): for every printing reading with finite non-negative fields,
`updateImprimerieCalculations` shows `finishedReels + semiFinishedReels` in
`imp_total_production` and `waste / (total + waste) × 100` (0 when
`total + waste = 0`) in `imp_taux_dechet`, each computed in double arithmetic
and written with `toFixed(1)`: rounded to one decimal place when finite and
below `10 ^ 21`; with a zero production and a positive waste the waste rate
shown is `"100.0"`. -/
theorem C7_imprimerie_outputs (doc : Document) (f s w : ℚ)
    (htotal : getElementById doc "imp_total_production" ≠ none)
    (hrate : getElementById doc "imp_taux_dechet" ≠ none)
    (hf : readFloat doc "imp_bobines_finies" = .fin f)
    (hs : readFloat doc "imp_bobines_semi_finies" = .fin s)
    (hw : readFloat doc "imp_dechets" = .fin w)
    (hf0 : 0 ≤ f) (hs0 : 0 ≤ s) (hw0 : 0 ≤ w) :
    ShowsRounded (textOf (updateImprimerieCalculations doc) "imp_total_production")
        ((JSNum.fin f).add (.fin s)) ∧
      ShowsRounded (textOf (updateImprimerieCalculations doc) "imp_taux_dechet")
        (if f + s + w = 0 then .fin 0
          else ((JSNum.fin w).div (((JSNum.fin f).add (.fin s)).add (.fin w))).mul (.fin 100)) ∧
      (f + s = 0 → 0 < w →
        textOf (updateImprimerieCalculations doc) "imp_taux_dechet" = some "100.0") := by
  obtain ⟨h1, h2⟩ := textOf_updateImprimerieCalculations doc
  have sf := isNonnegSum_readFloat doc _ f hf hf0
  have ss := isNonnegSum_readFloat doc _ s hs hs0
  have sw := isNonnegSum_readFloat doc _ w hw hw0
  have stotal := isNonnegSum_add _ _ _ _ sf ss
  rw [hw] at sw
  have hrateEq : textOf (updateImprimerieCalculations doc) "imp_taux_dechet" =
      some (toFixed1 (if f + s + w = 0 then .fin 0
          else ((JSNum.fin w).div (((JSNum.fin f).add (.fin s)).add (.fin w))).mul
            (.fin 100))) := by
    rw [h2, hw, sectionTauxDechet_of_sum _ _ w stotal sw, hf, hs,
      textOf_map_const doc _ _ hrate]
  refine ⟨?_, showsRounded_of_eq _ _ hrateEq, ?_⟩
  · refine showsRounded_of_map doc _ _ _ htotal ?_
    rw [h1, hf, hs]
  · intro h0 hpos
    have hf00 : f = 0 := by linarith
    have hs00 : s = 0 := by linarith
    have hdw : IsDouble w := isDouble_of_readFloat doc _ w hw
    have hne : f + s + w ≠ 0 := by rw [h0, zero_add]; exact hpos.ne'
    rw [hrateEq, if_neg hne, hf00, hs00, add_fin_fin, add_zero, roundToDouble_zero, add_fin_fin,
      zero_add, hdw]
    have hdiv : (JSNum.fin w).div (.fin w) = .fin 1 := by
      simp only [JSNum.div, hpos.ne', if_false, div_self hpos.ne']
      exact isDouble_one
    have hmul : (JSNum.fin 1).mul (.fin 100) = .fin 100 := by
      simp only [JSNum.mul, one_ne_zero, false_or, one_mul]
      norm_num
      exact isDouble_hundred
    rw [hdiv, hmul]
    decide!

/-- C7 (witness): no production and a waste of 10 show a total of `"0.0"` and a
waste rate of `"100.0"`. -/
theorem C7_imprimerie_outputs_witness :
    textOf (updateImprimerieCalculations (imprimeriePage "0" "" "10")) "imp_total_production" =
        some "0.0" ∧
      textOf (updateImprimerieCalculations (imprimeriePage "0" "" "10")) "imp_taux_dechet" =
        some "100.0" := by
  have h := C7_imprimerie_outputs (imprimeriePage "0" "" "10") 0 0 10 (by decide) (by decide)
    (by decide!) (by decide!) (by decide!) (by norm_num) (by norm_num) (by norm_num)
  have e1 : toFixed1 ((JSNum.fin 0).add (.fin 0)) = "0.0" := by decide!
  exact ⟨h.1.1.trans (congrArg some e1), h.2.2 (by norm_num) (by norm_num)⟩

/-- C7 (counterexample): with finished reels 57 and waste 23 the waste rate
shown is `"28.7"`, which is not `100 × 23 / 80 = 28.75` rounded to one decimal
place (the double computed is `28.749999999999996…`); with finished reels `2.55`
the total shown is `"2.5"`, which is not 2.55 rounded to one decimal place; and
finished and semi-finished reels of `1e308` each show a total of
`"Infinity"`. -/
theorem C7_double_rounding_counterexample :
    textOf (updateImprimerieCalculations (imprimeriePage "57" "0" "23")) "imp_taux_dechet" =
        some "28.7" ∧
      ¬ IsRoundedToOneDecimal "28.7" (specWasteRate (57 + 0) 23) ∧
      textOf (updateImprimerieCalculations (imprimeriePage "2.55" "0" "0"))
        "imp_total_production" = some "2.5" ∧
      ¬ IsRoundedToOneDecimal "2.5" (255 / 100 + 0) ∧
      textOf (updateImprimerieCalculations (imprimeriePage "1e308" "1e308" "0"))
        "imp_total_production" = some "Infinity" := by
  refine ⟨by decide!, ?_, by decide!, ?_, by decide!⟩
  · intro h
    have := isRoundedToOneDecimal_unique _ _ h
    revert this
    decide!
  · intro h
    have := isRoundedToOneDecimal_unique _ _ h
    revert this
    decide!

/-! ## C8: one-decimal display -/

/-- C8 (as amended): every text written by the four recomputation functions is
`toFixed(1)` of the value computed for it; for a finite value of magnitude below
`10 ^ 21` that text is the value rounded to one decimal place (a tie going away
from zero) and has exactly one fractional digit; the tie 6.25 prints as `"6.3"`,
and the extrusion reading finished = 120.0, semiFinished = 30.0, waste = 10.0,
rawMaterial = 200.0, machines = 5 shows `"150.0"`, `"75.0"`, `"6.3"` and
`"30.0"`. -/
theorem C8_outputs_rounded_to_one_decimal :
    (∀ doc : Document,
      textOf (updateExtrusionCalculations doc) "total_production" =
          (textOf doc "total_production").map (fun _ => toFixed1
            ((readFloat doc "prod_finis").add (readFloat doc "prod_semi_finis"))) ∧
        textOf (updateExtrusionCalculations doc) "rendement" =
          (textOf doc "rendement").map (fun _ => toFixed1 (extrusionRendement
            ((readFloat doc "prod_finis").add (readFloat doc "prod_semi_finis"))
            (readFloat doc "matiere_premiere"))) ∧
        textOf (updateExtrusionCalculations doc) "taux_dechet" =
          (textOf doc "taux_dechet").map (fun _ => toFixed1 (extrusionTauxDechet
            ((readFloat doc "prod_finis").add (readFloat doc "prod_semi_finis"))
            (readFloat doc "dechets"))) ∧
        textOf (updateExtrusionCalculations doc) "prod_par_machine" =
          (textOf doc "prod_par_machine").map (fun _ => toFixed1 (prodParUnite
            ((readFloat doc "prod_finis").add (readFloat doc "prod_semi_finis"))
            (readCount doc "nb_machines")))) ∧
    (∀ doc : Document,
      textOf (updateImprimerieCalculations doc) "imp_total_production" =
          (textOf doc "imp_total_production").map (fun _ => toFixed1
            ((readFloat doc "imp_bobines_finies").add
              (readFloat doc "imp_bobines_semi_finies"))) ∧
        textOf (updateImprimerieCalculations doc) "imp_taux_dechet" =
          (textOf doc "imp_taux_dechet").map (fun _ => toFixed1 (sectionTauxDechet
            ((readFloat doc "imp_bobines_finies").add (readFloat doc "imp_bobines_semi_finies"))
            (readFloat doc "imp_dechets")))) ∧
    (∀ doc : Document,
      textOf (updateSoudureCalculations doc) "sou_total_production" =
          (textOf doc "sou_total_production").map (fun _ => toFixed1
            ((readFloat doc "sou_bobines_finies").add
              (((readFloat doc "sou_bretelles").add (readFloat doc "sou_rema")).add
                (readFloat doc "sou_batta")))) ∧
        textOf (updateSoudureCalculations doc) "sou_total_specifique" =
          (textOf doc "sou_total_specifique").map (fun _ => toFixed1
            (((readFloat doc "sou_bretelles").add (readFloat doc "sou_rema")).add
              (readFloat doc "sou_batta"))) ∧
        textOf (updateSoudureCalculations doc) "sou_taux_dechet" =
          (textOf doc "sou_taux_dechet").map (fun _ => toFixed1 (sectionTauxDechet
            ((readFloat doc "sou_bobines_finies").add
              (((readFloat doc "sou_bretelles").add (readFloat doc "sou_rema")).add
                (readFloat doc "sou_batta")))
            (readFloat doc "sou_dechets")))) ∧
    (∀ doc : Document,
      textOf (updateRecyclageCalculations doc) "rec_total_production" =
          (textOf doc "rec_total_production").map (fun _ => toFixed1
            ((readFloat doc "rec_broyage").add (readFloat doc "rec_bache_noir"))) ∧
        textOf (updateRecyclageCalculations doc) "rec_prod_par_moulinex" =
          (textOf doc "rec_prod_par_moulinex").map (fun _ => toFixed1 (prodParUnite
            ((readFloat doc "rec_broyage").add (readFloat doc "rec_bache_noir"))
            (readCount doc "rec_nb_moulinex"))) ∧
        textOf (updateRecyclageCalculations doc) "rec_taux_transformation" =
          (textOf doc "rec_taux_transformation").map (fun _ => toFixed1
            (recyclageTauxTransformation (readFloat doc "rec_bache_noir")
              (readFloat doc "rec_broyage")))) ∧
    (∀ (v : JSNum) (y : ℚ), v.toRat = some y → |y| < 10 ^ 21 →
      IsRoundedToOneDecimal (toFixed1 v) y ∧ hasOneFractionalDigit (toFixed1 v) = true) ∧
    toFixed1 (.fin (25 / 4)) = "6.3" ∧
    (textOf (updateExtrusionCalculations (extrusionPage "120.0" "30.0" "10.0" "200.0" "5"))
        "total_production" = some "150.0" ∧
      textOf (updateExtrusionCalculations (extrusionPage "120.0" "30.0" "10.0" "200.0" "5"))
        "rendement" = some "75.0" ∧
      textOf (updateExtrusionCalculations (extrusionPage "120.0" "30.0" "10.0" "200.0" "5"))
        "taux_dechet" = some "6.3" ∧
      textOf (updateExtrusionCalculations (extrusionPage "120.0" "30.0" "10.0" "200.0" "5"))
        "prod_par_machine" = some "30.0") := by
  refine ⟨textOf_updateExtrusionCalculations, textOf_updateImprimerieCalculations,
    textOf_updateSoudureCalculations, textOf_updateRecyclageCalculations, ?_, by decide!,
    by decide!⟩
  intro v y hv hy
  refine ⟨toFixed1_isRounded v y hv hy, ?_⟩
  cases v with
  | nan => exact absurd hv (by simp [JSNum.toRat])
  | posInf => exact absurd hv (by simp [JSNum.toRat])
  | negInf => exact absurd hv (by simp [JSNum.toRat])
  | negZero => decide
  | fin q =>
    have hq : q = y := by simpa [JSNum.toRat] using hv
    rw [hq]
    exact hasOneFractionalDigit_toFixed1 y hy

/-- C8 (witness): the tie 6.25, of magnitude below `10 ^ 21`, is printed as the
tenths nearest to it, with one fractional digit. -/
theorem C8_outputs_rounded_to_one_decimal_witness :
    |(25 / 4 : ℚ)| < 10 ^ 21 ∧ IsRoundedToOneDecimal (toFixed1 (.fin (25 / 4))) (25 / 4) ∧
      hasOneFractionalDigit (toFixed1 (.fin (25 / 4))) = true :=
  ⟨by rw [abs_of_pos] <;> norm_num,
    C8_outputs_rounded_to_one_decimal.2.2.2.2.1 (.fin (25 / 4)) (25 / 4) rfl
      (by rw [abs_of_pos] <;> norm_num)⟩

/-- C8 (counterexample): a finished production of `1e21` is displayed as
`"1e+21"`, one of `Infinity` as `"Infinity"`, and the sum of two finished
productions of `1e308`, which overflows, as `"Infinity"` too: none of these
texts has a fractional digit. -/
theorem C8_large_or_infinite_value_counterexample :
    textOf (updateExtrusionCalculations (extrusionPage "1e21" "0" "0" "0" "1"))
        "total_production" = some "1e+21" ∧
      hasOneFractionalDigit "1e+21" = false ∧
      textOf (updateExtrusionCalculations (extrusionPage "Infinity" "0" "0" "0" "1"))
        "total_production" = some "Infinity" ∧
      textOf (updateExtrusionCalculations (extrusionPage "1e308" "1e308" "0" "0" "1"))
        "total_production" = some "Infinity" ∧
      hasOneFractionalDigit "Infinity" = false := by
  decide!

/-! ## C9: what is read from a field, and what can be displayed -/

/-- A text whose first character after the leading white space is neither a
digit, a sign, a point nor the `I` of `Infinity` is read as 0 by
`parseFloat(v) || 0`. -/
theorem floatOrZero_of_head (s : String) (c : Char) (rest : List Char)
    (h : trimStart s.toList = c :: rest) (hd : c.isDigit = false)
    (hc : c ≠ '.' ∧ c ≠ '+' ∧ c ≠ '-' ∧ c ≠ 'I') : floatOrZero (some s) = .fin 0 := by
  obtain ⟨h1, h2, h3, h4⟩ := hc
  have hlit : strUnsignedDecimalLiteral (c :: rest) = .nan := by
    have hp : "Infinity".toList.isPrefixOf (c :: rest) = false := by
      have : "Infinity".toList = 'I' :: "nfinity".toList := rfl
      rw [this, List.isPrefixOf]
      simp [Ne.symm h4]
    have hl : leadingDigits (c :: rest) = [] := by simp [leadingDigits, hd]
    unfold strUnsignedDecimalLiteral
    simp only [hp, hl]
    simp
    split
    · next r2 heq =>
      injection heq with heq _
      exact absurd heq h1
    · rfl
  have hparse : parseFloat (some s) = .nan := by
    simp only [parseFloat, argToString, parseFloatString, h]
    split
    · next cs heq => injection heq with heq _; exact absurd heq h3
    · next cs heq => injection heq with heq _; exact absurd heq h2
    · exact hlit
  simp [floatOrZero, hparse, JSNum.orElse, JSNum.truthy]

/-- A text whose first character after the leading white space is neither a
digit nor a sign is read as 1 by `parseInt(v) || 1`. -/
theorem intOrOne_of_head (s : String) (c : Char) (rest : List Char)
    (h : trimStart s.toList = c :: rest) (hd : c.isDigit = false)
    (hc : c ≠ '+' ∧ c ≠ '-') : intOrOne (some s) = .fin 1 := by
  obtain ⟨h2, h3⟩ := hc
  have hrv : radixValue 10 (c :: rest) 0 0 = (0, 0) := by
    simp [radixValue, radixDigit_ten, hd]
  have hunsigned : parseIntUnsigned (c :: rest) = .nan := by
    unfold parseIntUnsigned
    split
    · next x r heq =>
      have : c = '0' := by injection heq
      rw [this] at hd
      exact absurd hd (by decide)
    · rw [hrv]
  have hparse : parseInt (some s) = .nan := by
    simp only [parseInt, argToString, parseIntString, h]
    split
    · next cs heq => injection heq with heq _; exact absurd heq h3
    · next cs heq => injection heq with heq _; exact absurd heq h2
    · exact hunsigned
  simp [intOrOne, hparse, JSNum.orElse, JSNum.truthy]

/-- A value read with `parseFloat(v) || 0` is an infinity or a finite number
other than the negative zero: never `NaN`. -/
theorem floatOrZero_cases (v : Option String) :
    floatOrZero v = .posInf ∨ floatOrZero v = .negInf ∨ ∃ q, floatOrZero v = .fin q := by
  unfold floatOrZero JSNum.orElse
  cases h : parseFloat v with
  | fin q => simp only [JSNum.truthy]; split <;> simp
  | _ => simp [JSNum.truthy]

/-- A value read with `parseInt(v) || 1` is an infinity or a finite number other
than zero: never `NaN`, never 0. -/
theorem intOrOne_cases (v : Option String) :
    intOrOne v = .posInf ∨ intOrOne v = .negInf ∨ ∃ q, q ≠ 0 ∧ intOrOne v = .fin q := by
  unfold intOrOne JSNum.orElse
  cases h : parseInt v with
  | fin q =>
    simp only [JSNum.truthy]
    by_cases hq : q = 0
    · right; right; exact ⟨1, one_ne_zero, by simp [hq]⟩
    · right; right; exact ⟨q, hq, by simp [hq]⟩
  | posInf => simp [JSNum.truthy]
  | negInf => simp [JSNum.truthy]
  | nan => right; right; exact ⟨1, one_ne_zero, by simp [JSNum.truthy]⟩
  | negZero => right; right; exact ⟨1, one_ne_zero, by simp [JSNum.truthy]⟩

/-! ### Values that are not `NaN` -/

theorem toFixed1_ne_NaN (v : JSNum) (h : v ≠ .nan) : toFixed1 v ≠ "NaN" := by
  cases v with
  | nan => exact absurd rfl h
  | posInf => decide
  | negInf => decide
  | negZero => decide
  | fin q =>
    intro hc
    have := isNaNOrInfinite_toFixed1_fin q
    rw [hc] at this
    exact absurd this (by decide)

/-- A text written as `toFixed(1)` of a number that is not `NaN` is not
`"NaN"`. -/
theorem text_ne_NaN (o : Option String) (v : JSNum) (h : v ≠ .nan) :
    o.map (fun _ => toFixed1 v) ≠ some "NaN" := by
  cases o with
  | none => simp
  | some u =>
    intro hc
    have : toFixed1 v = "NaN" := by simpa using hc
    exact toFixed1_ne_NaN v h this

theorem add_fin_ne_nan (x : JSNum) (w : ℚ) (hx : x ≠ .nan) : x.add (.fin w) ≠ .nan := by
  cases x with
  | nan => exact absurd rfl hx
  | fin a => exact roundToDouble_ne_nan _
  | _ => simp [JSNum.add]

theorem fin_add_ne_nan (w : ℚ) (x : JSNum) (hx : x ≠ .nan) : (JSNum.fin w).add x ≠ .nan := by
  cases x with
  | nan => exact absurd rfl hx
  | fin a => exact roundToDouble_ne_nan _
  | _ => simp [JSNum.add]

theorem signedZero_ne_nan (b : Bool) : JSNum.signedZero b ≠ .nan := by
  cases b <;> simp [JSNum.signedZero]

theorem signedInf_ne_nan (b : Bool) : JSNum.signedInf b ≠ .nan := by
  cases b <;> simp [JSNum.signedInf]

theorem mul_hundred_ne_nan (x : JSNum) (hx : x ≠ .nan) : x.mul (.fin 100) ≠ .nan := by
  cases x with
  | nan => exact absurd rfl hx
  | fin a =>
    simp only [JSNum.mul]
    split
    · exact signedZero_ne_nan _
    · exact roundToDouble_ne_nan _
  | posInf => simp [JSNum.mul, JSNum.isInfinite, JSNum.isZero, JSNum.signedInf, JSNum.isNegative]
  | negInf =>
    simp [JSNum.mul, JSNum.isInfinite, JSNum.isZero, JSNum.signedInf, JSNum.isNegative]
    split <;> simp
  | negZero =>
    simp [JSNum.mul, JSNum.isInfinite, JSNum.isZero, JSNum.signedZero, JSNum.isNegative]

/-- Dividing a number that is not `NaN` by a positive finite number does not
give `NaN`. -/
theorem div_fin_pos_ne_nan (x : JSNum) (r : ℚ) (hx : x ≠ .nan) (hr : 0 < r) :
    x.div (.fin r) ≠ .nan := by
  cases x with
  | nan => exact absurd rfl hx
  | fin a =>
    simp only [JSNum.div, hr.ne', if_false]
    split
    · exact signedZero_ne_nan _
    · exact roundToDouble_ne_nan _
  | posInf =>
    simp [JSNum.div, JSNum.isInfinite, JSNum.isZero, JSNum.signedInf, JSNum.isNegative]
    split <;> simp
  | negInf =>
    simp [JSNum.div, JSNum.isInfinite, JSNum.isZero, JSNum.signedInf, JSNum.isNegative]
    split <;> simp
  | negZero =>
    simp [JSNum.div, JSNum.isInfinite, JSNum.isZero, JSNum.signedZero, JSNum.isNegative, hr.ne',
      not_lt.mpr hr.le]

/-- Dividing a finite number by a number that is `> 0` does not give `NaN`. -/
theorem fin_div_ne_nan_of_gt (w : ℚ) (d : JSNum) (hd : d.gt (.fin 0) = true) :
    (JSNum.fin w).div d ≠ .nan := by
  cases d with
  | nan => simp [JSNum.gt] at hd
  | negInf => simp [JSNum.gt] at hd
  | negZero => simp [JSNum.gt] at hd
  | posInf =>
    simp only [JSNum.div, JSNum.isInfinite, JSNum.isZero, Bool.false_and, Bool.and_false,
      Bool.or_self, Bool.false_eq_true, if_false, Bool.false_or]
    exact signedZero_ne_nan _
  | fin c =>
    have hc : 0 < c := by simpa [JSNum.gt] using hd
    exact div_fin_pos_ne_nan _ c (by simp) hc

theorem guardedPercent_ne_nan (w : ℚ) (d : JSNum) :
    (if d.gt (.fin 0) then ((JSNum.fin w).div d).mul (.fin 100) else .fin 0) ≠ .nan := by
  split
  · next h => exact mul_hundred_ne_nan _ (fin_div_ne_nan_of_gt w d h)
  · simp

/-- With finite production and waste the waste rate of the extrusion page is
not `NaN` (it can be infinite: the divisor is not the number that is tested). -/
theorem extrusionTauxDechet_ne_nan (f s w : ℚ) :
    extrusionTauxDechet ((JSNum.fin f).add (.fin s)) (.fin w) ≠ .nan := by
  unfold extrusionTauxDechet
  split
  · next hg =>
    apply mul_hundred_ne_nan
    have hvalid : ((JSNum.fin f).add (.fin s)).Valid := valid_roundToDouble _
    cases hT : (JSNum.fin f).add (.fin s) with
    | nan => rw [hT] at hg; simp [JSNum.gt] at hg
    | negInf => rw [hT] at hg; simp [JSNum.gt] at hg
    | negZero => rw [hT] at hg; simp [JSNum.gt] at hg
    | posInf =>
      simp only [JSNum.add, JSNum.div, JSNum.isInfinite, JSNum.isZero, Bool.false_and,
        Bool.and_false, Bool.or_self, Bool.false_eq_true, if_false, Bool.false_or]
      exact signedZero_ne_nan _
    | fin t =>
      rw [hT] at hg hvalid
      have ht : 0 < t := by simpa [JSNum.gt] using hg
      by_cases hw : w = 0
      · rw [hw, add_fin_fin, add_zero, hvalid]
        exact div_fin_pos_ne_nan _ t (by simp) ht
      · rw [add_fin_fin]
        cases hD : roundToDouble (t + w) with
        | nan => exact absurd hD (roundToDouble_ne_nan _)
        | posInf =>
          simp only [JSNum.div, JSNum.isInfinite, JSNum.isZero, Bool.false_and, Bool.and_false,
            Bool.or_self, Bool.false_eq_true, if_false, Bool.false_or]
          exact signedZero_ne_nan _
        | negInf =>
          simp only [JSNum.div, JSNum.isInfinite, JSNum.isZero, Bool.false_and, Bool.and_false,
            Bool.or_self, Bool.false_eq_true, if_false, Bool.false_or]
          exact signedZero_ne_nan _
        | negZero =>
          simp only [JSNum.div, JSNum.isInfinite, JSNum.isZero, hw, decide_False,
            Bool.false_and, Bool.or_self, Bool.false_eq_true, if_false, Bool.or_true, if_true]
          exact signedInf_ne_nan _
        | fin c =>
          simp only [JSNum.div, hw, if_false]
          split
          · exact signedInf_ne_nan _
          · exact roundToDouble_ne_nan _
  · simp

theorem prodParUnite_ne_nan (x : JSNum) (n : ℚ) (hx : x ≠ .nan) :
    prodParUnite x (.fin n) ≠ .nan := by
  unfold prodParUnite
  split
  · next h =>
    have hn : 0 < n := by simpa [JSNum.gt] using h
    exact div_fin_pos_ne_nan x n hx hn
  · simp

/-- C9 (as amended): an absent element, an empty string and a text that does
not start with a number (such as `"abc"`) are read as 0 in a measured field and
as 1 in a count field; a text that starts with digits followed by another
character is read as the integer those digits write (`"12abc"` gives 12) and
`"Infinity"` as `Infinity` in a measured field (as 1 in a count field); a
measured field is never read as `NaN` and a count field is always read as a
non-zero number, finite or infinite; and when every field of a form is read as
a finite value, no output of the four functions is `"NaN"`.  (The four
functions are total: no step of theirs can raise.) -/
theorem C9_fields_read_and_outputs_not_NaN :
    (floatOrZero none = .fin 0 ∧ floatOrZero (some "") = .fin 0 ∧
      floatOrZero (some "abc") = .fin 0) ∧
    (intOrOne none = .fin 1 ∧ intOrOne (some "") = .fin 1 ∧ intOrOne (some "abc") = .fin 1 ∧
      intOrOne (some "Infinity") = .fin 1) ∧
    (floatOrZero (some "12abc") = .fin 12 ∧ intOrOne (some "12abc") = .fin 12 ∧
      floatOrZero (some "Infinity") = .posInf) ∧
    (∀ (s : String) (c : Char) (rest : List Char), trimStart s.toList = c :: rest →
      c.isDigit = false → (c ≠ '.' ∧ c ≠ '+' ∧ c ≠ '-' ∧ c ≠ 'I') →
      floatOrZero (some s) = .fin 0) ∧
    (∀ (s : String) (c : Char) (rest : List Char), trimStart s.toList = c :: rest →
      c.isDigit = false → (c ≠ '+' ∧ c ≠ '-') → intOrOne (some s) = .fin 1) ∧
    (∀ (s : String) (ds rest : List Char), trimStart s.toList = ds ++ rest → ds ≠ [] →
      (∀ c ∈ ds, c.isDigit = true) →
      (∀ c ∈ rest.head?, c.isDigit = false ∧ c ≠ '.' ∧ c ≠ 'e' ∧ c ≠ 'E') →
      parseFloat (some s) = roundToDouble (digitsValue ds)) ∧
    (∀ (s : String) (ds rest : List Char), trimStart s.toList = ds ++ rest → ds ≠ [] →
      (∀ c ∈ ds, c.isDigit = true) →
      (∀ c ∈ rest.head?, c.isDigit = false ∧ c ≠ 'x' ∧ c ≠ 'X') →
      parseInt (some s) = roundToDouble (digitsValue ds)) ∧
    (∀ n : ℕ, n < 2 ^ 53 → roundToDouble (n : ℚ) = .fin (n : ℚ)) ∧
    (∀ v, parseFloat v = .nan → floatOrZero v = .fin 0) ∧
    (∀ v, parseInt v = .nan → intOrOne v = .fin 1) ∧
    (∀ v, floatOrZero v = .posInf ∨ floatOrZero v = .negInf ∨ ∃ q, floatOrZero v = .fin q) ∧
    (∀ v, intOrOne v = .posInf ∨ intOrOne v = .negInf ∨ ∃ q, q ≠ 0 ∧ intOrOne v = .fin q) ∧
    (∀ (doc : Document) (f s w : ℚ), readFloat doc "imp_bobines_finies" = .fin f →
      readFloat doc "imp_bobines_semi_finies" = .fin s → readFloat doc "imp_dechets" = .fin w →
      ∀ id ∈ ["imp_total_production", "imp_taux_dechet"],
        textOf (updateImprimerieCalculations doc) id ≠ some "NaN") ∧
    (∀ (doc : Document) (r st re ba w : ℚ), readFloat doc "sou_bobines_finies" = .fin r →
      readFloat doc "sou_bretelles" = .fin st → readFloat doc "sou_rema" = .fin re →
      readFloat doc "sou_batta" = .fin ba → readFloat doc "sou_dechets" = .fin w →
      ∀ id ∈ ["sou_total_production", "sou_total_specifique", "sou_taux_dechet"],
        textOf (updateSoudureCalculations doc) id ≠ some "NaN") ∧
    (∀ (doc : Document) (g b n : ℚ), readFloat doc "rec_broyage" = .fin g →
      readFloat doc "rec_bache_noir" = .fin b → readCount doc "rec_nb_moulinex" = .fin n →
      ∀ id ∈ ["rec_total_production", "rec_prod_par_moulinex", "rec_taux_transformation"],
        textOf (updateRecyclageCalculations doc) id ≠ some "NaN") ∧
    (∀ (doc : Document) (f s w m n : ℚ), readFloat doc "prod_finis" = .fin f →
      readFloat doc "prod_semi_finis" = .fin s → readFloat doc "dechets" = .fin w →
      readFloat doc "matiere_premiere" = .fin m → readCount doc "nb_machines" = .fin n →
      ∀ id ∈ ["total_production", "rendement", "taux_dechet", "prod_par_machine"],
        textOf (updateExtrusionCalculations doc) id ≠ some "NaN") := by
  refine ⟨by decide!, by decide!, by decide!, floatOrZero_of_head, intOrOne_of_head,
    parseFloat_digits, parseInt_digits, fun n hn => isDouble_natCast n hn, ?_, ?_,
    floatOrZero_cases, intOrOne_cases, ?_, ?_, ?_, ?_⟩
  · intro v h
    simp [floatOrZero, h, JSNum.orElse, JSNum.truthy]
  · intro v h
    simp [intOrOne, h, JSNum.orElse, JSNum.truthy]
  · intro doc f s w hf hs hw id hid
    obtain ⟨h1, h2⟩ := textOf_updateImprimerieCalculations doc
    have ht : (JSNum.fin f).add (.fin s) ≠ .nan := roundToDouble_ne_nan _
    simp only [List.mem_cons, List.mem_singleton, List.not_mem_nil, or_false] at hid
    rcases hid with rfl | rfl
    · rw [h1, hf, hs]
      exact text_ne_NaN _ _ ht
    · rw [h2, hf, hs, hw]
      exact text_ne_NaN _ _ (guardedPercent_ne_nan w _)
  · intro doc r st re ba w hr hst hre hba hw id hid
    obtain ⟨h1, h2, h3⟩ := textOf_updateSoudureCalculations doc
    have hsp : ((JSNum.fin st).add (.fin re)).add (.fin ba) ≠ .nan :=
      add_fin_ne_nan _ _ (roundToDouble_ne_nan _)
    have ht : (JSNum.fin r).add (((JSNum.fin st).add (.fin re)).add (.fin ba)) ≠ .nan :=
      fin_add_ne_nan _ _ hsp
    simp only [List.mem_cons, List.mem_singleton, List.not_mem_nil, or_false] at hid
    rcases hid with rfl | rfl | rfl
    · rw [h1, hr, hst, hre, hba]
      exact text_ne_NaN _ _ ht
    · rw [h2, hst, hre, hba]
      exact text_ne_NaN _ _ hsp
    · rw [h3, hr, hst, hre, hba, hw]
      exact text_ne_NaN _ _ (guardedPercent_ne_nan w _)
  · intro doc g b n hg hb hn id hid
    obtain ⟨h1, h2, h3⟩ := textOf_updateRecyclageCalculations doc
    have ht : (JSNum.fin g).add (.fin b) ≠ .nan := roundToDouble_ne_nan _
    simp only [List.mem_cons, List.mem_singleton, List.not_mem_nil, or_false] at hid
    rcases hid with rfl | rfl | rfl
    · rw [h1, hg, hb]
      exact text_ne_NaN _ _ ht
    · rw [h2, hg, hb, hn]
      exact text_ne_NaN _ _ (prodParUnite_ne_nan _ n ht)
    · rw [h3, hg, hb]
      exact text_ne_NaN _ _ (guardedPercent_ne_nan b _)
  · intro doc f s w m n hf hs hw hm hn id hid
    obtain ⟨h1, h2, h3, h4⟩ := textOf_updateExtrusionCalculations doc
    have ht : (JSNum.fin f).add (.fin s) ≠ .nan := roundToDouble_ne_nan _
    simp only [List.mem_cons, List.mem_singleton, List.not_mem_nil, or_false] at hid
    rcases hid with rfl | rfl | rfl | rfl
    · rw [h1, hf, hs]
      exact text_ne_NaN _ _ ht
    · rw [h2, hf, hs, hm]
      refine text_ne_NaN _ _ ?_
      unfold extrusionRendement
      split
      · next hg =>
        have hmpos : 0 < m := by simpa [JSNum.gt] using hg
        exact mul_hundred_ne_nan _ (div_fin_pos_ne_nan _ m ht hmpos)
      · simp
    · rw [h3, hf, hs, hw]
      exact text_ne_NaN _ _ (extrusionTauxDechet_ne_nan f s w)
    · rw [h4, hf, hs, hn]
      exact text_ne_NaN _ _ (prodParUnite_ne_nan _ n ht)

/-- C9 (witness): the printing panel with no production and a waste of 10 reads
finite values and displays a waste rate of `"100.0"`, not `"NaN"`. -/
theorem C9_fields_read_and_outputs_not_NaN_witness :
    textOf (updateImprimerieCalculations (imprimeriePage "0" "" "10")) "imp_taux_dechet" =
        some "100.0" ∧
      textOf (updateImprimerieCalculations (imprimeriePage "0" "" "10")) "imp_taux_dechet" ≠
        some "NaN" :=
  ⟨by decide!,
    C9_fields_read_and_outputs_not_NaN.2.2.2.2.2.2.2.2.2.2.2.2.1 (imprimeriePage "0" "" "10")
      0 0 10 (by decide!) (by decide!) (by decide!) "imp_taux_dechet" (by simp)⟩

/-- C9 (counterexample): `"12abc"` is read as 12 (not 0, not 1), `"Infinity"` is
read as `Infinity` in a measured field, a count of four hundred digits is read
as `Infinity`, the printing panel with finished reels and waste both `Infinity`
displays `"Infinity"` and `"NaN"`, and with finished and semi-finished reels of
`1e308` each, which are finite, it displays `"Infinity"`. -/
theorem C9_numeric_prefix_and_infinity_counterexample :
    floatOrZero (some "12abc") ≠ .fin 0 ∧ intOrOne (some "12abc") ≠ .fin 1 ∧
      floatOrZero (some "Infinity") ≠ .fin 0 ∧
      intOrOne (some (String.mk (List.replicate 400 '9'))) = .posInf ∧
      textOf (updateImprimerieCalculations (imprimeriePage "Infinity" "0" "Infinity"))
        "imp_total_production" = some "Infinity" ∧
      textOf (updateImprimerieCalculations (imprimeriePage "Infinity" "0" "Infinity"))
        "imp_taux_dechet" = some "NaN" ∧
      (readFloat (imprimeriePage "1e308" "1e308" "0") "imp_bobines_finies").toRat.isSome = true ∧
      (readFloat (imprimeriePage "1e308" "1e308" "0") "imp_bobines_semi_finies").toRat.isSome =
        true ∧
      textOf (updateImprimerieCalculations (imprimeriePage "1e308" "1e308" "0"))
        "imp_total_production" = some "Infinity" := by
  decide!

/-! ## The tree of the page under validation -/

theorem keepsCore_withBorderColor (e : Element) (c : String) :
    KeepsCore (withBorderColor e c) := by
  intro x
  unfold withBorderColor
  split <;> exact ⟨rfl, rfl, rfl, rfl⟩

theorem keepsCore_comp (g h : String × Element → String × Element) (hg : KeepsCore g)
    (hh : KeepsCore h) : KeepsCore (g ∘ h) := by
  intro x
  obtain ⟨a1, a2, a3, a4⟩ := hg (h x)
  obtain ⟨b1, b2, b3, b4⟩ := hh x
  exact ⟨a1.trans b1, a2.trans b2, a3.trans b3, a4.trans b4⟩

theorem withBorderColor_path (e : Element) (c : String) (x : String × Element) :
    (withBorderColor e c x).2.path = x.2.path := (keepsCore_withBorderColor e c x).2.2.2

theorem withBorderColor_of_ne (e : Element) (c : String) (x : String × Element)
    (h : x.2.path ≠ e.path) : withBorderColor e c x = x := by
  unfold withBorderColor
  rw [if_neg]
  exact fun hc => h hc.2

theorem getElementById_mem (doc : Document) (id : String) (e : Element)
    (h : getElementById doc id = some e) : (id, e) ∈ doc := by
  induction doc with
  | nil => exact absurd h (by simp [getElementById])
  | cons p rest ih =>
    obtain ⟨i, x⟩ := p
    by_cases hi : i = id
    · subst hi
      have : x = e := by simpa [getElementById] using h
      rw [this]
      exact List.mem_cons_self _ _
    · have : getElementById rest id = some e := by simpa [getElementById, hi] using h
      exact List.mem_cons_of_mem _ (ih this)

theorem getElementById_map (g : String × Element → String × Element) (hg : KeepsCore g)
    (doc : Document) (id : String) :
    getElementById (doc.map g) id = (getElementById doc id).map (fun e => (g (id, e)).2) := by
  induction doc with
  | nil => rfl
  | cons p rest ih =>
    obtain ⟨i, x⟩ := p
    have h1 : (g (i, x)).1 = i := (hg (i, x)).1
    have hsplit : g (i, x) = ((g (i, x)).1, (g (i, x)).2) := rfl
    rw [List.map_cons, hsplit, h1]
    by_cases hi : i = id
    · subst hi
      simp [getElementById]
    · simp [getElementById, hi, ih]

theorem getElementById_filter (q : String × Element → Bool) (doc : Document) (id : String)
    (e : Element) (h : getElementById doc id = some e) (hq : q (id, e) = true) :
    getElementById (doc.filter q) id = some e := by
  induction doc with
  | nil => exact absurd h (by simp [getElementById])
  | cons p rest ih =>
    obtain ⟨i, x⟩ := p
    by_cases hi : i = id
    · subst hi
      have hx : x = e := by simpa [getElementById] using h
      subst hx
      simp [List.filter, hq, getElementById]
    · have hrest : getElementById rest id = some e := by simpa [getElementById, hi] using h
      by_cases hqx : q (i, x) = true
      · simp [List.filter, hqx, getElementById, hi, ih hrest]
      · simp [List.filter, hqx, ih hrest]

theorem getElementById_insert (A B : Document) (m : String × Element) (id : String)
    (h : m.1 ≠ id) : getElementById (A ++ m :: B) id = getElementById (A ++ B) id := by
  induction A with
  | nil =>
    obtain ⟨i, x⟩ := m
    simp only [List.nil_append, getElementById]
    rw [if_neg h]
  | cons p rest ih =>
    obtain ⟨i, x⟩ := p
    simp only [List.cons_append, getElementById, List.append_eq, ih]

/-- Where `insertAfterSubtree` puts the new entry: somewhere in the page, the
rest being left as it is. -/
theorem insertAfterSubtree_eq (p : List ℕ) (new : String × Element) (doc : Document) :
    ∃ A B, doc = A ++ B ∧ insertAfterSubtree p new doc = A ++ new :: B := by
  induction doc with
  | nil => exact ⟨[], [], rfl, rfl⟩
  | cons x rest ih =>
    unfold insertAfterSubtree
    split
    · obtain ⟨A, B, h1, h2⟩ := ih
      exact ⟨x :: A, B, by rw [h1]; rfl, by rw [h2]; rfl⟩
    · exact ⟨[], x :: rest, rfl, rfl⟩

theorem le_foldr_max (l : List ℕ) (a : ℕ) (h : a ∈ l) : a ≤ l.foldr max 0 := by
  induction l with
  | nil => exact absurd h (List.not_mem_nil _)
  | cons b rest ih =>
    rw [List.foldr_cons]
    rcases List.mem_cons.mp h with rfl | h
    · exact le_max_left _ _
    · exact le_trans (ih h) (le_max_right _ _)

/-- No entry of the page is at or below the place given to a new child. -/
theorem fresh_not_prefix (doc : Document) (p : List ℕ) (y : String × Element) (hy : y ∈ doc) :
    ¬ (p ++ [freshChildLabel doc p]) <+: y.2.path := by
  intro hpre
  obtain ⟨t, ht⟩ := hpre
  have hpp : p.isPrefixOf y.2.path = true := by
    rw [List.isPrefixOf_iff_prefix]
    exact ⟨freshChildLabel doc p :: t, by rw [← ht]; simp⟩
  have hlabel : childLabel p y = some (freshChildLabel doc p) := by
    unfold childLabel
    rw [if_pos hpp, ← ht]
    simp
  have hmem : freshChildLabel doc p ∈ doc.filterMap (childLabel p) :=
    List.mem_filterMap.mpr ⟨y, hy, hlabel⟩
  have := le_foldr_max _ _ hmem
  unfold freshChildLabel at this
  omega

theorem matchesFieldError_congr (p : List ℕ) (x y : String × Element)
    (hp : x.2.path = y.2.path) (hc : x.2.classList = y.2.classList) :
    matchesFieldError p x = matchesFieldError p y := by
  unfold matchesFieldError isDescendantOf
  rw [hp, hc]

theorem matchesFieldError_comp (p : List ℕ) (g : String × Element → String × Element)
    (hg : KeepsCore g) : matchesFieldError p ∘ g = matchesFieldError p := by
  funext x
  exact matchesFieldError_congr p _ _ (hg x).2.2.2 (hg x).2.2.1

theorem matchesFieldError_iff (p : List ℕ) (x : String × Element) :
    matchesFieldError p x = true ↔
      p <+: x.2.path ∧ x.2.path ≠ p ∧ x.2.classList.contains "field-error" = true := by
  unfold matchesFieldError isDescendantOf
  simp [and_assoc]

theorem countFieldErrors_map (g : String × Element → String × Element) (hg : KeepsCore g)
    (doc : Document) (p : List ℕ) :
    countFieldErrors (doc.map g) p = countFieldErrors doc p := by
  unfold countFieldErrors
  rw [List.countP_map, matchesFieldError_comp p g hg]

theorem countP_filter_lt {α : Type} (p q : α → Bool) (l : List α) (x : α) (hx : x ∈ l)
    (hp : p x = true) (hq : q x = false) : (l.filter q).countP p < l.countP p := by
  induction l with
  | nil => exact absurd hx (List.not_mem_nil _)
  | cons a rest ih =>
    have hle : (rest.filter q).countP p ≤ rest.countP p := by
      rw [List.countP_filter]
      exact List.countP_mono_left (fun y _ hy => by
        simp only [Bool.and_eq_true] at hy
        exact hy.1)
    rcases List.mem_cons.mp hx with rfl | hx
    · simp only [List.filter, hq, List.countP_cons, hp, if_true]
      omega
    · have := ih hx
      by_cases hqa : q a = true
      · simp only [List.filter, hqa, List.countP_cons]
        omega
      · simp only [Bool.not_eq_true] at hqa
        simp only [List.filter, hqa, List.countP_cons]
        omega

theorem countP_filter_eq {α : Type} (p q : α → Bool) (l : List α)
    (h : ∀ x ∈ l, p x = true → q x = true) : (l.filter q).countP p = l.countP p := by
  rw [List.countP_filter]
  apply List.countP_congr
  intro x hx
  simp only [Bool.and_eq_true]
  exact ⟨fun hh => hh.1, fun hh => ⟨hh, h x hx hh⟩⟩

/-- What `clearFieldError` does for an element that has a parent element: the
border colour is reset, and the first `.field-error` element below the parent,
if there is one, leaves the page with what it contains. -/
theorem clearFieldError_spec (doc : Document) (id : String) (e : Element)
    (hmem : (id, e) ∈ doc) (hlen : 2 ≤ e.path.length) :
    ∃ keep : String × Element → Bool,
      clearFieldError doc (some e) = .ok ((doc.filter keep).map (withBorderColor e "")) ∧
      (∀ x, keep x = false → ∃ X ∈ doc, X.2.classList.contains "field-error" = true ∧
          e.path.dropLast <+: X.2.path ∧ X.2.path ≠ e.path.dropLast ∧ X.2.path <+: x.2.path) ∧
      (∀ x y : String × Element, x.2.path = y.2.path → keep x = keep y) ∧
      (countFieldErrors doc e.path.dropLast ≤ 1 →
        countFieldErrors (doc.filter keep) e.path.dropLast = 0) := by
  have hne : e.path ≠ [] := by
    intro h
    rw [h] at hlen
    simp at hlen
  have hconn : isConnected (setBorderColor doc e "") e = true := by
    unfold isConnected setBorderColor
    simp only [Bool.and_eq_true, decide_eq_true_eq, List.any_eq_true, List.mem_map]
    exact ⟨hne, withBorderColor e "" (id, e), ⟨(id, e), hmem, rfl⟩, withBorderColor_path _ _ _⟩
  have hquery : querySelectorFieldError (setBorderColor doc e "") e.path.dropLast =
      ((doc.find? (matchesFieldError e.path.dropLast)).map (withBorderColor e "")).map
        Prod.snd := by
    unfold querySelectorFieldError setBorderColor
    rw [List.find?_map, matchesFieldError_comp _ _ (keepsCore_withBorderColor e "")]
  cases hfind : doc.find? (matchesFieldError e.path.dropLast) with
  | none =>
    refine ⟨fun _ => true, ?_, ?_, fun _ _ _ => rfl, ?_⟩
    · simp only [clearFieldError, parentNode, hconn, if_true, hquery, hfind, Option.map_none',
        List.filter_true]
      rfl
    · intro x hx
      exact absurd hx (by simp)
    · intro _
      rw [List.filter_true]
      unfold countFieldErrors
      rw [List.countP_eq_zero]
      intro a ha
      exact (List.find?_eq_none.mp hfind) a ha
  | some X =>
    have hXmem : X ∈ doc := List.mem_of_find?_eq_some hfind
    have hXmatch : matchesFieldError e.path.dropLast X = true := List.find?_some hfind
    obtain ⟨hX1, hX2, hX3⟩ := (matchesFieldError_iff _ _).mp hXmatch
    refine ⟨fun x => !(X.2.path.isPrefixOf x.2.path), ?_, ?_, ?_, ?_⟩
    · simp only [clearFieldError, parentNode, hconn, if_true, hquery, hfind, Option.map_some',
        removeNode, withBorderColor_path]
      unfold setBorderColor
      rw [List.filter_map]
      congr 2
      apply List.filter_congr
      intro x _
      simp only [Function.comp, withBorderColor_path]
    · intro x hx
      have hpre : X.2.path <+: x.2.path := by
        rw [← List.isPrefixOf_iff_prefix]
        simpa using hx
      exact ⟨X, hXmem, hX3, hX1, hX2, hpre⟩
    · intro x y hxy
      simp only [hxy]
    · intro hcount
      have hlt := countP_filter_lt (matchesFieldError e.path.dropLast)
        (fun x => !(X.2.path.isPrefixOf x.2.path)) doc X hXmem hXmatch (by simp)
      unfold countFieldErrors at hcount ⊢
      omega

/-- What the page keeps of a field after entries have been removed and the
others changed without touching ids, values, classes and places: a field that
no `.field-error` element contains is still there. -/
theorem fieldReady_filter_map (doc : Document) (p : List ℕ)
    (keep : String × Element → Bool) (g : String × Element → String × Element)
    (hg : KeepsCore g)
    (hkeep : ∀ x, keep x = false → ∃ X ∈ doc, X.2.classList.contains "field-error" = true ∧
      p <+: X.2.path ∧ X.2.path ≠ p ∧ X.2.path <+: x.2.path)
    (id2 : String) (v2 : Option String) (path2 : List ℕ) (h : FieldReady doc id2 v2 path2) :
    FieldReady ((doc.filter keep).map g) id2 v2 path2 := by
  obtain ⟨e2, hget, hval, hpath, hlen, hclean⟩ := h
  have hk : keep (id2, e2) = true := by
    by_contra hc
    obtain ⟨X, hX, hXc, _, _, hXpre⟩ := hkeep (id2, e2) (by simpa using hc)
    exact hclean X hX hXc (by rw [← hpath]; exact hXpre)
  refine ⟨(g (id2, e2)).2, ?_, ?_, ?_, hlen, ?_⟩
  · rw [getElementById_map g hg, getElementById_filter keep doc id2 e2 hget hk]
    rfl
  · rw [(hg (id2, e2)).2.1]
    exact hval
  · rw [(hg (id2, e2)).2.2.2]
    exact hpath
  · intro x' hx' hcls
    obtain ⟨x, hx, rfl⟩ := List.mem_map.mp hx'
    have hxdoc : x ∈ doc := (List.mem_filter.mp hx).1
    rw [(hg x).2.2.1] at hcls
    rw [(hg x).2.2.2]
    exact hclean x hxdoc hcls

/-- Entries below a node that is not on one line with the node `p` are not
among those that leave the page. -/
theorem countFieldErrors_filter_other (doc : Document) (p q : List ℕ)
    (keep : String × Element → Bool)
    (hkeep : ∀ x, keep x = false → ∃ X ∈ doc, X.2.classList.contains "field-error" = true ∧
      p <+: X.2.path ∧ X.2.path ≠ p ∧ X.2.path <+: x.2.path)
    (h1 : ¬ p <+: q) (h2 : ¬ q <+: p) :
    countFieldErrors (doc.filter keep) q = countFieldErrors doc q := by
  unfold countFieldErrors
  apply countP_filter_eq
  intro x _ hm
  by_contra hc
  obtain ⟨X, _, _, hpX, _, hXx⟩ := hkeep x (by simpa using hc)
  have hqx : q <+: x.2.path := ((matchesFieldError_iff _ _).mp hm).1
  have hpx : p <+: x.2.path := hpX.trans hXx
  rcases List.prefix_or_prefix_of_prefix hpx hqx with h | h
  · exact h1 h
  · exact h2 h

/-- Outside the node `p` nothing changes when only entries at or below `p` are
removed or changed. -/
theorem filter_outside_filter_map (doc : Document) (p : List ℕ)
    (keep : String × Element → Bool) (g : String × Element → String × Element)
    (hg : KeepsCore g)
    (hkeep : ∀ x, keep x = false → ∃ X ∈ doc, X.2.classList.contains "field-error" = true ∧
      p <+: X.2.path ∧ X.2.path ≠ p ∧ X.2.path <+: x.2.path)
    (hid : ∀ x, ¬ p <+: x.2.path → g x = x) :
    ((doc.filter keep).map g).filter (fun x => !(p.isPrefixOf x.2.path)) =
      doc.filter (fun x => !(p.isPrefixOf x.2.path)) := by
  rw [List.filter_map, List.filter_filter]
  have h1 : doc.filter (fun a => ((fun x => !(p.isPrefixOf x.2.path)) ∘ g) a && keep a) =
      doc.filter (fun x => !(p.isPrefixOf x.2.path)) := by
    apply List.filter_congr
    intro x _
    simp only [Function.comp, (hg x).2.2.2]
    by_cases hpx : p.isPrefixOf x.2.path = true
    · simp [hpx]
    · have hk : keep x = true := by
        by_contra hc
        obtain ⟨X, _, _, hpX, _, hXx⟩ := hkeep x (by simpa using hc)
        exact hpx (List.isPrefixOf_iff_prefix.mpr (hpX.trans hXx))
      simp [hpx, hk]
  rw [h1]
  conv_rhs => rw [← List.map_id (doc.filter (fun x => !(p.isPrefixOf x.2.path)))]
  apply List.map_congr_left
  intro x hx
  have hpx : ¬ p <+: x.2.path := by
    have hb := (List.mem_filter.mp hx).2
    intro hpre
    have := List.isPrefixOf_iff_prefix.mpr hpre
    simp [this] at hb
  rw [hid x hpx]
  rfl

/-- The new marker: a `div` of class `field-error` with the message as text, at
the place of a new last child of the node `p`. -/
theorem appendChild_marker (doc : Document) (p : List ℕ) (hp : p ≠ []) (message : String) :
    ∃ A B k, doc = A ++ B ∧ (∀ y ∈ doc, ¬ (p ++ [k]) <+: y.2.path) ∧
      appendChild doc p "" (errorMarker message) =
        .ok (A ++ ("", { errorMarker message with path := p ++ [k] }) :: B) := by
  obtain ⟨A, B, h1, h2⟩ := insertAfterSubtree_eq p
    ("", { errorMarker message with path := p ++ [freshChildLabel doc p] }) doc
  refine ⟨A, B, freshChildLabel doc p, h1, fun y hy => fresh_not_prefix doc p y hy, ?_⟩
  unfold appendChild
  rw [if_neg hp, ← h2]

/-- A field that was ready before a marker is added is still ready. -/
theorem fieldReady_insert (A B : Document) (p : List ℕ) (k : ℕ) (message : String)
    (hfresh : ∀ y ∈ A ++ B, ¬ (p ++ [k]) <+: y.2.path)
    (id2 : String) (v2 : Option String) (path2 : List ℕ) (hid : id2 ≠ "")
    (h : FieldReady (A ++ B) id2 v2 path2) :
    FieldReady (A ++ ("", { errorMarker message with path := p ++ [k] }) :: B) id2 v2
      path2 := by
  obtain ⟨e2, hget, hval, hpath, hlen, hclean⟩ := h
  refine ⟨e2, ?_, hval, hpath, hlen, ?_⟩
  · rw [getElementById_insert _ _ _ _ (by exact fun hc => hid hc.symm)]
    exact hget
  · intro x hx hcls
    rcases List.mem_append.mp hx with hxA | hxB
    · exact hclean x (List.mem_append_left _ hxA) hcls
    · rcases List.mem_cons.mp hxB with rfl | hxB
      · have := hfresh (id2, e2) (getElementById_mem _ _ _ hget)
        rw [← hpath]
        exact this
      · exact hclean x (List.mem_append_right _ hxB) hcls

theorem countFieldErrors_insert (A B : Document) (m : String × Element) (q : List ℕ) :
    countFieldErrors (A ++ m :: B) q =
      countFieldErrors (A ++ B) q + (if matchesFieldError q m = true then 1 else 0) := by
  unfold countFieldErrors
  rw [List.countP_append, List.countP_cons, List.countP_append]
  omega

theorem matchesFieldError_marker (p q : List ℕ) (k : ℕ) (message : String) :
    matchesFieldError q ("", { errorMarker message with path := p ++ [k] }) =
      decide (q <+: p) := by
  have h : (matchesFieldError q ("", { errorMarker message with path := p ++ [k] }) = true) ↔
      q <+: p := by
    rw [matchesFieldError_iff]
    simp only [List.prefix_concat_iff]
    constructor
    · rintro ⟨h1 | h1, h2, _⟩
      · exact absurd h1.symm h2
      · exact h1
    · intro h1
      refine ⟨Or.inr h1, ?_, rfl⟩
      intro hc
      have := h1.length_le
      rw [← hc] at this
      simp at this
  by_cases hq : q <+: p
  · rw [h.mpr hq]; simp [hq]
  · have : matchesFieldError q ("", { errorMarker message with path := p ++ [k] }) =
        false := by
      rw [← Bool.not_eq_true]
      exact fun hc => hq (h.mp hc)
    rw [this]; simp [hq]

theorem filter_outside_insert (A B : Document) (p : List ℕ) (k : ℕ) (message : String) :
    (A ++ ("", { errorMarker message with path := p ++ [k] }) :: B).filter
        (fun x => !(p.isPrefixOf x.2.path)) =
      (A ++ B).filter (fun x => !(p.isPrefixOf x.2.path)) := by
  have hpre : p.isPrefixOf (p ++ [k]) = true :=
    List.isPrefixOf_iff_prefix.mpr (List.prefix_append _ _)
  rw [List.filter_append, List.filter_append, List.filter_cons]
  simp [hpre]

/-- One turn of `validateExtrusionForm` on a field that is ready: the turn does
not raise, the result stays true only if the value is accepted, every field that
was ready still is, the parent of the field has one marker below it if the
value is rejected and none if it is accepted (when it had at most one), the
markers below a node that is not on one line with that parent are as many as
before, and nothing changes outside that parent. -/
theorem validateField_step (b : Bool) (doc : Document) (id : String) (v : Option String)
    (path : List ℕ) (h : FieldReady doc id v path) :
    ∃ doc1, validateField (b, doc) id = .ok (b && !isRejectedValue v, doc1) ∧
      (∀ id2 v2 path2, id2 ≠ "" → FieldReady doc id2 v2 path2 →
        FieldReady doc1 id2 v2 path2) ∧
      (countFieldErrors doc path.dropLast ≤ 1 →
        countFieldErrors doc1 path.dropLast = if isRejectedValue v = true then 1 else 0) ∧
      (∀ q, ¬ path.dropLast <+: q → ¬ q <+: path.dropLast →
        countFieldErrors doc1 q = countFieldErrors doc q) ∧
      doc1.filter (fun x => !(path.dropLast.isPrefixOf x.2.path)) =
        doc.filter (fun x => !(path.dropLast.isPrefixOf x.2.path)) := by
  obtain ⟨e, hget, hval, hpath, hlen, hclean⟩ := h
  subst hval
  subst hpath
  have hmem : (id, e) ∈ doc := getElementById_mem doc id e hget
  obtain ⟨keep, hclear, hkeep, hkeepPath, hcount0⟩ := clearFieldError_spec doc id e hmem hlen
  have hne : e.path ≠ [] := by
    intro hc
    rw [hc] at hlen
    simp at hlen
  have hPne : e.path.dropLast ≠ [] := by
    intro hc
    have := congrArg List.length hc
    simp at this
    omega
  have hPpre : e.path.dropLast <+: e.path := List.dropLast_prefix _
  have hkeepE : keep (id, e) = true := by
    by_contra hc
    obtain ⟨X, hX, hXc, _, _, hXpre⟩ := hkeep (id, e) (by simpa using hc)
    exact hclean X hX hXc hXpre
  have hidOut : ∀ (c : String) (x : String × Element), ¬ e.path.dropLast <+: x.2.path →
      withBorderColor e c x = x := by
    intro c x hx
    apply withBorderColor_of_ne
    intro hc
    rw [hc] at hx
    exact hx hPpre
  by_cases hrej : isRejectedValue e.value = true
  · -- the value is rejected: `showFieldError`
    have hg : KeepsCore (withBorderColor e "#e74c3c" ∘ withBorderColor e "") :=
      keepsCore_comp _ _ (keepsCore_withBorderColor _ _) (keepsCore_withBorderColor _ _)
    have hconn : isConnected (setBorderColor ((doc.filter keep).map (withBorderColor e "")) e
        "#e74c3c") e = true := by
      unfold isConnected setBorderColor
      simp only [Bool.and_eq_true, decide_eq_true_eq, List.any_eq_true, List.mem_map]
      refine ⟨hne, _, ⟨_, ⟨(id, e), List.mem_filter.mpr ⟨hmem, hkeepE⟩, rfl⟩, rfl⟩, ?_⟩
      rw [withBorderColor_path, withBorderColor_path]
    have hdoc2 : setBorderColor ((doc.filter keep).map (withBorderColor e "")) e "#e74c3c" =
        (doc.filter keep).map (withBorderColor e "#e74c3c" ∘ withBorderColor e "") := by
      unfold setBorderColor
      rw [List.map_map]
    obtain ⟨A, B, k, hAB, hfresh, happ⟩ := appendChild_marker
      ((doc.filter keep).map (withBorderColor e "#e74c3c" ∘ withBorderColor e ""))
      e.path.dropLast hPne "Ce champ est requis et doit être positif"
    rw [hAB] at hfresh
    rw [hdoc2] at hconn
    refine ⟨A ++ ("", { errorMarker "Ce champ est requis et doit être positif" with
      path := e.path.dropLast ++ [k] }) :: B, ?_, ?_, ?_, ?_, ?_⟩
    · simp only [validateField, hget, hrej, if_true, showFieldError, hclear, parentNode, hconn,
        hdoc2, happ, Bool.not_true, Bool.and_false]
    · intro id2 v2 path2 hid2 hready
      apply fieldReady_insert A B _ k _ hfresh id2 v2 path2 hid2
      rw [← hAB]
      exact fieldReady_filter_map doc e.path.dropLast keep _ hg hkeep id2 v2 path2 hready
    · intro hc
      rw [countFieldErrors_insert, ← hAB, countFieldErrors_map _ hg, hcount0 hc,
        matchesFieldError_marker]
      simp [hrej]
    · intro q h1 h2
      rw [countFieldErrors_insert, ← hAB, countFieldErrors_map _ hg,
        countFieldErrors_filter_other doc e.path.dropLast q keep hkeep h1 h2,
        matchesFieldError_marker]
      simp [h2]
    · rw [filter_outside_insert, ← hAB]
      exact filter_outside_filter_map doc e.path.dropLast keep _ hg hkeep (fun x hx => by
        simp only [Function.comp]
        rw [hidOut "" x hx, hidOut "#e74c3c" x hx])
  · -- the value is accepted: `clearFieldError`
    have hrej' : isRejectedValue e.value = false := by simpa using hrej
    have hg : KeepsCore (withBorderColor e "") := keepsCore_withBorderColor _ _
    refine ⟨(doc.filter keep).map (withBorderColor e ""), ?_, ?_, ?_, ?_, ?_⟩
    · simp only [validateField, hget, hrej', hclear, Bool.not_false, Bool.and_true]
      rfl
    · intro id2 v2 path2 _ hready
      exact fieldReady_filter_map doc e.path.dropLast keep _ hg hkeep id2 v2 path2 hready
    · intro hc
      rw [countFieldErrors_map _ hg, hcount0 hc]
      simp [hrej']
    · intro q h1 h2
      rw [countFieldErrors_map _ hg,
        countFieldErrors_filter_other doc e.path.dropLast q keep hkeep h1 h2]
    · exact filter_outside_filter_map doc e.path.dropLast keep _ hg hkeep (hidOut "")

/-! ## C10: the result of `validateExtrusionForm` -/

theorem isRejectedValue_eq_false (v : Option String) :
    isRejectedValue v = false ↔
      ∃ s, v = some s ∧ s ≠ "" ∧ (parseFloat (some s)).lt (.fin 0) = false := by
  cases v with
  | none => simp [isRejectedValue, isFalsyString]
  | some s => simp [isRejectedValue, isFalsyString]

theorem fieldValue_of_fieldReady (doc : Document) (id : String) (v : Option String)
    (path : List ℕ) (h : FieldReady doc id v path) : fieldValue doc id = v := by
  obtain ⟨e, hget, hval, _⟩ := h
  rw [fieldValue, hget]
  exact hval

theorem filter_eq_of_imp {α : Type} (d d1 : List α) (q o : α → Bool)
    (h : d1.filter q = d.filter q) (himp : ∀ x, o x = true → q x = true) :
    d1.filter o = d.filter o := by
  have e : ∀ l : List α, l.filter o = (l.filter q).filter o := by
    intro l
    rw [List.filter_filter]
    apply List.filter_congr
    intro x _
    by_cases ho : o x = true
    · simp [ho, himp x ho]
    · simp [ho]
  rw [e d1, e d, h]

/-- The three turns of `validateExtrusionForm` on three fields that are ready. -/
theorem validateExtrusionForm_steps (doc : Document) (v1 v2 v3 : Option String)
    (p1 p2 p3 : List ℕ)
    (h1 : FieldReady doc "prod_finis" v1 p1) (h2 : FieldReady doc "prod_semi_finis" v2 p2)
    (h3 : FieldReady doc "matiere_premiere" v3 p3) :
    ∃ doc1, validateExtrusionForm doc =
        .ok (!isRejectedValue v1 && !isRejectedValue v2 && !isRejectedValue v3, doc1) ∧
      FieldReady doc1 "prod_finis" v1 p1 ∧ FieldReady doc1 "prod_semi_finis" v2 p2 ∧
      FieldReady doc1 "matiere_premiere" v3 p3 ∧
      ((¬ p1.dropLast <+: p2.dropLast ∧ ¬ p2.dropLast <+: p1.dropLast) →
        (¬ p1.dropLast <+: p3.dropLast ∧ ¬ p3.dropLast <+: p1.dropLast) →
        (¬ p2.dropLast <+: p3.dropLast ∧ ¬ p3.dropLast <+: p2.dropLast) →
        countFieldErrors doc p1.dropLast ≤ 1 → countFieldErrors doc p2.dropLast ≤ 1 →
        countFieldErrors doc p3.dropLast ≤ 1 →
        countFieldErrors doc1 p1.dropLast = (if isRejectedValue v1 = true then 1 else 0) ∧
        countFieldErrors doc1 p2.dropLast = (if isRejectedValue v2 = true then 1 else 0) ∧
        countFieldErrors doc1 p3.dropLast = (if isRejectedValue v3 = true then 1 else 0)) ∧
      doc1.filter (fun x => !(p1.dropLast.isPrefixOf x.2.path) &&
          !(p2.dropLast.isPrefixOf x.2.path) && !(p3.dropLast.isPrefixOf x.2.path)) =
        doc.filter (fun x => !(p1.dropLast.isPrefixOf x.2.path) &&
          !(p2.dropLast.isPrefixOf x.2.path) && !(p3.dropLast.isPrefixOf x.2.path)) := by
  obtain ⟨d1, hd1, k1, c1, o1, f1⟩ := validateField_step true doc "prod_finis" v1 p1 h1
  have r11 := k1 _ _ _ (by decide) h1
  have r12 := k1 _ _ _ (by decide) h2
  have r13 := k1 _ _ _ (by decide) h3
  obtain ⟨d2, hd2, k2, c2, o2, f2⟩ := validateField_step (true && !isRejectedValue v1) d1
    "prod_semi_finis" v2 p2 r12
  have r21 := k2 _ _ _ (by decide) r11
  have r22 := k2 _ _ _ (by decide) r12
  have r23 := k2 _ _ _ (by decide) r13
  obtain ⟨d3, hd3, k3, c3, o3, f3⟩ := validateField_step
    (true && !isRejectedValue v1 && !isRejectedValue v2) d2 "matiere_premiere" v3 p3 r23
  refine ⟨d3, ?_, k3 _ _ _ (by decide) r21, k3 _ _ _ (by decide) r22,
    k3 _ _ _ (by decide) r23, ?_, ?_⟩
  · simp only [Bool.true_and] at hd1 hd2 hd3
    simp only [validateExtrusionForm, requiredFields, validateFields, hd1, hd2, hd3]
  · intro s12 s13 s23 m1 m2 m3
    refine ⟨?_, ?_, ?_⟩
    · rw [o3 _ s13.2 s13.1, o2 _ s12.2 s12.1]
      exact c1 m1
    · rw [o3 _ s23.2 s23.1]
      apply c2
      rw [o1 _ s12.1 s12.2]
      exact m2
    · apply c3
      rw [o2 _ s23.1 s23.2, o1 _ s13.1 s13.2]
      exact m3
  · have g3 := filter_eq_of_imp d2 d3 _ (fun x => !(p1.dropLast.isPrefixOf x.2.path) &&
        !(p2.dropLast.isPrefixOf x.2.path) && !(p3.dropLast.isPrefixOf x.2.path)) f3
      (fun x hx => by
        simp only [Bool.and_eq_true] at hx
        exact hx.2)
    have g2 := filter_eq_of_imp d1 d2 _ (fun x => !(p1.dropLast.isPrefixOf x.2.path) &&
        !(p2.dropLast.isPrefixOf x.2.path) && !(p3.dropLast.isPrefixOf x.2.path)) f2
      (fun x hx => by
        simp only [Bool.and_eq_true] at hx
        exact hx.1.2)
    have g1 := filter_eq_of_imp doc d1 _ (fun x => !(p1.dropLast.isPrefixOf x.2.path) &&
        !(p2.dropLast.isPrefixOf x.2.path) && !(p3.dropLast.isPrefixOf x.2.path)) f1
      (fun x hx => by
        simp only [Bool.and_eq_true] at hx
        exact hx.1.1)
    rw [g3, g2, g1]

/-- C10 (as amended): when each of the three required elements is in the page
inside a parent element, and no element of class `field-error` is one of them
or contains one of them, `validateExtrusionForm` does not raise; it returns
true if and only if each of `prod_finis`, `prod_semi_finis` and
`matiere_premiere` has a non-empty value that `parseFloat` does not read as a
negative number (a text that is not a number is accepted); it returns false
when one of them has no value, is blank or is read as a negative number. -/
theorem C10_validateExtrusionForm_result (doc : Document) (v1 v2 v3 : Option String)
    (p1 p2 p3 : List ℕ)
    (h1 : FieldReady doc "prod_finis" v1 p1) (h2 : FieldReady doc "prod_semi_finis" v2 p2)
    (h3 : FieldReady doc "matiere_premiere" v3 p3) :
    ∃ (b : Bool) (doc1 : Document), validateExtrusionForm doc = .ok (b, doc1) ∧
      (b = true ↔ ∀ id ∈ requiredFields, ∃ s, fieldValue doc id = some s ∧ s ≠ "" ∧
        (parseFloat (some s)).lt (.fin 0) = false) ∧
      ((∃ id ∈ requiredFields, fieldValue doc id = none ∨ fieldValue doc id = some "" ∨
          (parseFloat (fieldValue doc id)).lt (.fin 0) = true ∨
          ∃ q : ℚ, q < 0 ∧ parseFloat (fieldValue doc id) = .fin q) → b = false) := by
  obtain ⟨d3, hd3, _⟩ := validateExtrusionForm_steps doc v1 v2 v3 p1 p2 p3 h1 h2 h3
  have e1 := fieldValue_of_fieldReady doc _ v1 p1 h1
  have e2 := fieldValue_of_fieldReady doc _ v2 p2 h2
  have e3 := fieldValue_of_fieldReady doc _ v3 p3 h3
  have hiff : ((!isRejectedValue v1 && !isRejectedValue v2 && !isRejectedValue v3) = true ↔
      ∀ id ∈ requiredFields, ∃ s, fieldValue doc id = some s ∧ s ≠ "" ∧
        (parseFloat (some s)).lt (.fin 0) = false) := by
    simp only [requiredFields, List.mem_cons, List.mem_singleton, forall_eq_or_imp, forall_eq,
      e1, e2, e3, ← isRejectedValue_eq_false, List.not_mem_nil, false_imp_iff, implies_true,
      and_true]
    simp [and_assoc]
  refine ⟨_, d3, hd3, hiff, ?_⟩
  rintro ⟨id, hid, hbad⟩
  rw [Bool.eq_false_iff]
  intro hb
  obtain ⟨s, hs, hne, hlt⟩ := hiff.mp hb id hid
  rcases hbad with hnone | hblank | hneg | ⟨q, hq, hparse⟩
  · rw [hs] at hnone
    exact absurd hnone (by simp)
  · rw [hs] at hblank
    exact hne (by simpa using hblank)
  · rw [hs, hlt] at hneg
    exact absurd hneg (by simp)
  · rw [hs] at hparse
    rw [hparse] at hlt
    simp [JSNum.lt, JSNum.gt, hq] at hlt

/-- C10 (witness): the three fields filled with 120.0, 30.0 and 200.0, each in a
`div` of the form, are accepted. -/
theorem C10_validateExtrusionForm_result_witness :
    ∃ doc1, validateExtrusionForm (extrusionForm "120.0" "30.0" "200.0") = .ok (true, doc1) := by
  obtain ⟨b, doc1, h, hiff, _⟩ := C10_validateExtrusionForm_result
    (extrusionForm "120.0" "30.0" "200.0") (some "120.0") (some "30.0") (some "200.0")
    [0, 0, 0, 0] [0, 0, 1, 0] [0, 0, 2, 0]
    ⟨_, rfl, rfl, rfl, by decide, by decide⟩ ⟨_, rfl, rfl, rfl, by decide, by decide⟩
    ⟨_, rfl, rfl, rfl, by decide, by decide⟩
  have hb : b = true := hiff.mpr (by decide!)
  exact ⟨doc1, hb ▸ h⟩

/-- C10 (counterexample): a form whose required fields hold `"abc"`, which is
not a number, and `"-1e-400"`, which is read as the negative zero, is accepted;
a page where a required element is missing makes `validateExtrusionForm` raise
instead of returning false; and so does a page where a blank required element
carries the class `field-error` itself (it is removed before the marker is
appended to its parent). -/
theorem C10_non_numeric_accepted_counterexample :
    parseFloat (some "abc") = .nan ∧ parseFloat (some "-1e-400") = .negZero ∧
      (validateExtrusionForm (extrusionForm "abc" "-1e-400" "2")).map Prod.fst = .ok true ∧
      (validateExtrusionForm [("prod_finis", inputAt [0, 0, 0] "1")]).map Prod.fst =
        .error .typeError ∧
      (validateExtrusionForm
        [("prod_finis", { value := some "", classList := ["field-error"], path := [0, 0, 0] }),
         ("prod_semi_finis", inputAt [0, 0, 1] "1"),
         ("matiere_premiere", inputAt [0, 0, 2] "1")]).map Prod.fst = .error .typeError := by
  decide!

/-! ## C11: the error markers that validation leaves -/

/-- C11 (as amended): when each required element is in the page inside a parent
element and no `field-error` element is one of them or contains one of them,
`validateExtrusionForm` does not raise, and when one of the required fields is
blank the submit handler neither asks for confirmation nor calls
`form.submit()`, whatever the arrangement of the fields; when moreover the
parents of the three fields are three elements none of which contains another,
each with at most one `field-error` element below it beforehand, after
validation there is exactly one marker below the parent of each offending
field and none below the parent of each accepted one; and the page outside the
three parents is as it was. -/
theorem C11_markers_when_fields_have_own_parents (b : Browser) (operatorConfirms : Bool)
    (v1 v2 v3 : Option String) (p1 p2 p3 : List ℕ)
    (h1 : FieldReady b.doc "prod_finis" v1 p1)
    (h2 : FieldReady b.doc "prod_semi_finis" v2 p2)
    (h3 : FieldReady b.doc "matiere_premiere" v3 p3) :
    ∃ (isValid : Bool) (doc1 : Document), validateExtrusionForm b.doc = .ok (isValid, doc1) ∧
      ((v1 = some "" ∨ v2 = some "" ∨ v3 = some "") →
        isValid = false ∧
        ∃ b1, extrusionSubmitHandler b operatorConfirms = .ok b1 ∧ b1.doc = doc1 ∧
          b1.confirms = b.confirms ∧ b1.nativeSubmits = b.nativeSubmits ∧
          b1.requests = b.requests) ∧
      ((¬ p1.dropLast <+: p2.dropLast ∧ ¬ p2.dropLast <+: p1.dropLast) →
        (¬ p1.dropLast <+: p3.dropLast ∧ ¬ p3.dropLast <+: p1.dropLast) →
        (¬ p2.dropLast <+: p3.dropLast ∧ ¬ p3.dropLast <+: p2.dropLast) →
        countFieldErrors b.doc p1.dropLast ≤ 1 → countFieldErrors b.doc p2.dropLast ≤ 1 →
        countFieldErrors b.doc p3.dropLast ≤ 1 →
        countFieldErrors doc1 p1.dropLast = (if isRejectedValue v1 = true then 1 else 0) ∧
        countFieldErrors doc1 p2.dropLast = (if isRejectedValue v2 = true then 1 else 0) ∧
        countFieldErrors doc1 p3.dropLast = (if isRejectedValue v3 = true then 1 else 0)) ∧
      doc1.filter (fun x => !(p1.dropLast.isPrefixOf x.2.path) &&
          !(p2.dropLast.isPrefixOf x.2.path) && !(p3.dropLast.isPrefixOf x.2.path)) =
        b.doc.filter (fun x => !(p1.dropLast.isPrefixOf x.2.path) &&
          !(p2.dropLast.isPrefixOf x.2.path) && !(p3.dropLast.isPrefixOf x.2.path)) ∧
      fieldValue doc1 "prod_finis" = v1 ∧ fieldValue doc1 "prod_semi_finis" = v2 ∧
      fieldValue doc1 "matiere_premiere" = v3 := by
  obtain ⟨d3, hd3, r1, r2, r3, hcount, hout⟩ :=
    validateExtrusionForm_steps b.doc v1 v2 v3 p1 p2 p3 h1 h2 h3
  refine ⟨_, d3, hd3, ?_, hcount, hout, fieldValue_of_fieldReady _ _ _ _ r1,
    fieldValue_of_fieldReady _ _ _ _ r2, fieldValue_of_fieldReady _ _ _ _ r3⟩
  intro hblank
  have hfalse : (!isRejectedValue v1 && !isRejectedValue v2 && !isRejectedValue v3) = false := by
    rcases hblank with h | h | h <;> simp [h, isRejectedValue, isFalsyString]
  refine ⟨hfalse, { b with doc := d3 }, ?_, rfl, rfl, rfl, rfl⟩
  simp only [extrusionSubmitHandler, hd3, hfalse]
  rfl

/-- C11 (witness): with `prod_finis` blank, `prod_semi_finis` at 30.0 and
`matiere_premiere` at -1, each in a `div` of its own, the handler neither asks
nor submits, and the page is left with one marker in the first `div`, none in
the second and one in the third. -/
theorem C11_markers_when_fields_have_own_parents_witness :
    ∃ b1, extrusionSubmitHandler { doc := extrusionForm "" "30.0" "-1" } true = .ok b1 ∧
      b1.confirms = [] ∧ b1.nativeSubmits = 0 ∧
      countFieldErrors b1.doc [0, 0, 0] = 1 ∧ countFieldErrors b1.doc [0, 0, 1] = 0 ∧
      countFieldErrors b1.doc [0, 0, 2] = 1 := by
  obtain ⟨isValid, doc1, _, hblank, hmarks, _⟩ := C11_markers_when_fields_have_own_parents
    { doc := extrusionForm "" "30.0" "-1" } true (some "") (some "30.0") (some "-1")
    [0, 0, 0, 0] [0, 0, 1, 0] [0, 0, 2, 0]
    ⟨_, rfl, rfl, rfl, by decide, by decide⟩ ⟨_, rfl, rfl, rfl, by decide, by decide⟩
    ⟨_, rfl, rfl, rfl, by decide, by decide⟩
  obtain ⟨_, b1, hb1, hdoc, hconf, hsub, _⟩ := hblank (Or.inl rfl)
  obtain ⟨m1, m2, m3⟩ := hmarks (by decide) (by decide) (by decide) (by decide) (by decide)
    (by decide)
  have r1 : isRejectedValue (some "") = true := by decide!
  have r2 : isRejectedValue (some "30.0") = false := by decide!
  have r3 : isRejectedValue (some "-1") = true := by decide!
  simp only [r1, r2, r3, if_true] at m1 m2 m3
  exact ⟨b1, hb1, hconf, hsub, by rw [hdoc]; exact m1, by rw [hdoc]; simpa using m2,
    by rw [hdoc]; exact m3⟩

/-- C11 (counterexample): when the three required fields are directly in one
parent, a blank `prod_finis` followed by two accepted fields leaves no marker at
all, and a blank `prod_finis` and a blank `matiere_premiere` around an accepted
field leave a single marker; when `prod_finis` and `prod_semi_finis` are each in
a `div` of the form and `matiere_premiere` is directly in the form, the marker
of a blank `prod_finis` is removed when `matiere_premiere` is validated. -/
theorem C11_shared_parent_counterexample :
    isRejectedValue (some "") = true ∧
      (validateExtrusionForm (extrusionFormSharedParent "" "30" "200")).map
        (fun r => (r.1, countFieldErrors r.2 [0, 0], countFieldErrors r.2 [])) =
          .ok (false, 0, 0) ∧
      (validateExtrusionForm (extrusionFormSharedParent "" "30" "")).map
        (fun r => (r.1, countFieldErrors r.2 [0, 0], countFieldErrors r.2 [])) =
          .ok (false, 1, 1) ∧
      (validateExtrusionForm (extrusionFormNested "" "30" "200")).map
        (fun r => (r.1, countFieldErrors r.2 [0, 0, 0], countFieldErrors r.2 [])) =
          .ok (false, 0, 0) := by
  decide!

/-! ## C12: the submit handler of the section forms -/

/-- C12 (the code at the failing input): the submit handler of the section forms
runs no check of the fields.  With the printing form holding a blank
`imp_bobines_finies` and a negative `imp_dechets`, an operator who confirms
reaches `submitSectionForm` and the POST to `/ajax/saisie/imprimerie/` is
issued; and for each of the three section forms, whatever the page holds, a
confirmed submit issues the POST of the section. -/
theorem C12_section_submit_runs_no_validation :
    sectionSubmitHandler { doc := imprimeriePage "" "30" "-5" } imprimerieForm true =
        .ok { doc := imprimeriePage "" "30" "-5",
              confirms := ["Confirmer la validation de la production imprimerie ?"],
              requests := [{ url := "/ajax/saisie/imprimerie/",
                             body := [("imp_bobines_finies", some ""),
                               ("imp_bobines_semi_finies", some "30"), ("imp_dechets", some "-5")],
                             csrfToken := "" }] } ∧
      (∀ (doc : Document) (token : String), ∃ b1,
        sectionSubmitHandler { doc := doc, csrf := some token } imprimerieForm true = .ok b1 ∧
          b1.requests = [{ url := "/ajax/saisie/imprimerie/",
                           body := formData doc imprimerieForm, csrfToken := token }]) ∧
      (∀ (doc : Document) (token : String), ∃ b1,
        sectionSubmitHandler { doc := doc, csrf := some token } soudureForm true = .ok b1 ∧
          b1.requests = [{ url := "/ajax/saisie/soudure/",
                           body := formData doc soudureForm, csrfToken := token }]) ∧
      (∀ (doc : Document) (token : String), ∃ b1,
        sectionSubmitHandler { doc := doc, csrf := some token } recyclageForm true = .ok b1 ∧
          b1.requests = [{ url := "/ajax/saisie/recyclage/",
                           body := formData doc recyclageForm, csrfToken := token }]) := by
  have n1 : String.mk (removeFirst "-form".toList "imprimerie-form".toList) = "imprimerie" := by
    decide
  have n2 : String.mk (removeFirst "-form".toList "soudure-form".toList) = "soudure" := by
    decide
  have n3 : String.mk (removeFirst "-form".toList "recyclage-form".toList) = "recyclage" := by
    decide
  refine ⟨by decide!, ?_, ?_, ?_⟩
  · intro doc token
    refine ⟨{ doc := doc, csrf := some token,
               confirms := ["Confirmer la validation de la production imprimerie ?"],
               requests := [{ url := "/ajax/saisie/imprimerie/", body := formData doc imprimerieForm,
                              csrfToken := token }] }, ?_, rfl⟩
    simp only [sectionSubmitHandler, imprimerieForm, n1, if_true, submitSectionForm, getAjaxUrl]
    rfl
  · intro doc token
    refine ⟨{ doc := doc, csrf := some token,
               confirms := ["Confirmer la validation de la production soudure ?"],
               requests := [{ url := "/ajax/saisie/soudure/", body := formData doc soudureForm,
                              csrfToken := token }] }, ?_, rfl⟩
    simp only [sectionSubmitHandler, soudureForm, n2, if_true, submitSectionForm, getAjaxUrl]
    rfl
  · intro doc token
    refine ⟨{ doc := doc, csrf := some token,
               confirms := ["Confirmer la validation de la production recyclage ?"],
               requests := [{ url := "/ajax/saisie/recyclage/", body := formData doc recyclageForm,
                              csrfToken := token }] }, ?_, rfl⟩
    simp only [sectionSubmitHandler, recyclageForm, n3, if_true, submitSectionForm, getAjaxUrl]
    rfl

/-! ## C13: what a failed submission leaves -/

/-- When the request fails in transport, when the body is not JSON or is `null`,
or when its `success` flag is falsy, whatever the HTTP status, the promise chain
of `submitSectionForm` shows an error banner and leaves the page as it is. -/
theorem submitSectionFormSettled_failure (b : Browser) (form : Form) (sectionName : String)
    (outcome : FetchOutcome)
    (h : outcome = .networkError ∨ (∃ st, outcome = .response st .invalidJson) ∨
      (∃ st, outcome = .response st .null) ∨
      (∃ st msg, outcome = .response st (.value false msg))) :
    (submitSectionFormSettled b form sectionName outcome).doc = b.doc ∧
      ∃ msg, (submitSectionFormSettled b form sectionName outcome).alerts =
        b.alerts ++ [("error", msg)] := by
  rcases h with rfl | ⟨st, rfl⟩ | ⟨st, rfl⟩ | ⟨st, msg, rfl⟩
  · exact ⟨rfl, _, rfl⟩
  · exact ⟨rfl, _, rfl⟩
  · exact ⟨rfl, _, rfl⟩
  · exact ⟨rfl, _, rfl⟩

/-- C13 (the code at the failing input): the promise chain of `submitSectionForm`
never looks at the HTTP status.  With the printing panel filled with 120, 30 and
10 (showing `"150.0"` and `"6.3"`), a response of status 500 whose body has
`success` true makes it show a success banner, reset the three fields and
recompute the outputs to `"0.0"`. -/
theorem C13_status_500_with_success_body_resets_form :
    textOf (updateImprimerieCalculations (imprimeriePage "120" "30" "10"))
        "imp_total_production" = some "150.0" ∧
      textOf (updateImprimerieCalculations (imprimeriePage "120" "30" "10"))
        "imp_taux_dechet" = some "6.3" ∧
      submitSectionFormSettled
          { doc := updateImprimerieCalculations (imprimeriePage "120" "30" "10") }
          imprimerieForm "imprimerie" (.response 500 (.value true "ok")) =
        { doc := updateImprimerieCalculations (imprimeriePage "" "" ""),
          alerts := [("success", "ok")] } ∧
      textOf (updateImprimerieCalculations (imprimeriePage "" "" "")) "imp_total_production" =
        some "0.0" ∧
      fieldValue (updateImprimerieCalculations (imprimeriePage "" "" "")) "imp_bobines_finies" =
        some "" := by
  decide!

/-! ## C14: recomputation is idempotent and only writes the output texts -/

/-- Writing to an element the text it already shows (or writing to a missing
element) changes nothing. -/
theorem setTextContent_of_text (doc : Document) (id s : String)
    (h : (textOf doc id).map (fun _ => s) = textOf doc id) : setTextContent doc id s = doc := by
  induction doc with
  | nil => rfl
  | cons hd rest ih =>
    obtain ⟨i, e⟩ := hd
    by_cases hi : i = id
    · have hs : s = e.textContent := by simpa [textOf, getElementById, hi] using h
      simp [setTextContent, hi, hs]
    · have hrest : (textOf rest id).map (fun _ => s) = textOf rest id := by
        simpa [textOf, getElementById, hi] using h
      simp [setTextContent, hi, ih hrest]

/-- An element shows the text that has just been written to it. -/
theorem text_written_self (d : Document) (a s : String) :
    (textOf (setTextContent d a s) a).map (fun _ => s) = textOf (setTextContent d a s) a := by
  rw [textOf_setTextContent, if_pos rfl]
  cases textOf d a <;> rfl

/-- A write to another element keeps the text that an element shows. -/
theorem text_written_other (d : Document) (a b s t : String) (hab : b ≠ a)
    (h : (textOf d a).map (fun _ => s) = textOf d a) :
    (textOf (setTextContent d b t) a).map (fun _ => s) = textOf (setTextContent d b t) a := by
  rw [textOf_setTextContent_ne d b a t hab]
  exact h

/-- Two writes to distinct elements, done twice, are the two writes. -/
theorem writes2_idem (d : Document) (a1 a2 s1 s2 : String) (h12 : a1 ≠ a2) :
    setTextContent (setTextContent
        (setTextContent (setTextContent d a1 s1) a2 s2) a1 s1) a2 s2 =
      setTextContent (setTextContent d a1 s1) a2 s2 := by
  have e1 : setTextContent (setTextContent (setTextContent d a1 s1) a2 s2) a1 s1 =
      setTextContent (setTextContent d a1 s1) a2 s2 :=
    setTextContent_of_text _ _ _ (text_written_other _ _ _ _ _ (Ne.symm h12) (text_written_self _ _ _))
  have e2 : setTextContent (setTextContent (setTextContent d a1 s1) a2 s2) a2 s2 =
      setTextContent (setTextContent d a1 s1) a2 s2 :=
    setTextContent_of_text _ _ _ (text_written_self _ _ _)
  rw [e1, e2]

/-- Three writes to distinct elements, done twice, are the three writes. -/
theorem writes3_idem (d : Document) (a1 a2 a3 s1 s2 s3 : String)
    (h12 : a1 ≠ a2) (h13 : a1 ≠ a3) (h23 : a2 ≠ a3) :
    setTextContent (setTextContent (setTextContent
        (setTextContent (setTextContent (setTextContent d a1 s1) a2 s2) a3 s3)
        a1 s1) a2 s2) a3 s3 =
      setTextContent (setTextContent (setTextContent d a1 s1) a2 s2) a3 s3 := by
  have e1 : setTextContent (setTextContent (setTextContent (setTextContent d a1 s1) a2 s2) a3 s3)
      a1 s1 = setTextContent (setTextContent (setTextContent d a1 s1) a2 s2) a3 s3 :=
    setTextContent_of_text _ _ _ (text_written_other _ _ _ _ _ (Ne.symm h13)
      (text_written_other _ _ _ _ _ (Ne.symm h12) (text_written_self _ _ _)))
  have e2 : setTextContent (setTextContent (setTextContent (setTextContent d a1 s1) a2 s2) a3 s3)
      a2 s2 = setTextContent (setTextContent (setTextContent d a1 s1) a2 s2) a3 s3 :=
    setTextContent_of_text _ _ _ (text_written_other _ _ _ _ _ (Ne.symm h23)
      (text_written_self _ _ _))
  have e3 : setTextContent (setTextContent (setTextContent (setTextContent d a1 s1) a2 s2) a3 s3)
      a3 s3 = setTextContent (setTextContent (setTextContent d a1 s1) a2 s2) a3 s3 :=
    setTextContent_of_text _ _ _ (text_written_self _ _ _)
  rw [e1, e2, e3]

/-- Four writes to distinct elements, done twice, are the four writes. -/
theorem writes4_idem (d : Document) (a1 a2 a3 a4 s1 s2 s3 s4 : String)
    (h12 : a1 ≠ a2) (h13 : a1 ≠ a3) (h14 : a1 ≠ a4) (h23 : a2 ≠ a3) (h24 : a2 ≠ a4)
    (h34 : a3 ≠ a4) :
    setTextContent (setTextContent (setTextContent (setTextContent
        (setTextContent (setTextContent (setTextContent (setTextContent d a1 s1) a2 s2) a3 s3)
          a4 s4) a1 s1) a2 s2) a3 s3) a4 s4 =
      setTextContent (setTextContent (setTextContent (setTextContent d a1 s1) a2 s2) a3 s3)
        a4 s4 := by
  have e1 : setTextContent (setTextContent (setTextContent (setTextContent
      (setTextContent d a1 s1) a2 s2) a3 s3) a4 s4) a1 s1 =
      setTextContent (setTextContent (setTextContent (setTextContent d a1 s1) a2 s2) a3 s3)
        a4 s4 :=
    setTextContent_of_text _ _ _ (text_written_other _ _ _ _ _ (Ne.symm h14)
      (text_written_other _ _ _ _ _ (Ne.symm h13)
        (text_written_other _ _ _ _ _ (Ne.symm h12) (text_written_self _ _ _))))
  have e2 : setTextContent (setTextContent (setTextContent (setTextContent
      (setTextContent d a1 s1) a2 s2) a3 s3) a4 s4) a2 s2 =
      setTextContent (setTextContent (setTextContent (setTextContent d a1 s1) a2 s2) a3 s3)
        a4 s4 :=
    setTextContent_of_text _ _ _ (text_written_other _ _ _ _ _ (Ne.symm h24)
      (text_written_other _ _ _ _ _ (Ne.symm h23) (text_written_self _ _ _)))
  have e3 : setTextContent (setTextContent (setTextContent (setTextContent
      (setTextContent d a1 s1) a2 s2) a3 s3) a4 s4) a3 s3 =
      setTextContent (setTextContent (setTextContent (setTextContent d a1 s1) a2 s2) a3 s3)
        a4 s4 :=
    setTextContent_of_text _ _ _ (text_written_other _ _ _ _ _ (Ne.symm h34)
      (text_written_self _ _ _))
  have e4 : setTextContent (setTextContent (setTextContent (setTextContent
      (setTextContent d a1 s1) a2 s2) a3 s3) a4 s4) a4 s4 =
      setTextContent (setTextContent (setTextContent (setTextContent d a1 s1) a2 s2) a3 s3)
        a4 s4 :=
    setTextContent_of_text _ _ _ (text_written_self _ _ _)
  rw [e1, e2, e3, e4]

theorem updateExtrusionCalculations_idem (doc : Document) :
    updateExtrusionCalculations (updateExtrusionCalculations doc) =
      updateExtrusionCalculations doc := by
  unfold updateExtrusionCalculations
  simp only [readFloat, readCount, fieldValue_setTextContent]
  exact writes4_idem _ _ _ _ _ _ _ _ _ (by decide) (by decide) (by decide) (by decide)
    (by decide) (by decide)

theorem updateImprimerieCalculations_idem (doc : Document) :
    updateImprimerieCalculations (updateImprimerieCalculations doc) =
      updateImprimerieCalculations doc := by
  unfold updateImprimerieCalculations
  simp only [readFloat, readCount, fieldValue_setTextContent]
  exact writes2_idem _ _ _ _ _ (by decide)

theorem updateSoudureCalculations_idem (doc : Document) :
    updateSoudureCalculations (updateSoudureCalculations doc) =
      updateSoudureCalculations doc := by
  unfold updateSoudureCalculations
  simp only [readFloat, readCount, fieldValue_setTextContent]
  exact writes3_idem _ _ _ _ _ _ _ (by decide) (by decide) (by decide)

theorem updateRecyclageCalculations_idem (doc : Document) :
    updateRecyclageCalculations (updateRecyclageCalculations doc) =
      updateRecyclageCalculations doc := by
  unfold updateRecyclageCalculations
  simp only [readFloat, readCount, fieldValue_setTextContent]
  exact writes3_idem _ _ _ _ _ _ _ (by decide) (by decide) (by decide)

theorem eraseTexts_setTextContent (doc : Document) (id s : String) :
    eraseTexts (setTextContent doc id s) = eraseTexts doc := by
  induction doc with
  | nil => rfl
  | cons hd rest ih =>
    obtain ⟨i, e⟩ := hd
    unfold eraseTexts at ih ⊢
    by_cases hi : i = id
    · simp [setTextContent, hi]
    · simp [setTextContent, hi, ih]

/-- C14: each of the four recomputation functions, run twice in a row, leaves
the page that one run leaves (so the same displayed texts); it changes the
value of no field, nothing but texts in the page, and no element other than
its outputs. -/
theorem C14_recomputation_idempotent_and_only_writes_outputs (doc : Document) :
    (updateExtrusionCalculations (updateExtrusionCalculations doc) =
        updateExtrusionCalculations doc ∧
      (∀ id, fieldValue (updateExtrusionCalculations doc) id = fieldValue doc id) ∧
      eraseTexts (updateExtrusionCalculations doc) = eraseTexts doc ∧
      ∀ id, id ∉ ["total_production", "rendement", "taux_dechet", "prod_par_machine"] →
        getElementById (updateExtrusionCalculations doc) id = getElementById doc id) ∧
    (updateImprimerieCalculations (updateImprimerieCalculations doc) =
        updateImprimerieCalculations doc ∧
      (∀ id, fieldValue (updateImprimerieCalculations doc) id = fieldValue doc id) ∧
      eraseTexts (updateImprimerieCalculations doc) = eraseTexts doc ∧
      ∀ id, id ∉ ["imp_total_production", "imp_taux_dechet"] →
        getElementById (updateImprimerieCalculations doc) id = getElementById doc id) ∧
    (updateSoudureCalculations (updateSoudureCalculations doc) =
        updateSoudureCalculations doc ∧
      (∀ id, fieldValue (updateSoudureCalculations doc) id = fieldValue doc id) ∧
      eraseTexts (updateSoudureCalculations doc) = eraseTexts doc ∧
      ∀ id, id ∉ ["sou_total_production", "sou_total_specifique", "sou_taux_dechet"] →
        getElementById (updateSoudureCalculations doc) id = getElementById doc id) ∧
    (updateRecyclageCalculations (updateRecyclageCalculations doc) =
        updateRecyclageCalculations doc ∧
      (∀ id, fieldValue (updateRecyclageCalculations doc) id = fieldValue doc id) ∧
      eraseTexts (updateRecyclageCalculations doc) = eraseTexts doc ∧
      ∀ id, id ∉ ["rec_total_production", "rec_prod_par_moulinex", "rec_taux_transformation"] →
        getElementById (updateRecyclageCalculations doc) id = getElementById doc id) := by
  refine ⟨⟨updateExtrusionCalculations_idem doc, ?_, ?_, ?_⟩,
    ⟨updateImprimerieCalculations_idem doc, ?_, ?_, ?_⟩,
    ⟨updateSoudureCalculations_idem doc, ?_, ?_, ?_⟩,
    ⟨updateRecyclageCalculations_idem doc, ?_, ?_, ?_⟩⟩
  · intro id
    simp only [updateExtrusionCalculations, fieldValue_setTextContent]
  · simp only [updateExtrusionCalculations, eraseTexts_setTextContent]
  · intro id hid
    simp only [List.mem_cons, List.mem_singleton, List.not_mem_nil, or_false, not_or] at hid
    obtain ⟨h1, h2, h3, h4⟩ := hid
    simp only [updateExtrusionCalculations]
    rw [getElementById_setTextContent_ne _ _ _ _ (Ne.symm h4),
      getElementById_setTextContent_ne _ _ _ _ (Ne.symm h3),
      getElementById_setTextContent_ne _ _ _ _ (Ne.symm h2),
      getElementById_setTextContent_ne _ _ _ _ (Ne.symm h1)]
  · intro id
    simp only [updateImprimerieCalculations, fieldValue_setTextContent]
  · simp only [updateImprimerieCalculations, eraseTexts_setTextContent]
  · intro id hid
    simp only [List.mem_cons, List.mem_singleton, List.not_mem_nil, or_false, not_or] at hid
    obtain ⟨h1, h2⟩ := hid
    simp only [updateImprimerieCalculations]
    rw [getElementById_setTextContent_ne _ _ _ _ (Ne.symm h2),
      getElementById_setTextContent_ne _ _ _ _ (Ne.symm h1)]
  · intro id
    simp only [updateSoudureCalculations, fieldValue_setTextContent]
  · simp only [updateSoudureCalculations, eraseTexts_setTextContent]
  · intro id hid
    simp only [List.mem_cons, List.mem_singleton, List.not_mem_nil, or_false, not_or] at hid
    obtain ⟨h1, h2, h3⟩ := hid
    simp only [updateSoudureCalculations]
    rw [getElementById_setTextContent_ne _ _ _ _ (Ne.symm h3),
      getElementById_setTextContent_ne _ _ _ _ (Ne.symm h2),
      getElementById_setTextContent_ne _ _ _ _ (Ne.symm h1)]
  · intro id
    simp only [updateRecyclageCalculations, fieldValue_setTextContent]
  · simp only [updateRecyclageCalculations, eraseTexts_setTextContent]
  · intro id hid
    simp only [List.mem_cons, List.mem_singleton, List.not_mem_nil, or_false, not_or] at hid
    obtain ⟨h1, h2, h3⟩ := hid
    simp only [updateRecyclageCalculations]
    rw [getElementById_setTextContent_ne _ _ _ _ (Ne.symm h3),
      getElementById_setTextContent_ne _ _ _ _ (Ne.symm h2),
      getElementById_setTextContent_ne _ _ _ _ (Ne.symm h1)]

/-! ## C15: bounds of the waste rates -/

/-- C15 (as amended): for every reading with finite non-negative fields, the
waste rate that `updateExtrusionCalculations`, `updateImprimerieCalculations`
and `updateSoudureCalculations` compute before rounding (the value whose
`toFixed(1)` they write) is a number between 0 and 100, and is 0 when the waste
is 0. -/
theorem C15_waste_rate_bounded :
    (∀ doc : Document,
      textOf (updateExtrusionCalculations doc) "taux_dechet" =
        (textOf doc "taux_dechet").map (fun _ => toFixed1 (extrusionTauxDechet
          ((readFloat doc "prod_finis").add (readFloat doc "prod_semi_finis"))
          (readFloat doc "dechets")))) ∧
    (∀ doc : Document,
      textOf (updateImprimerieCalculations doc) "imp_taux_dechet" =
        (textOf doc "imp_taux_dechet").map (fun _ => toFixed1 (sectionTauxDechet
          ((readFloat doc "imp_bobines_finies").add (readFloat doc "imp_bobines_semi_finies"))
          (readFloat doc "imp_dechets")))) ∧
    (∀ doc : Document,
      textOf (updateSoudureCalculations doc) "sou_taux_dechet" =
        (textOf doc "sou_taux_dechet").map (fun _ => toFixed1 (sectionTauxDechet
          ((readFloat doc "sou_bobines_finies").add
            (((readFloat doc "sou_bretelles").add (readFloat doc "sou_rema")).add
              (readFloat doc "sou_batta")))
          (readFloat doc "sou_dechets")))) ∧
    (∀ (doc : Document) (f s w : ℚ), readFloat doc "prod_finis" = .fin f →
      readFloat doc "prod_semi_finis" = .fin s → readFloat doc "dechets" = .fin w →
      0 ≤ f → 0 ≤ s → 0 ≤ w →
      ∃ q, extrusionTauxDechet
          ((readFloat doc "prod_finis").add (readFloat doc "prod_semi_finis"))
          (readFloat doc "dechets") = .fin q ∧ 0 ≤ q ∧ q ≤ 100 ∧ (w = 0 → q = 0)) ∧
    (∀ (doc : Document) (f s w : ℚ), readFloat doc "imp_bobines_finies" = .fin f →
      readFloat doc "imp_bobines_semi_finies" = .fin s → readFloat doc "imp_dechets" = .fin w →
      0 ≤ f → 0 ≤ s → 0 ≤ w →
      ∃ q, sectionTauxDechet
          ((readFloat doc "imp_bobines_finies").add (readFloat doc "imp_bobines_semi_finies"))
          (readFloat doc "imp_dechets") = .fin q ∧ 0 ≤ q ∧ q ≤ 100 ∧ (w = 0 → q = 0)) ∧
    (∀ (doc : Document) (r st re ba w : ℚ), readFloat doc "sou_bobines_finies" = .fin r →
      readFloat doc "sou_bretelles" = .fin st → readFloat doc "sou_rema" = .fin re →
      readFloat doc "sou_batta" = .fin ba → readFloat doc "sou_dechets" = .fin w →
      0 ≤ r → 0 ≤ st → 0 ≤ re → 0 ≤ ba → 0 ≤ w →
      ∃ q, sectionTauxDechet
          ((readFloat doc "sou_bobines_finies").add
            (((readFloat doc "sou_bretelles").add (readFloat doc "sou_rema")).add
              (readFloat doc "sou_batta")))
          (readFloat doc "sou_dechets") = .fin q ∧ 0 ≤ q ∧ q ≤ 100 ∧ (w = 0 → q = 0)) := by
  refine ⟨fun doc => (textOf_updateExtrusionCalculations doc).2.2.1,
    fun doc => (textOf_updateImprimerieCalculations doc).2,
    fun doc => (textOf_updateSoudureCalculations doc).2.2, ?_, ?_, ?_⟩
  · intro doc f s w hf hs hw hf0 hs0 hw0
    have stotal := isNonnegSum_add _ _ _ _ (isNonnegSum_readFloat doc _ f hf hf0)
      (isNonnegSum_readFloat doc _ s hs hs0)
    rw [hw]
    exact extrusionTauxDechet_bounds _ _ w stotal hw0 (isDouble_of_readFloat doc _ w hw)
  · intro doc f s w hf hs hw hf0 hs0 hw0
    have stotal := isNonnegSum_add _ _ _ _ (isNonnegSum_readFloat doc _ f hf hf0)
      (isNonnegSum_readFloat doc _ s hs hs0)
    rw [hw]
    exact sectionTauxDechet_bounds _ _ w stotal hw0 (isDouble_of_readFloat doc _ w hw)
  · intro doc r st re ba w hr hst hre hba hw hr0 hst0 hre0 hba0 hw0
    have stotal := isNonnegSum_add _ _ _ _ (isNonnegSum_readFloat doc _ r hr hr0)
      (isNonnegSum_add _ _ _ _
        (isNonnegSum_add _ _ _ _ (isNonnegSum_readFloat doc _ st hst hst0)
          (isNonnegSum_readFloat doc _ re hre hre0))
        (isNonnegSum_readFloat doc _ ba hba hba0))
    rw [hw]
    exact sectionTauxDechet_bounds _ _ w stotal hw0 (isDouble_of_readFloat doc _ w hw)

/-- C15 (witness): a production of 150 with a waste of 10 has a waste rate of
6.25 on the printing panel, between 0 and 100. -/
theorem C15_waste_rate_bounded_witness :
    sectionTauxDechet
        ((readFloat (imprimeriePage "150" "0" "10") "imp_bobines_finies").add
          (readFloat (imprimeriePage "150" "0" "10") "imp_bobines_semi_finies"))
        (readFloat (imprimeriePage "150" "0" "10") "imp_dechets") = .fin (25 / 4) ∧
      ∃ q, sectionTauxDechet
          ((readFloat (imprimeriePage "150" "0" "10") "imp_bobines_finies").add
            (readFloat (imprimeriePage "150" "0" "10") "imp_bobines_semi_finies"))
          (readFloat (imprimeriePage "150" "0" "10") "imp_dechets") = .fin q ∧
        0 ≤ q ∧ q ≤ 100 ∧ ((10 : ℚ) = 0 → q = 0) :=
  ⟨by decide!,
    C15_waste_rate_bounded.2.2.2.2.1 (imprimeriePage "150" "0" "10") 150 0 10 (by decide!)
      (by decide!) (by decide!) (by norm_num) (by norm_num) (by norm_num)⟩

/-- C15 (counterexample): the waste rate is not non-decreasing in the waste.
With a production of `185.91`, raising the waste from `86.0` to
`86.00000000000001` lowers the rate computed by the printing panel and by the
extrusion page by one unit in the last place (rounding of the quotient); with a
production of `1e308`, raising the waste from `1e307` to `1e308` makes
`total + waste` overflow and the rate drop from about 9.09 to 0. -/
theorem C15_waste_rate_not_monotone_counterexample :
    readFloat (imprimeriePage "185.91" "0" "86.0") "imp_dechets" = .fin 86 ∧
      readFloat (imprimeriePage "185.91" "0" "86.00000000000001") "imp_dechets" =
        .fin (6051711999279105 / 70368744177664) ∧
      (86 : ℚ) < 6051711999279105 / 70368744177664 ∧
      sectionTauxDechet
          ((readFloat (imprimeriePage "185.91" "0" "86.0") "imp_bobines_finies").add
            (readFloat (imprimeriePage "185.91" "0" "86.0") "imp_bobines_semi_finies"))
          (readFloat (imprimeriePage "185.91" "0" "86.0") "imp_dechets") =
        .fin (8902522157006517 / 281474976710656) ∧
      sectionTauxDechet
          ((readFloat (imprimeriePage "185.91" "0" "86.00000000000001")
            "imp_bobines_finies").add
            (readFloat (imprimeriePage "185.91" "0" "86.00000000000001")
              "imp_bobines_semi_finies"))
          (readFloat (imprimeriePage "185.91" "0" "86.00000000000001") "imp_dechets") =
        .fin (8902522157006516 / 281474976710656) ∧
      extrusionTauxDechet
          ((readFloat (extrusionPage "185.91" "0" "86.0" "0" "1") "prod_finis").add
            (readFloat (extrusionPage "185.91" "0" "86.0" "0" "1") "prod_semi_finis"))
          (readFloat (extrusionPage "185.91" "0" "86.0" "0" "1") "dechets") =
        .fin (8902522157006517 / 281474976710656) ∧
      extrusionTauxDechet
          ((readFloat (extrusionPage "185.91" "0" "86.00000000000001" "0" "1")
            "prod_finis").add
            (readFloat (extrusionPage "185.91" "0" "86.00000000000001" "0" "1")
              "prod_semi_finis"))
          (readFloat (extrusionPage "185.91" "0" "86.00000000000001" "0" "1") "dechets") =
        .fin (8902522157006516 / 281474976710656) ∧
      (8902522157006516 / 281474976710656 : ℚ) < 8902522157006517 / 281474976710656 ∧
      textOf (updateImprimerieCalculations (imprimeriePage "1e308" "0" "1e307"))
        "imp_taux_dechet" = some "9.1" ∧
      textOf (updateImprimerieCalculations (imprimeriePage "1e308" "0" "1e308"))
        "imp_taux_dechet" = some "0.0" := by
  decide!

/-! ## C16: the current page -/

/-- The test `includes` is the substring relation. -/
theorem includesList_iff (sub l : List Char) : includesList sub l = true ↔ sub <:+: l := by
  induction l with
  | nil => simp [includesList, List.infix_nil]
  | cons c cs ih =>
    simp only [includesList, Bool.or_eq_true, List.isPrefixOf_iff_prefix, ih,
      List.infix_cons_iff]

/-- C16: `getCurrentPage` is defined on every path and returns the page of the
first substring, in the order `dashboard/direction`, `dashboard`,
`saisie/extrusion`, `saisie/sections`, `historique`, `login`, that the path
contains (`includes` being the substring test), and `default` when it contains
none; a path that contains `dashboard/direction` gives `dashboard-direction`,
and a path that contains `dashboard` gives a dashboard page, also when it
contains `saisie/extrusion` or `historique`. -/
theorem C16_getCurrentPage_first_match :
    (∀ path : String, getCurrentPage path = firstMatchingPage path) ∧
    (∀ s sub : String, includes s sub = true ↔ sub.toList <:+: s.toList) ∧
    (∀ path : String, includes path "dashboard/direction" = true →
      getCurrentPage path = "dashboard-direction") ∧
    (∀ path : String, includes path "dashboard" = true →
      getCurrentPage path = "dashboard-direction" ∨ getCurrentPage path = "dashboard") ∧
    (∀ path : String, (∀ entry ∈ pageTable, includes path entry.1 = false) →
      getCurrentPage path = "default") ∧
    getCurrentPage "/dashboard/saisie/extrusion/" = "dashboard" ∧
    getCurrentPage "/historique/dashboard" = "dashboard" := by
  refine ⟨?_, ?_, ?_, ?_, ?_, by decide, by decide⟩
  · intro path
    unfold getCurrentPage firstMatchingPage pageTable
    by_cases h1 : includes path "dashboard/direction" = true
    · simp [List.find?, h1]
    by_cases h2 : includes path "dashboard" = true
    · simp [List.find?, h1, h2]
    by_cases h3 : includes path "saisie/extrusion" = true
    · simp [List.find?, h1, h2, h3]
    by_cases h4 : includes path "saisie/sections" = true
    · simp [List.find?, h1, h2, h3, h4]
    by_cases h5 : includes path "historique" = true
    · simp [List.find?, h1, h2, h3, h4, h5]
    by_cases h6 : includes path "login" = true
    · simp [List.find?, h1, h2, h3, h4, h5, h6]
    simp [List.find?, h1, h2, h3, h4, h5, h6]
  · intro s sub
    exact includesList_iff _ _
  · intro path h
    simp [getCurrentPage, h]
  · intro path h
    unfold getCurrentPage
    by_cases h1 : includes path "dashboard/direction" = true
    · left; simp [h1]
    · right; simp [h1, h]
  · intro path h
    have h1 := h ("dashboard/direction", "dashboard-direction") (by simp [pageTable])
    have h2 := h ("dashboard", "dashboard") (by simp [pageTable])
    have h3 := h ("saisie/extrusion", "saisie-extrusion") (by simp [pageTable])
    have h4 := h ("saisie/sections", "saisie-sections") (by simp [pageTable])
    have h5 := h ("historique", "historique") (by simp [pageTable])
    have h6 := h ("login", "login") (by simp [pageTable])
    simp only at h1 h2 h3 h4 h5 h6
    simp [getCurrentPage, h1, h2, h3, h4, h5, h6]

/-- C16 (witness): the path of the direction dashboard. -/
theorem C16_getCurrentPage_first_match_witness :
    includes "/dashboard/direction/" "dashboard/direction" = true ∧
      getCurrentPage "/dashboard/direction/" = "dashboard-direction" :=
  ⟨by decide, C16_getCurrentPage_first_match.2.2.1 "/dashboard/direction/" (by decide)⟩

end Sofemci
